import Mathlib

/-!
Order fulfilment engine of the bookstore (`src/app/api/orders/route.js`)

A shallow embedding of the three transactional handlers `POST` (create),
`PUT` (update) and `DELETE` (delete) together with the part of the MySQL
store they talk to, followed by theorems about them.

Modelling conventions

* Tables are lists of rows in storage order; an `INSERT` appends a row.
* Money (`DECIMAL(10,2)`) is an exact count of hundredths, so `10.00` is
  `1000`; quantities and stock counts are integers (`INT`).  No stock floor
  and no column range is modelled: a statement that the store would reject
  is covered by the fault plan below.
* Every call on the pool or on the connection may throw.  Which call throws,
  and with which message, is given by a `Faults` plan; theorems quantify over
  all plans, so they hold for whatever the store decides to reject.
* `AUTO_INCREMENT` counters are not transactional: a rollback restores the
  rows but keeps the counters.
* `scripts/init-db.js` declares the foreign keys `OrderItems.OrderID`,
  `OrderItems.BookID` and `Orders.CustomerID`.  A plan says whether the store
  enforces them (`Faults.foreignKeys`); when it does, a statement that would
  break one of them throws.
* `DELETE` binds the text of the URL parameter `id` to `WHERE OrderID = ?`.
  How the store compares a text with an `INT` column is the store's business:
  the plan says which key, if any, a text is equal to (`Faults.keyOf`), and
  theorems hold for every such reading.
* The listing query is read with the store's rules for `NULL`: a `LEFT JOIN`
  without partner yields `NULL` columns, `CONCAT` of a `NULL` is `NULL`, and
  `GROUP_CONCAT` skips `NULL` and is `NULL` when nothing is left.  The query
  gives no order inside `GROUP_CONCAT`: the plan ranks the item rows
  (`Faults.itemRank`).  The store cuts the aggregate at `group_concat_max_len`
  bytes (`Faults.groupConcatMaxLen`, 1024 unless the server is told otherwise);
  bytes are counted in UTF-8.
-/

namespace Bookstore

/-! ## Persisted shape -/

/-- Row of `Books` (only the columns the order engine and the listing read). -/
structure Book where
  BookID : Nat
  Title : String
  Stock : Int
  deriving DecidableEq, Repr

/-- Row of `Customers`. -/
structure Customer where
  CustomerID : Nat
  Name : String
  deriving DecidableEq, Repr

/-- Row of `Orders`.  `Status` is nullable: `PUT` binds the request value as is. -/
structure Order where
  OrderID : Nat
  CustomerID : Nat
  OrderDate : Nat
  TotalAmount : Int
  Status : Option String
  deriving DecidableEq, Repr

/-- Row of `OrderItems`. -/
structure OrderItem where
  OrderItemID : Nat
  OrderID : Nat
  BookID : Nat
  Quantity : Int
  Price : Int
  deriving DecidableEq, Repr

/-- The tables and the two `AUTO_INCREMENT` counters the handlers use. -/
structure Database where
  Books : List Book
  Customers : List Customer
  Orders : List Order
  OrderItems : List OrderItem
  nextOrderID : Nat
  nextOrderItemID : Nat
  deriving DecidableEq, Repr

/-! ## Requests and responses -/

/-- One element of the request's `items` array: `{ bookId, quantity, price }`. -/
structure Item where
  bookId : Nat
  quantity : Int
  price : Int
  deriving DecidableEq, Repr

/-- The `items` field of a request body as the handlers look at it. -/
inductive Items where
  /-- the field is `undefined` or `null` -/
  | absent
  /-- the field holds a value that is not an array -/
  | notArray
  /-- the field holds an array -/
  | array (xs : List Item)
  deriving DecidableEq, Repr

/-- Body of a `POST` request after `request.json()`; `none` is an absent field. -/
structure CreateRequest where
  customerId : Option Nat
  items : Items
  status : Option String
  deriving DecidableEq, Repr

/-- Body of a `PUT` request after `request.json()`. -/
structure UpdateRequest where
  orderId : Option Nat
  customerId : Option Nat
  items : Items
  status : Option String
  deriving DecidableEq, Repr

/-- The JSON answer of a handler: HTTP status, `success`, `message`,
`data.orderId` and `error`. -/
structure Response where
  status : Nat
  success : Bool
  message : String
  orderId : Option Nat
  error : Option String
  deriving DecidableEq, Repr

/-! ## Pool, connection and fault plan -/

/-- What the handler asked of the pool or of the connection, in call order. -/
inductive Event where
  | getConnection
  | beginTransaction
  | execute (sql : String)
  | commit
  | rollback
  | release
  deriving DecidableEq, Repr

/-- What the store and the driver decide in a call.  Which calls throw, and
with which `error.message`: `statement n` is the `n`-th `connection.execute` of
the call, counted from 0.  `foreignKeys` says whether the store enforces the
foreign keys declared by `scripts/init-db.js`.  `keyOf text` is the value an
`INT` key column must hold for the store to find it equal to the bound text,
`none` when no natural number is equal to the text.  `itemRank` gives the
position the store aggregates an item row at, by its `OrderItemID`, and
`groupConcatMaxLen` is the server variable `group_concat_max_len`. -/
structure Faults where
  getConnection : Option String
  beginTransaction : Option String
  statement : Nat → Option String
  commit : Option String
  rollback : Option String
  foreignKeys : Bool
  keyOf : String → Option Nat
  itemRank : Nat → Nat
  groupConcatMaxLen : Nat

/-- The number a decimal numeral spells; `none` for the empty text and for
text with a character that is not a digit. -/
def decimal (cs : List Char) : Option Nat :=
  if cs = [] then none
  else cs.foldl (fun acc c => acc.bind fun n =>
    if c.isDigit then some (10 * n + (c.toNat - 48)) else none) (some 0)

/-- The reading of bound texts in the sample plans, meant for plain decimal
numerals, the only texts the sample calls bind: such a numeral is equal to the
number it spells.  Other texts are given no key here, although a store reads
some of them as a number ("7.0" as 7); the theorems hold for every reading. -/
def plainNumeral (text : String) : Option Nat :=
  decimal text.data

/-- The plan under which nothing throws. -/
def noFaults : Faults :=
  { getConnection := none, beginTransaction := none, statement := fun _ => none,
    commit := none, rollback := none, foreignKeys := false,
    keyOf := plainNumeral, itemRank := fun _ => 0, groupConcatMaxLen := 1024 }

/-- The committed store together with the calls made so far. -/
structure World where
  db : Database
  log : List Event
  deriving DecidableEq, Repr

/-- An open transaction on a connection: its working copy of the store, the
number of statements issued on it and the calls made so far. -/
structure Session where
  work : Database
  issued : Nat
  log : List Event
  deriving DecidableEq, Repr

/-- Result of awaiting a call on the connection: a value, or a thrown error. -/
inductive Outcome (α : Type) where
  | ok (value : α) (s : Session)
  | threw (error : String) (s : Session)

/-- Awaits `connection.execute(sql, params)`: the call is logged, throws when
the plan says so and otherwise applies the statement `run` to the working copy. -/
def execute {α : Type} (f : Faults) (sql : String) (run : Database → Database × α)
    (s : Session) : Outcome α :=
  let s1 : Session := { s with issued := s.issued + 1, log := s.log ++ [Event.execute sql] }
  match f.statement s.issued with
  | some e => Outcome.threw e s1
  | none => Outcome.ok (run s.work).2 { s1 with work := (run s.work).1 }

/-- Awaits `connection.execute(sql, params)` for a statement that a foreign key
guards: when the store enforces foreign keys and the statement would break
one (`violated`), the call is logged and throws the store's message;
otherwise it is `execute`. -/
def executeChecked {α : Type} (f : Faults) (sql : String) (violated : Database → Bool)
    (run : Database → Database × α) (s : Session) : Outcome α :=
  if f.foreignKeys = true ∧ violated s.work = true then
    Outcome.threw "a foreign key constraint fails"
      { s with issued := s.issued + 1, log := s.log ++ [Event.execute sql] }
  else execute f sql run s

/-! ## The statements of `route.js` -/

/-- Statement `INSERT INTO Orders (CustomerID, OrderDate, TotalAmount, Status)
VALUES (?, NOW(), ?, ?)`; the second component is `insertId`. -/
def insertOrder (customerId now : Nat) (totalAmount : Int) (status : Option String)
    (db : Database) : Database × Nat :=
  ({ db with
      Orders := db.Orders ++ [{ OrderID := db.nextOrderID, CustomerID := customerId,
                                OrderDate := now, TotalAmount := totalAmount,
                                Status := status }],
      nextOrderID := db.nextOrderID + 1 },
   db.nextOrderID)

/-- Statement `INSERT INTO OrderItems (OrderID, BookID, Quantity, Price)
VALUES (?, ?, ?, ?)`. -/
def insertOrderItem (orderId bookId : Nat) (quantity price : Int)
    (db : Database) : Database × Unit :=
  ({ db with
      OrderItems := db.OrderItems ++ [{ OrderItemID := db.nextOrderItemID, OrderID := orderId,
                                        BookID := bookId, Quantity := quantity,
                                        Price := price }],
      nextOrderItemID := db.nextOrderItemID + 1 },
   ())

/-- Statement `UPDATE Books SET Stock = Stock - ? WHERE BookID = ?`. -/
def decreaseStock (quantity : Int) (bookId : Nat) (db : Database) : Database × Unit :=
  ({ db with
      Books := db.Books.map fun b =>
        if b.BookID = bookId then { b with Stock := b.Stock - quantity } else b },
   ())

/-- Statement `UPDATE Books SET Stock = Stock + ? WHERE BookID = ?`. -/
def increaseStock (quantity : Int) (bookId : Nat) (db : Database) : Database × Unit :=
  ({ db with
      Books := db.Books.map fun b =>
        if b.BookID = bookId then { b with Stock := b.Stock + quantity } else b },
   ())

/-- Statement `SELECT BookID, Quantity FROM OrderItems WHERE OrderID = ?`.  The
parameter is the key the bound value is equal to; a value that is equal to no
key (`none`) selects no row. -/
def selectOrderItems : Option Nat → Database → Database × List (Nat × Int)
  | some orderId, db =>
    (db, (db.OrderItems.filter fun r => r.OrderID = orderId).map fun r => (r.BookID, r.Quantity))
  | none, db => (db, [])

/-- Statement `DELETE FROM OrderItems WHERE OrderID = ?`, with the parameter as
in `selectOrderItems`. -/
def deleteOrderItems : Option Nat → Database → Database × Unit
  | some orderId, db =>
    ({ db with OrderItems := db.OrderItems.filter fun r => ¬ r.OrderID = orderId }, ())
  | none, db => (db, ())

/-- Statement `UPDATE Orders SET CustomerID = ?, TotalAmount = ?, Status = ?
WHERE OrderID = ?`. -/
def updateOrder (customerId : Nat) (totalAmount : Int) (status : Option String) (orderId : Nat)
    (db : Database) : Database × Unit :=
  ({ db with
      Orders := db.Orders.map fun o =>
        if o.OrderID = orderId then
          { o with CustomerID := customerId, TotalAmount := totalAmount, Status := status }
        else o },
   ())

/-- Statement `DELETE FROM Orders WHERE OrderID = ?`, with the parameter as in
`selectOrderItems`. -/
def deleteOrder : Option Nat → Database → Database × Unit
  | some orderId, db => ({ db with Orders := db.Orders.filter fun o => ¬ o.OrderID = orderId }, ())
  | none, db => (db, ())

/-! ## The foreign keys of `scripts/init-db.js` -/

/-- Table `Customers` has a row with this `CustomerID`. -/
def customerExists (customerId : Nat) (db : Database) : Bool :=
  db.Customers.any fun c => c.CustomerID = customerId

/-- Table `Orders` has a row with this `OrderID`. -/
def orderExists (orderId : Nat) (db : Database) : Bool :=
  db.Orders.any fun o => o.OrderID = orderId

/-- Table `Books` has a row with this `BookID`. -/
def bookExists (bookId : Nat) (db : Database) : Bool :=
  db.Books.any fun b => b.BookID = bookId

/-- An `INSERT INTO Orders` breaks `FOREIGN KEY (CustomerID) REFERENCES Customers`
when the customer is absent. -/
def insertOrderViolates (customerId : Nat) (db : Database) : Bool :=
  !customerExists customerId db

/-- An `INSERT INTO OrderItems` breaks `FOREIGN KEY (OrderID) REFERENCES Orders`
or `FOREIGN KEY (BookID) REFERENCES Books` when the order or the book is absent. -/
def insertOrderItemViolates (orderId bookId : Nat) (db : Database) : Bool :=
  !orderExists orderId db || !bookExists bookId db

/-- An `UPDATE Orders SET CustomerID = ?` breaks the key to `Customers` when it
changes a row and the customer is absent. -/
def updateOrderViolates (customerId orderId : Nat) (db : Database) : Bool :=
  orderExists orderId db && !customerExists customerId db

/-- A `DELETE FROM Orders` breaks the key from `OrderItems` when an item row
still references an order it deletes. -/
def deleteOrderViolates : Option Nat → Database → Bool
  | some orderId, db => db.OrderItems.any fun r => r.OrderID = orderId
  | none, _ => false

/-! ## The transaction skeleton shared by the three handlers -/

/-- The 400 answer: `{ success: false, message }`. -/
def badRequest (message : String) : Response :=
  { status := 400, success := false, message := message, orderId := none, error := none }

/-- The 500 answer of the outer `catch`: `{ success: false, message, error: error.message }`. -/
def serverError (message error : String) : Response :=
  { status := 500, success := false, message := message, orderId := none, error := some error }

/-- The success answer: `{ success: true, message, data }`. -/
def okResponse (message : String) (orderId : Option Nat) : Response :=
  { status := 200, success := true, message := message, orderId := orderId, error := none }

/-- Awaits `connection.commit()` after the statements of the `try` block. -/
def thenCommit {α : Type} (f : Faults) : Outcome α → Outcome α
  | Outcome.threw e s => Outcome.threw e s
  | Outcome.ok a s =>
    match f.commit with
    | some e => Outcome.threw e { s with log := s.log ++ [Event.commit] }
    | none => Outcome.ok a { s with log := s.log ++ [Event.commit] }

/-- The committed store after a transaction that did not commit: the rows as
they were, the counters as the transaction left them. -/
def rolledBack (before work : Database) : Database :=
  { before with nextOrderID := work.nextOrderID, nextOrderItemID := work.nextOrderItemID }

/-- The common frame of `POST`, `PUT` and `DELETE`:
`getConnection`, `beginTransaction`, then
`try { body; commit; return } catch (error) { rollback; throw error } finally { release }`
inside the outer `try`/`catch` that answers 500 with `error.message`. -/
def withTransaction {α : Type} (f : Faults) (failed : String) (body : Session → Outcome α)
    (respond : α → Response) (w : World) : Response × World :=
  match f.getConnection with
  | some e => (serverError failed e, { w with log := w.log ++ [Event.getConnection] })
  | none =>
    match f.beginTransaction with
    | some e =>
      (serverError failed e,
       { w with log := w.log ++ [Event.getConnection, Event.beginTransaction] })
    | none =>
      match thenCommit f (body { work := w.db, issued := 0,
                                 log := w.log ++ [Event.getConnection, Event.beginTransaction] }) with
      | Outcome.ok a s => (respond a, { db := s.work, log := s.log ++ [Event.release] })
      | Outcome.threw e s =>
        (serverError failed (match f.rollback with
                             | some e2 => e2
                             | none => e),
         { db := rolledBack w.db s.work, log := s.log ++ [Event.rollback, Event.release] })

/-! ## Create: `POST` -/

/-- JavaScript truthiness of a number-valued field: absent and 0 are falsy. -/
def truthy (x : Option Nat) : Bool :=
  match x with
  | some n => n != 0
  | none => false

/-- The test `!items` on the `items` field. -/
def Items.falsy : Items → Bool
  | Items.absent => true
  | _ => false

/-- The test `Array.isArray(items)`. -/
def Items.isArray : Items → Bool
  | Items.array _ => true
  | _ => false

/-- The elements of `items` when it is an array. -/
def Items.toList : Items → List Item
  | Items.array xs => xs
  | _ => []

/-- The expression `status || 'Pending'`: the empty string is falsy too. -/
def statusOrPending (status : Option String) : String :=
  match status with
  | some s => if s = "" then "Pending" else s
  | none => "Pending"

/-- The reduction `items.reduce((total, item) => total + item.quantity * item.price, 0)`. -/
def totalAmount (items : List Item) : Int :=
  items.foldl (fun total item => total + item.quantity * item.price) 0

/-- The loop `for (const item of items)` of `POST` and `PUT`: insert the item
row, then decrement the stock of its book. -/
def insertItems (f : Faults) (orderId : Nat) : List Item → Session → Outcome Unit
  | [], s => Outcome.ok () s
  | item :: rest, s =>
    match executeChecked f
        "INSERT INTO OrderItems (OrderID, BookID, Quantity, Price) VALUES (?, ?, ?, ?)"
        (insertOrderItemViolates orderId item.bookId)
        (insertOrderItem orderId item.bookId item.quantity item.price) s with
    | Outcome.threw e s1 => Outcome.threw e s1
    | Outcome.ok _ s1 =>
      match execute f "UPDATE Books SET Stock = Stock - ? WHERE BookID = ?"
          (decreaseStock item.quantity item.bookId) s1 with
      | Outcome.threw e s2 => Outcome.threw e s2
      | Outcome.ok _ s2 => insertItems f orderId rest s2

/-- The statements of the `try` block of `POST`, up to the commit. -/
def createBody (f : Faults) (now customerId : Nat) (total : Int) (status : Option String)
    (items : List Item) (s : Session) : Outcome Nat :=
  match executeChecked f
      "INSERT INTO Orders (CustomerID, OrderDate, TotalAmount, Status) VALUES (?, NOW(), ?, ?)"
      (insertOrderViolates customerId)
      (insertOrder customerId now total (some (statusOrPending status))) s with
  | Outcome.threw e s1 => Outcome.threw e s1
  | Outcome.ok orderId s1 =>
    match insertItems f orderId items s1 with
    | Outcome.threw e s2 => Outcome.threw e s2
    | Outcome.ok _ s2 => Outcome.ok orderId s2

/-- Handler `POST(request)`; `now` is the value `NOW()` takes in the store. -/
def POST (f : Faults) (now : Nat) (req : CreateRequest) (w : World) : Response × World :=
  if !truthy req.customerId || req.items.falsy || !req.items.isArray
      || req.items.toList.length == 0 then
    (badRequest "Invalid order data", w)
  else
    withTransaction f "Failed to create order"
      (createBody f now (req.customerId.getD 0) (totalAmount req.items.toList) req.status
        req.items.toList)
      (fun orderId => okResponse "Order created successfully" (some orderId)) w

/-! ## Update: `PUT` -/

/-- The loop `for (const item of currentItems)` of `PUT` and `DELETE`: give the
stored quantity of every selected row `(BookID, Quantity)` back to its book. -/
def restoreStock (f : Faults) : List (Nat × Int) → Session → Outcome Unit
  | [], s => Outcome.ok () s
  | item :: rest, s =>
    match execute f "UPDATE Books SET Stock = Stock + ? WHERE BookID = ?"
        (increaseStock item.2 item.1) s with
    | Outcome.threw e s1 => Outcome.threw e s1
    | Outcome.ok _ s1 => restoreStock f rest s1

/-- The statements of the `try` block of `PUT`, up to the commit. -/
def updateBody (f : Faults) (orderId customerId : Nat) (total : Int) (status : Option String)
    (items : List Item) (s : Session) : Outcome Nat :=
  match execute f "SELECT BookID, Quantity FROM OrderItems WHERE OrderID = ?"
      (selectOrderItems (some orderId)) s with
  | Outcome.threw e s1 => Outcome.threw e s1
  | Outcome.ok currentItems s1 =>
    match restoreStock f currentItems s1 with
    | Outcome.threw e s2 => Outcome.threw e s2
    | Outcome.ok _ s2 =>
      match execute f "DELETE FROM OrderItems WHERE OrderID = ?"
          (deleteOrderItems (some orderId)) s2 with
      | Outcome.threw e s3 => Outcome.threw e s3
      | Outcome.ok _ s3 =>
        match executeChecked f
            "UPDATE Orders SET CustomerID = ?, TotalAmount = ?, Status = ? WHERE OrderID = ?"
            (updateOrderViolates customerId orderId)
            (updateOrder customerId total status orderId) s3 with
        | Outcome.threw e s4 => Outcome.threw e s4
        | Outcome.ok _ s4 =>
          match insertItems f orderId items s4 with
          | Outcome.threw e s5 => Outcome.threw e s5
          | Outcome.ok _ s5 => Outcome.ok orderId s5

/-- Handler `PUT(request)`. -/
def PUT (f : Faults) (req : UpdateRequest) (w : World) : Response × World :=
  if !truthy req.orderId || !truthy req.customerId || req.items.falsy || !req.items.isArray
      || req.items.toList.length == 0 then
    (badRequest "Invalid order data", w)
  else
    withTransaction f "Failed to update order"
      (updateBody f (req.orderId.getD 0) (req.customerId.getD 0) (totalAmount req.items.toList)
        req.status req.items.toList)
      (fun orderId => okResponse "Order updated successfully" (some orderId)) w

/-! ## Delete: `DELETE` -/

/-- The statements of the `try` block of `DELETE`, up to the commit; `orderId`
is the key the bound text `id` is equal to. -/
def deleteBody (f : Faults) (orderId : Option Nat) (s : Session) : Outcome Unit :=
  match execute f "SELECT BookID, Quantity FROM OrderItems WHERE OrderID = ?"
      (selectOrderItems orderId) s with
  | Outcome.threw e s1 => Outcome.threw e s1
  | Outcome.ok orderItems s1 =>
    match restoreStock f orderItems s1 with
    | Outcome.threw e s2 => Outcome.threw e s2
    | Outcome.ok _ s2 =>
      match execute f "DELETE FROM OrderItems WHERE OrderID = ?" (deleteOrderItems orderId) s2 with
      | Outcome.threw e s3 => Outcome.threw e s3
      | Outcome.ok _ s3 =>
        match executeChecked f "DELETE FROM Orders WHERE OrderID = ?"
            (deleteOrderViolates orderId) (deleteOrder orderId) s3 with
        | Outcome.threw e s4 => Outcome.threw e s4
        | Outcome.ok _ s4 => Outcome.ok () s4

/-- Handler `DELETE(request)`; `id` is `searchParams.get('id')`, `none` when
the URL has no such parameter.  The text is bound as it is; the store reads
it (`Faults.keyOf`). -/
def DELETE (f : Faults) (id : Option String) (w : World) : Response × World :=
  match id with
  | none => (badRequest "Order ID is required", w)
  | some text =>
    if text = "" then (badRequest "Order ID is required", w)
    else
      withTransaction f "Failed to delete order" (deleteBody f (f.keyOf text))
        (fun _ => okResponse "Order deleted successfully" none) w

/-! ## Quantities the theorems speak about -/

/-- The sum of the quantities of the request items that reference `bookId`. -/
def requestedQuantity (items : List Item) (bookId : Nat) : Int :=
  ((items.filter fun i => i.bookId = bookId).map fun i => i.quantity).sum

/-- The sum of the quantities of the stored item rows of order `orderId` that
reference `bookId`. -/
def storedQuantity (rows : List OrderItem) (orderId bookId : Nat) : Int :=
  ((rows.filter fun r => r.OrderID = orderId ∧ r.BookID = bookId).map fun r => r.Quantity).sum

/-- The item rows a request's items become: one per item, in input order, with
consecutive `OrderItemID`s from `first`. -/
def itemRows (orderId : Nat) : Nat → List Item → List OrderItem
  | _, [] => []
  | first, item :: rest =>
    { OrderItemID := first, OrderID := orderId, BookID := item.bookId,
      Quantity := item.quantity, Price := item.price } :: itemRows orderId (first + 1) rest

/-- The sum of the quantities of the selected rows `(BookID, Quantity)` that
reference `bookId`. -/
def selectedQuantity (rows : List (Nat × Int)) (bookId : Nat) : Int :=
  ((rows.filter fun r => r.1 = bookId).map fun r => r.2).sum

/-! ## Concrete stores and requests used to exercise the handlers -/

/-- A store with book 5 at stock 10, book 6 at stock 3 and no order yet; the
next order will be number 7. -/
def shop : World :=
  { db := { Books := [{ BookID := 5, Title := "Dune", Stock := 10 },
                      { BookID := 6, Title := "Emma", Stock := 3 }],
            Customers := [{ CustomerID := 1, Name := "Ann" }],
            Orders := [], OrderItems := [], nextOrderID := 7, nextOrderItemID := 1 },
    log := [] }

/-- Scenario A: customer 1 orders two copies of book 5 at 10.00. -/
def scenarioA : CreateRequest :=
  { customerId := some 1, items := Items.array [{ bookId := 5, quantity := 2, price := 1000 }],
    status := none }

/-- A create request naming book 5 twice and book 6 once, with a status of its own. -/
def twoBooksRequest : CreateRequest :=
  { customerId := some 1,
    items := Items.array [{ bookId := 5, quantity := 2, price := 1000 },
                          { bookId := 6, quantity := 1, price := 750 },
                          { bookId := 5, quantity := 4, price := 1000 }],
    status := some "Shipped" }

/-- Scenario A with the status sent as the empty string. -/
def emptyStatusRequest : CreateRequest :=
  { customerId := some 1, items := Items.array [{ bookId := 5, quantity := 2, price := 1000 }],
    status := some "" }

/-- A create request without `customerId`. -/
def noCustomerRequest : CreateRequest :=
  { customerId := none, items := Items.array [{ bookId := 5, quantity := 2, price := 1000 }],
    status := none }

/-- A create request whose only item has quantity -3 and price -1.00. -/
def negativeItemRequest : CreateRequest :=
  { customerId := some 1, items := Items.array [{ bookId := 5, quantity := -3, price := -100 }],
    status := none }

/-- The session an awaited call leaves behind, whether it returned or threw. -/
def Outcome.session {α : Type} : Outcome α → Session
  | Outcome.ok _ s => s
  | Outcome.threw _ s => s

/-- Session `s1` continues `s` by `connection.execute` calls only. -/
def Session.executesOnly (s s1 : Session) : Prop :=
  ∃ sqls : List String, s1.log = s.log ++ sqls.map Event.execute

/-- A store after Scenario A and one more order: order 7 holds two copies of
book 5, order 8 holds one copy of book 6; book 5 is at stock 8. -/
def shopWithOrders : World :=
  { db := { Books := [{ BookID := 5, Title := "Dune", Stock := 8 },
                      { BookID := 6, Title := "Emma", Stock := 2 }],
            Customers := [{ CustomerID := 1, Name := "Ann" }, { CustomerID := 2, Name := "Bob" }],
            Orders := [{ OrderID := 7, CustomerID := 1, OrderDate := 100, TotalAmount := 2000,
                         Status := some "Pending" },
                       { OrderID := 8, CustomerID := 2, OrderDate := 101, TotalAmount := 750,
                         Status := some "Pending" }],
            OrderItems := [{ OrderItemID := 1, OrderID := 7, BookID := 5, Quantity := 2,
                             Price := 1000 },
                           { OrderItemID := 2, OrderID := 8, BookID := 6, Quantity := 1,
                             Price := 750 }],
            nextOrderID := 9, nextOrderItemID := 3 },
    log := [] }

/-- Scenario B: order 7 is changed to one copy of book 5 at 10.00. -/
def scenarioB : UpdateRequest :=
  { orderId := some 7, customerId := some 1,
    items := Items.array [{ bookId := 5, quantity := 1, price := 1000 }],
    status := some "Processing" }

/-- An update request without `orderId`. -/
def noOrderIdRequest : UpdateRequest :=
  { orderId := none, customerId := some 1,
    items := Items.array [{ bookId := 5, quantity := 1, price := 1000 }],
    status := some "Processing" }

/-! ## Calls and sequences of calls -/

/-- One call on the order engine, with the arguments the handler reads. -/
inductive Call where
  | create (now : Nat) (req : CreateRequest)
  | update (req : UpdateRequest)
  | delete (id : Option String)
  deriving DecidableEq, Repr

/-- Runs the handler of a call. -/
def Call.run (f : Faults) : Call → World → Response × World
  | Call.create now req, w => POST f now req w
  | Call.update req, w => PUT f req w
  | Call.delete id, w => DELETE f id w

/-- The call passes the request test at the head of its handler, so that the
handler goes on to the pool. -/
def Call.accepted : Call → Bool
  | Call.create _ req =>
    !(!truthy req.customerId || req.items.falsy || !req.items.isArray
        || req.items.toList.length == 0)
  | Call.update req =>
    !(!truthy req.orderId || !truthy req.customerId || req.items.falsy || !req.items.isArray
        || req.items.toList.length == 0)
  | Call.delete id =>
    match id with
    | none => false
    | some text => !(text == "")

/-- The number of statements the `try` block of a call issues when none throws. -/
def Call.statements (f : Faults) : Call → World → Nat
  | Call.create _ req, _ => 1 + 2 * req.items.toList.length
  | Call.update req, w =>
    1 + (w.db.OrderItems.filter fun r => r.OrderID = req.orderId.getD 0).length + 2
      + 2 * req.items.toList.length
  | Call.delete id, w =>
    1 + (w.db.OrderItems.filter fun r => some r.OrderID = f.keyOf (id.getD "")).length + 2

/-- Runs calls one after the other, each under its own plan. -/
def runCalls : List (Faults × Call) → World → World
  | [], w => w
  | fc :: rest, w => runCalls rest (fc.2.run fc.1 w).2

/-- A plan under which `beginTransaction` throws and nothing else does. -/
def beginFails : Faults :=
  { getConnection := none, beginTransaction := some "Too many connections",
    statement := fun _ => none, commit := none, rollback := none, foreignKeys := true,
    keyOf := plainNumeral, itemRank := fun _ => 0, groupConcatMaxLen := 1024 }

/-- A plan under which the second statement throws and so does the rollback
that follows. -/
def rollbackFails : Faults :=
  { getConnection := none, beginTransaction := none,
    statement := fun n => if n = 1 then some "Lock wait timeout exceeded" else none,
    commit := none, rollback := some "Connection lost", foreignKeys := true,
    keyOf := plainNumeral, itemRank := fun _ => 0, groupConcatMaxLen := 1024 }

/-- From session `s` to session `s1` exactly `k` statements were issued, and
the plan let every one of them through. -/
def Session.ran (f : Faults) (k : Nat) (s s1 : Session) : Prop :=
  s1.issued = s.issued + k ∧ ∀ n, s.issued ≤ n → n < s.issued + k → f.statement n = none

/-! ## Invariants of the store -/

/-- The sum of quantity times price over the stored item rows of an order. -/
def orderTotal (rows : List OrderItem) (orderId : Nat) : Int :=
  ((rows.filter fun r => r.OrderID = orderId).map fun r => r.Quantity * r.Price).sum

/-- Every order row carries the total of its stored item rows. -/
def totalsAgree (db : Database) : Prop :=
  ∀ o ∈ db.Orders, o.TotalAmount = orderTotal db.OrderItems o.OrderID

/-- The keys of the schema hold: `OrderID` is a primary key of `Orders`, the
`AUTO_INCREMENT` counter lies above every `OrderID` in use, and every item
row references an existing order. -/
def keysHold (db : Database) : Prop :=
  (db.Orders.map fun o => o.OrderID).Nodup
    ∧ (∀ o ∈ db.Orders, o.OrderID < db.nextOrderID)
    ∧ (∀ r ∈ db.OrderItems, orderExists r.OrderID db = true)

/-- The plan of a store that enforces the foreign keys and where nothing else
throws. -/
def enforcing : Faults :=
  { getConnection := none, beginTransaction := none, statement := fun _ => none,
    commit := none, rollback := none, foreignKeys := true,
    keyOf := plainNumeral, itemRank := fun _ => 0, groupConcatMaxLen := 1024 }

/-- An update of order 99, which does not exist, with an otherwise valid body. -/
def absentOrderRequest : UpdateRequest :=
  { orderId := some 99, customerId := some 1,
    items := Items.array [{ bookId := 5, quantity := 1, price := 1000 }],
    status := some "Processing" }

/-- A day at the shop: a create that commits, an update that is rolled back, an
update of an order that does not exist, an update that commits and a delete
that commits. -/
def busyDay : List (Faults × Call) :=
  [(enforcing, Call.create 102 twoBooksRequest),
   (rollbackFails, Call.update scenarioB),
   (enforcing, Call.update absentOrderRequest),
   (enforcing, Call.update scenarioB),
   (enforcing, Call.delete (some "8"))]

/-- Nothing is scheduled to throw under the plan; whether the store enforces
foreign keys is left open. -/
def Faults.quiet (f : Faults) : Prop :=
  f.getConnection = none ∧ f.beginTransaction = none ∧ (∀ n, f.statement n = none)
    ∧ f.commit = none

/-- An update of order 7 to nine copies of book 5. -/
def nineCopiesRequest : UpdateRequest :=
  { orderId := some 7, customerId := some 1,
    items := Items.array [{ bookId := 5, quantity := 9, price := 1000 }],
    status := some "Pending" }

/-- A create request for eleven copies of book 5. -/
def elevenCopiesRequest : CreateRequest :=
  { customerId := some 2, items := Items.array [{ bookId := 5, quantity := 11, price := 1000 }],
    status := none }

/-! ## Listing: `GET` -/

/-- One element of the listing: the columns the query selects.  `none` is `NULL`. -/
structure OrderView where
  OrderID : Nat
  OrderDate : Nat
  TotalAmount : Int
  Status : Option String
  CustomerName : Option String
  Items : Option String
  deriving DecidableEq, Repr

/-- The JSON answer of `GET`: `{ success, data }` or `{ success, message, error }`. -/
structure ListingResponse where
  status : Nat
  success : Bool
  message : Option String
  data : Option (List OrderView)
  error : Option String
  deriving DecidableEq, Repr

/-- A row of `Orders o LEFT JOIN Customers c LEFT JOIN OrderItems oi LEFT JOIN Books b`;
`none` stands for the `NULL` columns of a missing partner. -/
structure JoinedRow where
  o : Order
  c : Option Customer
  oi : Option OrderItem
  b : Option Book
  deriving DecidableEq, Repr

/-- The partners a `LEFT JOIN` pairs a row with: the matching rows, or one
`NULL` partner when there is none. -/
def leftJoin {β : Type} (matching : List β) : List (Option β) :=
  match matching with
  | [] => [none]
  | ys => ys.map some

/-- The partners `LEFT JOIN Books b ON oi.BookID = b.BookID` pairs an item with;
a `NULL` item has the `NULL` book only. -/
def booksOf (db : Database) (oi : Option OrderItem) : List (Option Book) :=
  match oi with
  | none => [none]
  | some r => leftJoin (db.Books.filter fun b => r.BookID = b.BookID)

/-- The joined rows that stem from one order row. -/
def rowsOf (db : Database) (o : Order) : List JoinedRow :=
  (leftJoin (db.Customers.filter fun c => o.CustomerID = c.CustomerID)).flatMap fun c =>
    (leftJoin (db.OrderItems.filter fun oi => o.OrderID = oi.OrderID)).flatMap fun oi =>
      (booksOf db oi).map fun b => { o := o, c := c, oi := oi, b := b }

/-- The rows of the `FROM` clause of the listing query. -/
def joinedRows (db : Database) : List JoinedRow :=
  db.Orders.flatMap (rowsOf db)

/-- The columns of `GROUP BY o.OrderID, o.OrderDate, o.TotalAmount, o.Status, c.Name`. -/
def groupKey (row : JoinedRow) : Nat × Nat × Int × Option String × Option String :=
  (row.o.OrderID, row.o.OrderDate, row.o.TotalAmount, row.o.Status, row.c.map fun c => c.Name)

/-- The distinct elements of a list, in the order of their first occurrence. -/
def distinct {κ : Type} [DecidableEq κ] : List κ → List κ
  | [] => []
  | k :: ks => k :: (distinct ks).filter fun x => ¬ x = k

/-- Decimal text of an `INT` value. -/
def showInt (n : Int) : String :=
  if n < 0 then "-" ++ toString n.natAbs else toString n.natAbs

/-- Decimal text of a `DECIMAL(10,2)` value given in hundredths, as in `10.00`. -/
def showMoney (hundredths : Int) : String :=
  (if hundredths < 0 then "-" else "") ++ toString (hundredths.natAbs / 100) ++ "."
    ++ toString (hundredths.natAbs % 100 / 10) ++ toString (hundredths.natAbs % 10)

/-- The value `CONCAT(b.Title, ' (', oi.Quantity, ' x $', oi.Price, ')')` of a
joined row: `NULL` as soon as the item or the book is. -/
def itemText (row : JoinedRow) : Option String :=
  match row.oi, row.b with
  | some oi, some b =>
    some (b.Title ++ " (" ++ showInt oi.Quantity ++ " x $" ++ showMoney oi.Price ++ ")")
  | _, _ => none

/-- Length of a text in bytes of UTF-8. -/
def byteLength (cs : List Char) : Nat :=
  (cs.map fun c => c.utf8Size).sum

/-- The longest run of whole characters at the head of a text that fits into
`room` bytes. -/
def cutToBytes : Nat → List Char → List Char
  | _, [] => []
  | room, c :: cs => if c.utf8Size ≤ room then c :: cutToBytes (room - c.utf8Size) cs else []

/-- The aggregate `GROUP_CONCAT(... SEPARATOR ', ')`: the values that are not
`NULL` joined by the separator and cut at `maxLen` bytes, and `NULL` when
there is none. -/
def groupConcat (maxLen : Nat) (values : List (Option String)) : Option String :=
  match values.filterMap id with
  | [] => none
  | texts => some (String.mk (cutToBytes maxLen (", ".intercalate texts).data))

/-- The position the store aggregates a joined row at. -/
def rowRank (f : Faults) (row : JoinedRow) : Nat :=
  match row.oi with
  | some r => f.itemRank r.OrderItemID
  | none => 0

/-- The rows of a group in the order the store aggregates them: by rank, rows
of equal rank in the order of the join. -/
def arrange (f : Faults) (rows : List JoinedRow) : List JoinedRow :=
  List.insertionSort (fun a b => rowRank f a ≤ rowRank f b) rows

/-- The result row of one group. -/
def viewOf (f : Faults) (rows : List JoinedRow)
    (key : Nat × Nat × Int × Option String × Option String) : OrderView :=
  { OrderID := key.1, OrderDate := key.2.1, TotalAmount := key.2.2.1, Status := key.2.2.2.1,
    CustomerName := key.2.2.2.2,
    Items := groupConcat f.groupConcatMaxLen
      ((arrange f (rows.filter fun row => groupKey row = key)).map itemText) }

/-- The listing query: join, group, aggregate, then `ORDER BY o.OrderDate DESC`
(rows of equal date stay in group order). -/
def listOrders (f : Faults) (db : Database) : List OrderView :=
  List.insertionSort (fun a b => b.OrderDate ≤ a.OrderDate)
    ((distinct ((joinedRows db).map groupKey)).map (viewOf f (joinedRows db)))

/-- Handler `GET()`: one `pool.execute` of the listing query through
`executeQuery`; it throws when the plan says that statement 0 does. -/
def GET (f : Faults) (w : World) : ListingResponse × World :=
  match f.statement 0 with
  | some e =>
    ({ status := 500, success := false, message := some "Failed to fetch orders",
       data := none, error := some e },
     { w with log := w.log ++ [Event.execute "SELECT ... FROM Orders o LEFT JOIN Customers c LEFT JOIN OrderItems oi LEFT JOIN Books b GROUP BY ... ORDER BY o.OrderDate DESC"] })
  | none =>
    ({ status := 200, success := true, message := none, data := some (listOrders f w.db),
       error := none },
     { w with log := w.log ++ [Event.execute "SELECT ... FROM Orders o LEFT JOIN Customers c LEFT JOIN OrderItems oi LEFT JOIN Books b GROUP BY ... ORDER BY o.OrderDate DESC"] })

/-- A store where order 9 has three item rows and order 10, newer, has none. -/
def shopWithEmptyOrder : World :=
  { db := { Books := [{ BookID := 5, Title := "Dune", Stock := 3 },
                      { BookID := 6, Title := "Emma", Stock := 2 }],
            Customers := [{ CustomerID := 1, Name := "Ann" }, { CustomerID := 2, Name := "Bob" }],
            Orders := [{ OrderID := 9, CustomerID := 1, OrderDate := 102, TotalAmount := 6750,
                         Status := some "Shipped" },
                       { OrderID := 10, CustomerID := 2, OrderDate := 105, TotalAmount := 0,
                         Status := some "Pending" }],
            OrderItems := [{ OrderItemID := 3, OrderID := 9, BookID := 5, Quantity := 2,
                             Price := 1000 },
                           { OrderItemID := 4, OrderID := 9, BookID := 6, Quantity := 1,
                             Price := 750 },
                           { OrderItemID := 5, OrderID := 9, BookID := 5, Quantity := 4,
                             Price := 1000 }],
            nextOrderID := 11, nextOrderItemID := 6 },
    log := [] }

/-- The plan of a store that is told to cut `GROUP_CONCAT` at 20 bytes and
where nothing throws. -/
def shortAggregate : Faults :=
  { noFaults with groupConcatMaxLen := 20 }

/-- The customer row the listing pairs an order with, if there is one. -/
def customerOf (db : Database) (o : Order) : Option Customer :=
  (db.Customers.filter fun c => o.CustomerID = c.CustomerID).head?

/-- The group an order row falls into. -/
def orderKey (db : Database) (o : Order) : Nat × Nat × Int × Option String × Option String :=
  (o.OrderID, o.OrderDate, o.TotalAmount, o.Status, (customerOf db o).map fun c => c.Name)

/-- The sum of the quantities of all stored item rows that reference `bookId`,
whatever order they belong to. -/
def referencedQuantity (rows : List OrderItem) (bookId : Nat) : Int :=
  ((rows.filter fun r => r.BookID = bookId).map fun r => r.Quantity).sum

/-- The order a call creates or names: the next `OrderID` for a create, the
request's `orderId` for an update, the key the store reads the `id` text as
for a delete (`none` when the text is equal to no key). -/
def Call.target (f : Faults) : Call → World → Option Nat
  | Call.create _ _, w => some w.db.nextOrderID
  | Call.update req, _ => some (req.orderId.getD 0)
  | Call.delete id, _ => f.keyOf (id.getD "")

/-- The input items of a call; a delete has none. -/
def Call.items : Call → List Item
  | Call.create _ req => req.items.toList
  | Call.update req => req.items.toList
  | Call.delete _ => []

/-- An update of order 7 to three copies of book 6 and one of book 5. -/
def otherItemsRequest : UpdateRequest :=
  { orderId := some 7, customerId := some 2,
    items := Items.array [{ bookId := 6, quantity := 3, price := 750 },
                          { bookId := 5, quantity := 1, price := 1100 }],
    status := some "Completed" }

/-- The book row the listing pairs an item row with, if there is one. -/
def bookOf (db : Database) (r : OrderItem) : Option Book :=
  (db.Books.filter fun b => r.BookID = b.BookID).head?

/-- The text of one listed item: title, quantity and price as the query
concatenates them. -/
def entryText (b : Book) (r : OrderItem) : String :=
  b.Title ++ " (" ++ showInt r.Quantity ++ " x $" ++ showMoney r.Price ++ ")"

/-! ## The book handlers (`src/app/api/books/route.js`) -/

/-- Body of a `POST` or `PUT` request to `/api/books` after `request.json()`,
restricted to the columns the model of `Books` carries and to `Price`, which
the handlers test; `none` is an absent field. -/
structure BookBody where
  BookID : Option Nat
  Title : Option String
  Price : Option Int
  Stock : Option Int
  deriving DecidableEq, Repr

/-- JavaScript truthiness of a text field: absent and the empty string are falsy. -/
def truthyText (x : Option String) : Bool :=
  match x with
  | some s => !(s == "")
  | none => false

/-- JavaScript truthiness of a numeric field: absent and 0 are falsy. -/
def truthyNumber (x : Option Int) : Bool :=
  match x with
  | some n => !(n == 0)
  | none => false

/-- The expression `Stock || 0`. -/
def stockOrZero (x : Option Int) : Int :=
  match x with
  | some n => n
  | none => 0

/-- Awaits `executeQuery({ query, values })`: one `pool.execute` outside any
transaction, so its effect is committed at once; it throws when the plan says
that statement 0 does, or when it would break an enforced foreign key. -/
def executeQuery {α : Type} (f : Faults) (sql : String) (violated : Database → Bool)
    (run : Database → Database × α) (w : World) : Except String α × World :=
  match f.statement 0 with
  | some e => (Except.error e, { w with log := w.log ++ [Event.execute sql] })
  | none =>
    if f.foreignKeys = true ∧ violated w.db = true then
      (Except.error "a foreign key constraint fails",
       { w with log := w.log ++ [Event.execute sql] })
    else
      (Except.ok (run w.db).2, { db := (run w.db).1, log := w.log ++ [Event.execute sql] })

/-- Statement `INSERT INTO Books (Title, AuthorID, CategoryID, Price, Stock)
VALUES (?, ?, ?, ?, ?)`; `insertId` is the `BookID` the store assigns. -/
def insertBook (insertId : Nat) (title : String) (stock : Int) (db : Database) :
    Database × Nat :=
  ({ db with Books := db.Books ++ [{ BookID := insertId, Title := title, Stock := stock }] },
   insertId)

/-- Statement `UPDATE Books SET Title = ?, AuthorID = ?, CategoryID = ?, Price = ?,
Stock = ? WHERE BookID = ?`. -/
def updateBook (title : String) (stock : Int) (bookId : Nat) (db : Database) :
    Database × Unit :=
  ({ db with
      Books := db.Books.map fun b =>
        if b.BookID = bookId then { b with Title := title, Stock := stock } else b },
   ())

/-- Statement `DELETE FROM Books WHERE BookID = ?`; the parameter is the key
the bound text is equal to, if any. -/
def deleteBook (bookId : Option Nat) (db : Database) : Database × Unit :=
  ({ db with Books := db.Books.filter fun b => ¬ some b.BookID = bookId }, ())

/-- A `DELETE FROM Books` breaks the key from `OrderItems` when an item row
still references a book it deletes. -/
def deleteBookViolates (bookId : Option Nat) (db : Database) : Bool :=
  db.OrderItems.any fun r => some r.BookID = bookId

/-- Handler `POST(request)` of the book route. -/
def booksPOST (f : Faults) (insertId : Nat) (body : BookBody) (w : World) : Response × World :=
  if !truthyText body.Title || !truthyNumber body.Price then
    (badRequest "Title and Price are required", w)
  else
    match executeQuery f "INSERT INTO Books (Title, AuthorID, CategoryID, Price, Stock) VALUES (?, ?, ?, ?, ?)"
        (fun _ => false) (insertBook insertId (body.Title.getD "") (stockOrZero body.Stock)) w with
    | (Except.ok _, w1) => (okResponse "Book created successfully" none, w1)
    | (Except.error e, w1) => (serverError "Failed to create book" e, w1)

/-- Handler `PUT(request)` of the book route. -/
def booksPUT (f : Faults) (body : BookBody) (w : World) : Response × World :=
  if !truthy body.BookID || !truthyText body.Title || !truthyNumber body.Price then
    (badRequest "BookID, Title, and Price are required", w)
  else
    match executeQuery f "UPDATE Books SET Title = ?, AuthorID = ?, CategoryID = ?, Price = ?, Stock = ? WHERE BookID = ?"
        (fun _ => false)
        (updateBook (body.Title.getD "") (stockOrZero body.Stock) (body.BookID.getD 0)) w with
    | (Except.ok _, w1) => (okResponse "Book updated successfully" none, w1)
    | (Except.error e, w1) => (serverError "Failed to update book" e, w1)

/-- Handler `DELETE(request)` of the book route. -/
def booksDELETE (f : Faults) (id : Option String) (w : World) : Response × World :=
  match id with
  | none => (badRequest "Book ID is required", w)
  | some text =>
    if text = "" then (badRequest "Book ID is required", w)
    else
      match executeQuery f "DELETE FROM Books WHERE BookID = ?"
          (deleteBookViolates (f.keyOf text)) (deleteBook (f.keyOf text)) w with
      | (Except.ok _, w1) => (okResponse "Book deleted successfully" none, w1)
      | (Except.error e, w1) => (serverError "Failed to delete book" e, w1)

/-- Handler `GET(request)` of the book route, as far as the store is concerned:
one `SELECT` over `Books`, for one id or for all; the second component of the
answer is the selected rows. -/
def booksGET (f : Faults) (id : Option String) (w : World) : (Nat × List Book) × World :=
  match executeQuery f "SELECT b.*, a.Name as AuthorName, c.CategoryName FROM Books b LEFT JOIN Authors a LEFT JOIN Categories c"
      (fun _ => false)
      (fun db => (db, match id with
        | some text => if text = "" then db.Books
                       else db.Books.filter fun b => some b.BookID = f.keyOf text
        | none => db.Books)) w with
  | (Except.ok rows, w1) =>
    (match id with
      | some text => if text = "" then (200, rows) else if rows.length = 0 then (404, []) else (200, rows)
      | none => (200, rows), w1)
  | (Except.error _, w1) => ((500, []), w1)

/-- A book update that sets the stock of book 5 to 50. -/
def restockRequest : BookBody :=
  { BookID := some 5, Title := some "Dune", Price := some 1000, Stock := some 50 }

/-! ## The schemas the bootstrap code creates -/

/-- The tables and columns of the `CREATE TABLE` statements of `scripts/init-db.js`. -/
def schemaOfInitDbScript : List (String × List String) :=
  [("Authors", ["AuthorID", "Name", "Bio"]),
   ("Categories", ["CategoryID", "CategoryName"]),
   ("Books", ["BookID", "Title", "AuthorID", "CategoryID", "Price", "Stock"]),
   ("Customers", ["CustomerID", "Name", "Email", "Phone", "Address", "CreatedAt"]),
   ("Orders", ["OrderID", "CustomerID", "OrderDate", "TotalAmount", "Status"]),
   ("OrderItems", ["OrderItemID", "OrderID", "BookID", "Quantity", "Price"])]

/-- The tables and columns of the `CREATE TABLE` statements of `initializeDatabase`
in `lib/db.js`. -/
def schemaOfLibDb : List (String × List String) :=
  [("Authors", ["AuthorID", "Name", "Bio"]),
   ("Categories", ["CategoryID", "CategoryName"]),
   ("Books", ["BookID", "Title", "AuthorID", "CategoryID", "Price", "Stock"]),
   ("Customers", ["CustomerID", "Name", "Email", "Phone"]),
   ("Orders", ["OrderID", "CustomerID", "BookID", "Quantity", "OrderDate"])]

/-- The tables and columns of the `CREATE TABLE` statements of the route
`/api/initialize`. -/
def schemaOfInitializeRoute : List (String × List String) :=
  [("Authors", ["AuthorID", "Name", "Bio"]),
   ("Categories", ["CategoryID", "CategoryName"]),
   ("Books", ["BookID", "Title", "AuthorID", "CategoryID", "Price", "Stock"]),
   ("Customers", ["CustomerID", "Name", "Email", "Phone"]),
   ("Orders", ["OrderID", "CustomerID", "BookID", "Quantity", "OrderDate"])]

/-- The persisted shape of orders and items. -/
def persistedShape : List (String × List String) :=
  [("Orders", ["OrderID", "CustomerID", "OrderDate", "TotalAmount", "Status"]),
   ("OrderItems", ["OrderItemID", "OrderID", "BookID", "Quantity", "Price"])]

/-- The tables and columns that the statements of `POST`, `PUT` and `DELETE`
in `orders/route.js` name. -/
def engineColumns : List (String × List String) :=
  [("Orders", ["CustomerID", "OrderDate", "TotalAmount", "Status", "OrderID"]),
   ("OrderItems", ["OrderID", "BookID", "Quantity", "Price"]),
   ("Books", ["Stock", "BookID"])]

/-- The schema has the table, and the table has every one of the columns. -/
def hasColumns (schema : List (String × List String)) (table : String)
    (columns : List String) : Bool :=
  schema.any fun t => t.1 == table && columns.all fun c => t.2.contains c

/-- The schema has every table and column of `needed`. -/
def supports (schema needed : List (String × List String)) : Bool :=
  needed.all fun n => hasColumns schema n.1 n.2

/-! ## The order form (`src/app/orders/components/order-form.js`) -/

/-- One item of the form: three text inputs. -/
structure FormItem where
  bookId : String
  quantity : String
  price : String
  deriving DecidableEq, Repr

/-- The values of the form as `handleSubmit` receives them. -/
structure FormData where
  customerId : String
  items : List FormItem
  status : String
  deriving DecidableEq, Repr

/-- One item of `formattedData`: the results of `parseInt` and `parseFloat`;
`none` is `NaN`.  The infinities, which `parseFloat` returns for text such as
"Infinity", are not modelled: prices are rational numbers. -/
structure FormattedItem where
  bookId : Option Int
  quantity : Option Int
  price : Option ℚ
  deriving DecidableEq

/-- The object `formattedData` that `onSubmit` is called with. -/
structure FormattedData where
  customerId : Option Int
  items : List FormattedItem
  status : String
  deriving DecidableEq

/-- What `handleSubmit` did: the argument of its call of `onSubmit`, if it made
one, and the message it passed to `setError`, if any. -/
structure SubmitResult where
  submitted : Option FormattedData
  error : Option String
  deriving DecidableEq

/-- The test `!x || isNaN(x)` on a number: `NaN` and 0. -/
def zeroOrNaN {α : Type} [Zero α] [DecidableEq α] (x : Option α) : Bool :=
  match x with
  | some n => decide (n = 0)
  | none => true

/-- The loop `for (const item of formattedData.items)`: the message of the
first check that throws, if one does. -/
def checkItems : List FormattedItem → Option String
  | [] => none
  | item :: rest =>
    if zeroOrNaN item.bookId then some "Invalid book selected"
    else if zeroOrNaN item.quantity || (match item.quantity with
                                        | some q => decide (q < 1)
                                        | none => false) then some "Invalid quantity"
    else if zeroOrNaN item.price || (match item.price with
                                     | some p => decide (p ≤ 0)
                                     | none => false) then some "Invalid price"
    else checkItems rest

/-- Function `handleSubmit(data)`.  The built-ins `parseInt(·, 10)` and
`parseFloat` are parameters; `onSubmit` returns the message of the error it
throws, if it throws. -/
def handleSubmit (parseInt : String → Option Int) (parseFloat : String → Option ℚ)
    (onSubmit : FormattedData → Option String) (data : FormData) : SubmitResult :=
  let formattedData : FormattedData :=
    { customerId := parseInt data.customerId,
      items := data.items.map fun item =>
        { bookId := parseInt item.bookId, quantity := parseInt item.quantity,
          price := parseFloat item.price },
      status := data.status }
  if zeroOrNaN formattedData.customerId then
    { submitted := none, error := some "Invalid customer selected" }
  else if formattedData.items.length = 0 then
    { submitted := none, error := some "At least one item is required" }
  else
    match checkItems formattedData.items with
    | some message => { submitted := none, error := some message }
    | none => { submitted := some formattedData, error := onSubmit formattedData }

/-! ## The order form: pre-populating (`fetchData`)

The regular expression `/(.*?) \((\d+) x \$(\d+\.?\d*)\)/` is modelled on the
characters of the text.  The part after the title is deterministic: a run of
digits that is followed by a character that is not a digit can only be taken
whole, so the greedy choice is the only one that can reach the next literal.
The title is lazy: at a start position it is the shortest text after which the
rest of the pattern matches, and `.` does not cross a line terminator.  The
start positions are tried from the left. -/

/-- The characters `.` does not match. -/
def lineTerminator (c : Char) : Bool :=
  c.toNat = 10 || c.toNat = 13 || c.toNat = 8232 || c.toNat = 8233

/-- The group `\d+` at the head of the text: the run of digits, which must not
be empty, and the text after it. -/
def digitRun (cs : List Char) : Option (List Char × List Char) :=
  if cs.takeWhile Char.isDigit = [] then none
  else some (cs.takeWhile Char.isDigit, cs.dropWhile Char.isDigit)

/-- The group `\d+\.?\d*` at the head of the text and the text after it. -/
def priceRun (cs : List Char) : Option (List Char × List Char) :=
  match digitRun cs with
  | none => none
  | some (whole, rest) =>
    match rest with
    | '.' :: after =>
      some (whole ++ '.' :: after.takeWhile Char.isDigit, after.dropWhile Char.isDigit)
    | _ => some (whole, rest)

/-- The part ` \((\d+) x \$(\d+\.?\d*)\)` of the pattern at the head of the
text: the two captured groups. -/
def itemTail (cs : List Char) : Option (List Char × List Char) :=
  match cs with
  | ' ' :: '(' :: r1 =>
    match digitRun r1 with
    | some (quantity, ' ' :: 'x' :: ' ' :: '$' :: r2) =>
      match priceRun r2 with
      | some (price, ')' :: _) => some (quantity, price)
      | _ => none
    | _ => none
  | _ => none

/-- The whole pattern with the match starting at the head of the text: the
three captured groups. -/
def matchFrom : List Char → Option (List Char × List Char × List Char)
  | [] => none
  | c :: rest =>
    match itemTail (c :: rest) with
    | some (quantity, price) => some ([], quantity, price)
    | none =>
      if lineTerminator c then none
      else
        match matchFrom rest with
        | some (title, quantity, price) => some (c :: title, quantity, price)
        | none => none

/-- The call `item.match(/(.*?) \((\d+) x \$(\d+\.?\d*)\)/)`: the captured
title, quantity and price of the leftmost match, `none` for `null`. -/
def itemPattern : List Char → Option (List Char × List Char × List Char)
  | [] => none
  | c :: rest =>
    match matchFrom (c :: rest) with
    | some groups => some groups
    | none => itemPattern rest

/-- The callback of `[initialData.Items].map(...)`: the form item of one text,
`none` for `null`. -/
def parseItem (books : List Book) (item : String) : Option FormItem :=
  match itemPattern item.data with
  | some (title, quantity, price) =>
    match books.find? fun b => b.Title = String.mk title with
    | some book =>
      some { bookId := toString book.BookID, quantity := String.mk quantity,
             price := String.mk price }
    | none => none
  | none => none

/-- The constant `itemsArray` of `fetchData`, from the books of `/api/books`
and `initialData.Items` (`none` is `NULL`). -/
def itemsArray (books : List Book) (items : Option String) : List FormItem :=
  match items with
  | none => []
  | some text => if text = "" then [] else ([text].map (parseItem books)).filterMap id

/-- The `items` that `form.reset` receives. -/
def formItems (books : List Book) (items : Option String) : List FormItem :=
  if (itemsArray books items).length > 0 then itemsArray books items
  else [{ bookId := "", quantity := "", price := "" }]

/-- A store with a book whose title ends like a listed item, and one order
of one copy of it. -/
def shopWithOddTitle : World :=
  { db := { Books := [{ BookID := 1, Title := "Sale", Stock := 5 },
                      { BookID := 2, Title := "Sale (2 x $5)", Stock := 5 }],
            Customers := [{ CustomerID := 1, Name := "Ann" }],
            Orders := [{ OrderID := 1, CustomerID := 1, OrderDate := 100, TotalAmount := 999,
                         Status := some "Pending" }],
            OrderItems := [{ OrderItemID := 1, OrderID := 1, BookID := 2, Quantity := 1,
                             Price := 999 }],
            nextOrderID := 2, nextOrderItemID := 2 },
    log := [] }

end Bookstore

namespace Bookstore

/-! ## Helper lemmas: statements and loops -/

theorem execute_ok {α : Type} {f : Faults} {sql : String} {run : Database → Database × α}
    {s s1 : Session} {a : α} (h : execute f sql run s = Outcome.ok a s1) :
    a = (run s.work).2 ∧ s1.work = (run s.work).1 ∧ s1.issued = s.issued + 1
      ∧ s1.log = s.log ++ [Event.execute sql] := by
  unfold execute at h
  cases hf : f.statement s.issued with
  | some e => simp [hf] at h
  | none =>
    simp only [hf] at h
    injection h with h1 h2
    subst h1 h2
    exact ⟨rfl, rfl, rfl, rfl⟩

theorem executeChecked_ok {α : Type} {f : Faults} {sql : String} {violated : Database → Bool}
    {run : Database → Database × α} {s s1 : Session} {a : α}
    (h : executeChecked f sql violated run s = Outcome.ok a s1) :
    execute f sql run s = Outcome.ok a s1
      ∧ (f.foreignKeys = true → violated s.work = false) := by
  unfold executeChecked at h
  split at h
  · exact absurd h (by simp)
  · rename_i hn
    refine ⟨h, fun hf => ?_⟩
    cases hv : violated s.work with
    | false => rfl
    | true => exact absurd ⟨hf, hv⟩ hn

theorem totalAmount_foldl (items : List Item) (start : Int) :
    items.foldl (fun total item => total + item.quantity * item.price) start
      = start + (items.map fun i => i.quantity * i.price).sum := by
  induction items generalizing start with
  | nil => simp
  | cons i rest ih => simp [List.foldl_cons, ih, add_assoc]

theorem totalAmount_eq_sum (items : List Item) :
    totalAmount items = (items.map fun i => i.quantity * i.price).sum := by
  simp [totalAmount, totalAmount_foldl]

theorem requestedQuantity_cons (i : Item) (rest : List Item) (bookId : Nat) :
    requestedQuantity (i :: rest) bookId
      = (if i.bookId = bookId then i.quantity else 0) + requestedQuantity rest bookId := by
  unfold requestedQuantity
  by_cases h : i.bookId = bookId <;> simp [List.filter_cons, h]

/-- What a successful run of the item loop does to the working copy. -/
theorem insertItems_ok {f : Faults} {orderId : Nat} (items : List Item) {s s1 : Session} {u : Unit}
    (h : insertItems f orderId items s = Outcome.ok u s1) :
    s1.work.Books = s.work.Books.map (fun b =>
        { b with Stock := b.Stock - requestedQuantity items b.BookID })
      ∧ s1.work.OrderItems = s.work.OrderItems ++ itemRows orderId s.work.nextOrderItemID items
      ∧ s1.work.Orders = s.work.Orders
      ∧ s1.work.Customers = s.work.Customers
      ∧ s1.work.nextOrderID = s.work.nextOrderID
      ∧ s1.work.nextOrderItemID = s.work.nextOrderItemID + items.length := by
  induction items generalizing s with
  | nil =>
    simp only [insertItems] at h
    injection h with _ h2
    subst h2
    simp [requestedQuantity, itemRows]
  | cons i rest ih =>
    simp only [insertItems] at h
    split at h
    · exact absurd h (by simp)
    · rename_i u1 s2 h1
      split at h
      · exact absurd h (by simp)
      · rename_i u2 s3 h2
        obtain ⟨-, w1, -, -⟩ := execute_ok (executeChecked_ok h1).1
        obtain ⟨-, w2, -, -⟩ := execute_ok h2
        obtain ⟨b, r, o, c, n, m⟩ := ih h
        rw [w2, w1] at b r o c n m
        simp only [decreaseStock, insertOrderItem] at b r o c n m
        refine ⟨?_, ?_, o, c, n, ?_⟩
        · rw [b, List.map_map]
          apply List.map_congr_left
          intro x _
          simp only [Function.comp, requestedQuantity_cons]
          by_cases hx : x.BookID = i.bookId
          · simp [hx, sub_sub]
          · have hx2 : ¬ i.bookId = x.BookID := fun e => hx e.symm
            simp [hx, hx2]
        · rw [r]; simp [itemRows]
        · rw [m]; simp; omega

theorem selectedQuantity_cons (r : Nat × Int) (rest : List (Nat × Int)) (bookId : Nat) :
    selectedQuantity (r :: rest) bookId
      = (if r.1 = bookId then r.2 else 0) + selectedQuantity rest bookId := by
  unfold selectedQuantity
  by_cases h : r.1 = bookId <;> simp [List.filter_cons, h]

theorem selectedQuantity_select (rows : List OrderItem) (orderId bookId : Nat) :
    selectedQuantity ((rows.filter fun r => r.OrderID = orderId).map
        fun r => (r.BookID, r.Quantity)) bookId
      = storedQuantity rows orderId bookId := by
  induction rows with
  | nil => simp [selectedQuantity, storedQuantity]
  | cons r rest ih =>
    unfold selectedQuantity storedQuantity at ih ⊢
    by_cases h1 : r.OrderID = orderId <;> by_cases h2 : r.BookID = bookId <;>
      simp [List.filter_cons, h1, h2, ih]

/-- What a successful run of the restore loop does to the working copy. -/
theorem restoreStock_ok {f : Faults} (rows : List (Nat × Int)) {s s1 : Session} {u : Unit}
    (h : restoreStock f rows s = Outcome.ok u s1) :
    s1.work.Books = s.work.Books.map (fun b =>
        { b with Stock := b.Stock + selectedQuantity rows b.BookID })
      ∧ s1.work.OrderItems = s.work.OrderItems
      ∧ s1.work.Orders = s.work.Orders
      ∧ s1.work.Customers = s.work.Customers
      ∧ s1.work.nextOrderID = s.work.nextOrderID
      ∧ s1.work.nextOrderItemID = s.work.nextOrderItemID := by
  induction rows generalizing s with
  | nil =>
    simp only [restoreStock] at h
    injection h with _ h2
    subst h2
    simp [selectedQuantity]
  | cons r rest ih =>
    simp only [restoreStock] at h
    split at h
    · exact absurd h (by simp)
    · rename_i u1 s2 h1
      obtain ⟨-, w1, -, -⟩ := execute_ok h1
      obtain ⟨b, i, o, c, n, m⟩ := ih h
      rw [w1] at b i o c n m
      simp only [increaseStock] at b i o c n m
      refine ⟨?_, i, o, c, n, m⟩
      rw [b, List.map_map]
      apply List.map_congr_left
      intro x _
      simp only [Function.comp, selectedQuantity_cons]
      by_cases hx : x.BookID = r.1
      · simp [hx, add_assoc]
      · have hx2 : ¬ r.1 = x.BookID := fun e => hx e.symm
        simp [hx, hx2]

/-- A success answer of the transaction frame means that the body ran to its
end, the commit went through and the working copy became the committed store. -/
theorem withTransaction_success {α : Type} {f : Faults} {failed : String}
    {body : Session → Outcome α} {respond : α → Response} {w : World}
    (h : (withTransaction f failed body respond w).1.success = true) :
    ∃ a s, body { work := w.db, issued := 0,
                  log := w.log ++ [Event.getConnection, Event.beginTransaction] } = Outcome.ok a s
      ∧ withTransaction f failed body respond w
          = (respond a, { db := s.work, log := s.log ++ [Event.commit, Event.release] }) := by
  unfold withTransaction at h ⊢
  cases hg : f.getConnection with
  | some e => simp [hg, serverError] at h
  | none =>
    cases hb : f.beginTransaction with
    | some e => simp [hg, hb, serverError] at h
    | none =>
      simp only [hg, hb] at h ⊢
      cases hbody : body (Session.mk w.db 0
                  (w.log ++ [Event.getConnection, Event.beginTransaction])) with
      | threw e s => simp [hbody, thenCommit, serverError] at h
      | ok a s =>
        cases hc : f.commit with
        | some e => simp [hbody, thenCommit, hc, serverError] at h
        | none =>
          refine ⟨a, s, rfl, ?_⟩
          simp [thenCommit, hc]

/-! ## Helper lemmas: the handlers on their success path -/

theorem itemRows_length (orderId first : Nat) (items : List Item) :
    (itemRows orderId first items).length = items.length := by
  induction items generalizing first with
  | nil => rfl
  | cons i rest ih => simp [itemRows, ih]

theorem itemRows_columns (orderId first : Nat) (items : List Item) :
    (itemRows orderId first items).map (fun r => (r.OrderID, r.BookID, r.Quantity, r.Price))
      = items.map (fun i => (orderId, i.bookId, i.quantity, i.price)) := by
  induction items generalizing first with
  | nil => rfl
  | cons i rest ih => simp [itemRows, ih]

theorem itemRows_orderID (orderId first : Nat) (items : List Item) :
    ∀ r ∈ itemRows orderId first items, r.OrderID = orderId := by
  induction items generalizing first with
  | nil => simp [itemRows]
  | cons i rest ih =>
    intro r hr
    simp only [itemRows, List.mem_cons] at hr
    rcases hr with rfl | hr
    · rfl
    · exact ih _ r hr

/-- A request that passes the test of `POST` has a non-zero `customerId` and a
non-empty `items` array. -/
theorem create_valid_shape {req : CreateRequest}
    (h : (!truthy req.customerId || req.items.falsy || !req.items.isArray
            || req.items.toList.length == 0) = false) :
    ∃ c items, req.customerId = some c ∧ c ≠ 0 ∧ req.items = Items.array items ∧ items ≠ [] := by
  obtain ⟨cid, its, st⟩ := req
  cases cid with
  | none => simp [truthy] at h
  | some c =>
    cases its with
    | absent => simp [Items.falsy] at h
    | notArray => simp [Items.isArray] at h
    | array xs =>
      refine ⟨c, xs, rfl, ?_, rfl, ?_⟩
      · intro hc; subst hc; simp [truthy] at h
      · intro hx; subst hx; simp [Items.toList] at h

/-- What a committed `POST` leaves behind. -/
theorem POST_success {f : Faults} {now : Nat} {req : CreateRequest} {w : World}
    (h : (POST f now req w).1.success = true) :
    ∃ c items, req.customerId = some c ∧ c ≠ 0 ∧ req.items = Items.array items ∧ items ≠ []
      ∧ (POST f now req w).1 = okResponse "Order created successfully" (some w.db.nextOrderID)
      ∧ (POST f now req w).2.db.Books = w.db.Books.map (fun b =>
          { b with Stock := b.Stock - requestedQuantity items b.BookID })
      ∧ (POST f now req w).2.db.Orders = w.db.Orders ++
          [{ OrderID := w.db.nextOrderID, CustomerID := c, OrderDate := now,
             TotalAmount := totalAmount items, Status := some (statusOrPending req.status) }]
      ∧ (POST f now req w).2.db.OrderItems = w.db.OrderItems ++
          itemRows w.db.nextOrderID w.db.nextOrderItemID items
      ∧ (POST f now req w).2.db.Customers = w.db.Customers
      ∧ (POST f now req w).2.db.nextOrderID = w.db.nextOrderID + 1 := by
  unfold POST at h ⊢
  split at h
  · simp [badRequest] at h
  · rename_i hv
    have hv2 := Bool.eq_false_iff.mpr hv
    obtain ⟨c, items, hc, hc0, hi, hne⟩ := create_valid_shape hv2
    refine ⟨c, items, hc, hc0, hi, hne, ?_⟩
    rw [if_neg hv]
    obtain ⟨a, s, hbody, heq⟩ := withTransaction_success h
    rw [heq]
    simp only [hc, hi, Items.toList, Option.getD_some] at hbody
    unfold createBody at hbody
    split at hbody
    · exact absurd hbody (by simp)
    · rename_i oid s1 h1
      split at hbody
      · exact absurd hbody (by simp)
      · rename_i u s2 h2
        injection hbody with ha hs
        subst ha hs
        obtain ⟨e1, e2, -, -⟩ := execute_ok (executeChecked_ok h1).1
        obtain ⟨b, r, o, cu, n, -⟩ := insertItems_ok items h2
        simp only [insertOrder] at e1 e2
        rw [e2] at b r o cu n
        simp only at b r o cu n
        subst e1
        exact ⟨rfl, b, o, r, cu, n⟩

/-! ## Create -/

/-- C1: whenever `POST` commits, exactly one order row is appended and its
`TotalAmount` is the sum, over the request items in input order, of
quantity times price. -/
theorem create_total_amount (f : Faults) (now : Nat) (req : CreateRequest) (w : World)
    (h : (POST f now req w).1.success = true) :
    ∃ o, (POST f now req w).2.db.Orders = w.db.Orders ++ [o]
      ∧ o.TotalAmount = (req.items.toList.map fun i => i.quantity * i.price).sum := by
  obtain ⟨c, items, -, -, hi, -, -, -, ho, -, -⟩ := POST_success h
  refine ⟨_, ho, ?_⟩
  simp [hi, Items.toList, totalAmount_eq_sum]

/-- Scenario A commits and stores the total 20.00. -/
theorem create_total_amount_witness :
    (POST noFaults 100 scenarioA shop).1.success = true
      ∧ ∃ o, (POST noFaults 100 scenarioA shop).2.db.Orders = shop.db.Orders ++ [o]
          ∧ o.TotalAmount = (scenarioA.items.toList.map fun i => i.quantity * i.price).sum :=
  ⟨by decide, create_total_amount noFaults 100 scenarioA shop (by decide)⟩

/-- C2: whenever `POST` commits, every book row keeps its place and its
columns except that its `Stock` has fallen by the summed quantity of the
request items that reference it: by nothing when no item references it, and by
the item's quantity when exactly one does. -/
theorem create_stock (f : Faults) (now : Nat) (req : CreateRequest) (w : World)
    (h : (POST f now req w).1.success = true) :
    (POST f now req w).2.db.Books = w.db.Books.map (fun b =>
        { b with Stock := b.Stock - requestedQuantity req.items.toList b.BookID })
      ∧ (∀ b : Book, (∀ i ∈ req.items.toList, i.bookId ≠ b.BookID) →
          requestedQuantity req.items.toList b.BookID = 0)
      ∧ (∀ (b : Book) (i : Item),
          (req.items.toList.filter fun j => j.bookId = b.BookID) = [i] →
          requestedQuantity req.items.toList b.BookID = i.quantity) := by
  obtain ⟨c, items, -, -, hi, -, -, hb, -, -, -⟩ := POST_success h
  simp only [hi, Items.toList]
  refine ⟨hb, ?_, ?_⟩
  · intro b hno
    have : (items.filter fun j => j.bookId = b.BookID) = [] := by
      rw [List.filter_eq_nil_iff]
      intro i hmem
      simpa using hno i (by simpa [hi, Items.toList] using hmem)
    simp [requestedQuantity, this]
  · intro b i hone
    simp [requestedQuantity, hone]

/-- A request naming book 5 twice (2 and 4 copies) and book 6 once commits. -/
theorem create_stock_witness :
    (POST noFaults 100 twoBooksRequest shop).1.success = true
      ∧ ((POST noFaults 100 twoBooksRequest shop).2.db.Books = shop.db.Books.map (fun b =>
          { b with Stock := b.Stock - requestedQuantity twoBooksRequest.items.toList b.BookID })
        ∧ (∀ b : Book, (∀ i ∈ twoBooksRequest.items.toList, i.bookId ≠ b.BookID) →
            requestedQuantity twoBooksRequest.items.toList b.BookID = 0)
        ∧ (∀ (b : Book) (i : Item),
            (twoBooksRequest.items.toList.filter fun j => j.bookId = b.BookID) = [i] →
            requestedQuantity twoBooksRequest.items.toList b.BookID = i.quantity)) :=
  ⟨by decide, create_stock noFaults 100 twoBooksRequest shop (by decide)⟩

/-- C3: whenever `POST` commits, exactly one order row is appended, carrying
the request's `customerId` and the fresh `OrderID`; exactly one item row per
request item is appended, in input order, each carrying that `OrderID` and
the item's `bookId`, `quantity` and `price`; and the answer's `data.orderId`
is that `OrderID`. -/
theorem create_rows (f : Faults) (now : Nat) (req : CreateRequest) (w : World)
    (h : (POST f now req w).1.success = true) :
    ∃ (o : Order) (rows : List OrderItem),
      (POST f now req w).2.db.Orders = w.db.Orders ++ [o]
      ∧ req.customerId = some o.CustomerID
      ∧ (POST f now req w).2.db.OrderItems = w.db.OrderItems ++ rows
      ∧ rows.length = req.items.toList.length
      ∧ rows.map (fun r => (r.OrderID, r.BookID, r.Quantity, r.Price))
          = req.items.toList.map (fun i => (o.OrderID, i.bookId, i.quantity, i.price))
      ∧ (POST f now req w).1.orderId = some o.OrderID := by
  obtain ⟨c, items, hc, -, hi, -, hr, -, ho, hrows, -⟩ := POST_success h
  refine ⟨_, _, ho, hc, hrows, ?_, ?_, ?_⟩
  · simp [hi, Items.toList, itemRows_length]
  · simp only [hi, Items.toList]
    exact itemRows_columns _ _ _
  · rw [hr]; rfl

/-- A three-item request commits and adds one order row and three item rows. -/
theorem create_rows_witness :
    (POST noFaults 100 twoBooksRequest shop).1.success = true
      ∧ ∃ (o : Order) (rows : List OrderItem),
        (POST noFaults 100 twoBooksRequest shop).2.db.Orders = shop.db.Orders ++ [o]
        ∧ twoBooksRequest.customerId = some o.CustomerID
        ∧ (POST noFaults 100 twoBooksRequest shop).2.db.OrderItems = shop.db.OrderItems ++ rows
        ∧ rows.length = twoBooksRequest.items.toList.length
        ∧ rows.map (fun r => (r.OrderID, r.BookID, r.Quantity, r.Price))
            = twoBooksRequest.items.toList.map (fun i => (o.OrderID, i.bookId, i.quantity, i.price))
        ∧ (POST noFaults 100 twoBooksRequest shop).1.orderId = some o.OrderID :=
  ⟨by decide, create_rows noFaults 100 twoBooksRequest shop (by decide)⟩

/-- C4 as worded fails: a request whose status is the empty string commits,
and the stored status is not that string but "Pending". -/
theorem create_status_counterexample :
    (POST noFaults 100 emptyStatusRequest shop).1.success = true
      ∧ emptyStatusRequest.status = some ""
      ∧ (POST noFaults 100 emptyStatusRequest shop).2.db.Orders.map (fun o => o.Status)
          = [some "Pending"]
      ∧ ¬ ∃ o, (POST noFaults 100 emptyStatusRequest shop).2.db.Orders = shop.db.Orders ++ [o]
          ∧ o.Status = emptyStatusRequest.status := by
  refine ⟨by decide, rfl, by decide, ?_⟩
  rintro ⟨o, h1, h2⟩
  have h3 : (POST noFaults 100 emptyStatusRequest shop).2.db.Orders.map (fun o => o.Status)
      = [some "Pending"] := by decide
  rw [h1] at h3
  simp [shop, h2, emptyStatusRequest] at h3

/-- C4, amended: whenever `POST` commits, the stored status is "Pending" when
the request carries no status or the empty string, and otherwise the
request's status exactly as given, whatever string it is. -/
theorem create_status (f : Faults) (now : Nat) (req : CreateRequest) (w : World)
    (h : (POST f now req w).1.success = true) :
    ∃ o, (POST f now req w).2.db.Orders = w.db.Orders ++ [o]
      ∧ (req.status = none → o.Status = some "Pending")
      ∧ (req.status = some "" → o.Status = some "Pending")
      ∧ (∀ s, req.status = some s → s ≠ "" → o.Status = some s) := by
  obtain ⟨c, items, -, -, -, -, -, -, ho, -, -⟩ := POST_success h
  refine ⟨_, ho, ?_, ?_, ?_⟩
  · intro hs; simp [hs, statusOrPending]
  · intro hs; simp [hs, statusOrPending]
  · intro s hs hne; simp [hs, statusOrPending, hne]

/-- A request with the status "Shipped", outside the recognised set, commits
and stores it unchanged. -/
theorem create_status_witness :
    (POST noFaults 100 twoBooksRequest shop).1.success = true
      ∧ ∃ o, (POST noFaults 100 twoBooksRequest shop).2.db.Orders = shop.db.Orders ++ [o]
        ∧ (twoBooksRequest.status = none → o.Status = some "Pending")
        ∧ (twoBooksRequest.status = some "" → o.Status = some "Pending")
        ∧ (∀ s, twoBooksRequest.status = some s → s ≠ "" → o.Status = some s) :=
  ⟨by decide, create_status noFaults 100 twoBooksRequest shop (by decide)⟩

/-- C5: a `POST` whose `customerId` is absent, or whose `items` is absent, not
an array or the empty array, is answered 400 "Invalid order data"; the store
and the log of pool and connection calls are exactly as before. -/
theorem create_rejects_invalid (f : Faults) (now : Nat) (req : CreateRequest) (w : World)
    (h : req.customerId = none ∨ req.items = Items.absent ∨ req.items = Items.notArray
          ∨ req.items = Items.array []) :
    POST f now req w
      = ({ status := 400, success := false, message := "Invalid order data",
           orderId := none, error := none }, w) := by
  obtain ⟨cid, its, st⟩ := req
  simp only at h
  rcases h with h | h | h | h <;> subst h
  · simp [POST, truthy, badRequest]
  · simp [POST, Items.falsy, badRequest]
  · simp [POST, Items.isArray, badRequest]
  · simp [POST, Items.toList, badRequest]

/-- A request without `customerId` is rejected whatever the store would do. -/
theorem create_rejects_invalid_witness :
    (noCustomerRequest.customerId = none ∨ noCustomerRequest.items = Items.absent
        ∨ noCustomerRequest.items = Items.notArray ∨ noCustomerRequest.items = Items.array [])
      ∧ POST noFaults 100 noCustomerRequest shop
          = ({ status := 400, success := false, message := "Invalid order data",
               orderId := none, error := none }, shop) :=
  ⟨Or.inl rfl, create_rejects_invalid noFaults 100 noCustomerRequest shop (Or.inl rfl)⟩

/-! ## Helper lemmas: the log of calls -/

theorem executesOnly_refl (s : Session) : s.executesOnly s :=
  ⟨[], by simp⟩

theorem executesOnly_trans {s s1 s2 : Session} (h1 : s.executesOnly s1)
    (h2 : s1.executesOnly s2) : s.executesOnly s2 := by
  obtain ⟨a, ha⟩ := h1
  obtain ⟨b, hb⟩ := h2
  exact ⟨a ++ b, by rw [hb, ha]; simp⟩

theorem execute_executesOnly {α : Type} {f : Faults} {sql : String}
    {run : Database → Database × α} {s : Session} {o : Outcome α}
    (h : execute f sql run s = o) : s.executesOnly o.session := by
  subst h
  refine ⟨[sql], ?_⟩
  unfold execute
  cases f.statement s.issued <;> rfl

theorem executeChecked_executesOnly {α : Type} {f : Faults} {sql : String}
    {violated : Database → Bool} {run : Database → Database × α} {s : Session} {o : Outcome α}
    (h : executeChecked f sql violated run s = o) : s.executesOnly o.session := by
  subst h
  unfold executeChecked
  split
  · exact ⟨[sql], rfl⟩
  · exact execute_executesOnly rfl

theorem insertItems_executesOnly (f : Faults) (orderId : Nat) (items : List Item) (s : Session) :
    s.executesOnly (insertItems f orderId items s).session := by
  induction items generalizing s with
  | nil => exact executesOnly_refl s
  | cons i rest ih =>
    simp only [insertItems]
    split
    · rename_i e s1 h1
      exact executeChecked_executesOnly h1
    · rename_i u s1 h1
      have l1 := executeChecked_executesOnly h1
      split
      · rename_i e s2 h2
        exact executesOnly_trans l1 (execute_executesOnly h2)
      · rename_i u2 s2 h2
        exact executesOnly_trans l1 (executesOnly_trans (execute_executesOnly h2) (ih s2))

theorem createBody_executesOnly (f : Faults) (now customerId : Nat) (total : Int)
    (status : Option String) (items : List Item) (s : Session) :
    s.executesOnly (createBody f now customerId total status items s).session := by
  unfold createBody
  split
  · rename_i e s1 h1
    exact executeChecked_executesOnly h1
  · rename_i oid s1 h1
    have l1 := executeChecked_executesOnly h1
    have l2 := insertItems_executesOnly f oid items s1
    split
    · rename_i e s2 h2
      rw [h2] at l2
      exact executesOnly_trans l1 l2
    · rename_i u s2 h2
      rw [h2] at l2
      exact executesOnly_trans l1 l2

/-- Whatever happens inside, the transaction frame first asks the pool for a
connection. -/
theorem withTransaction_log {α : Type} (f : Faults) (failed : String)
    (body : Session → Outcome α) (respond : α → Response) (w : World)
    (hbody : ∀ s : Session, s.executesOnly (body s).session) :
    ∃ rest, (withTransaction f failed body respond w).2.log
      = w.log ++ Event.getConnection :: rest := by
  unfold withTransaction
  cases f.getConnection with
  | some e => exact ⟨[], rfl⟩
  | none =>
    cases f.beginTransaction with
    | some e => exact ⟨[_], rfl⟩
    | none =>
      simp only
      obtain ⟨sqls, hs⟩ := hbody (Session.mk w.db 0
        (w.log ++ [Event.getConnection, Event.beginTransaction]))
      cases hb : body (Session.mk w.db 0
        (w.log ++ [Event.getConnection, Event.beginTransaction])) with
      | threw e s =>
        rw [hb] at hs
        simp only [Outcome.session] at hs
        simp only [thenCommit, hs, List.append_assoc, List.cons_append, List.nil_append]
        exact ⟨_, rfl⟩
      | ok a s =>
        rw [hb] at hs
        simp only [Outcome.session] at hs
        simp only [thenCommit]
        cases f.commit with
        | some e =>
          simp only [hs, List.append_assoc, List.cons_append, List.nil_append]
          exact ⟨_, rfl⟩
        | none =>
          simp only [hs, List.append_assoc, List.cons_append, List.nil_append]
          exact ⟨_, rfl⟩

theorem withTransaction_status {α : Type} (f : Faults) (failed : String)
    (body : Session → Outcome α) (respond : α → Response) (w : World)
    (hresp : ∀ a, (respond a).status = 200) :
    (withTransaction f failed body respond w).1.status = 200
      ∨ (withTransaction f failed body respond w).1.status = 500 := by
  unfold withTransaction
  cases f.getConnection with
  | some e => exact Or.inr rfl
  | none =>
    cases f.beginTransaction with
    | some e => exact Or.inr rfl
    | none =>
      simp only
      cases thenCommit f (body (Session.mk w.db 0
        (w.log ++ [Event.getConnection, Event.beginTransaction]))) with
      | threw e s => exact Or.inr rfl
      | ok a s => exact Or.inl (hresp a)

/-! ## Helper lemmas: runs without faults -/

theorem execute_noFaults {α : Type} (sql : String) (run : Database → Database × α)
    (s : Session) :
    execute noFaults sql run s
      = Outcome.ok (run s.work).2
          { work := (run s.work).1, issued := s.issued + 1,
            log := s.log ++ [Event.execute sql] } := rfl

theorem executeChecked_noFaults {α : Type} (sql : String) (violated : Database → Bool)
    (run : Database → Database × α) (s : Session) :
    executeChecked noFaults sql violated run s = execute noFaults sql run s := by
  simp [executeChecked, noFaults]

theorem insertItems_noFaults (orderId : Nat) (items : List Item) (s : Session) :
    ∃ s1, insertItems noFaults orderId items s = Outcome.ok () s1 := by
  induction items generalizing s with
  | nil => exact ⟨s, rfl⟩
  | cons i rest ih =>
    simp only [insertItems, executeChecked_noFaults, execute_noFaults]
    exact ih _

theorem withTransaction_noFaults {α : Type} (failed : String) (body : Session → Outcome α)
    (respond : α → Response) (w : World) {a : α} {s : Session}
    (h : body { work := w.db, issued := 0,
                log := w.log ++ [Event.getConnection, Event.beginTransaction] } = Outcome.ok a s) :
    withTransaction noFaults failed body respond w
      = (respond a, { db := s.work, log := s.log ++ [Event.commit, Event.release] }) := by
  simp [withTransaction, noFaults, h, thenCommit]

/-- With no fault, a `POST` that passes the request test commits. -/
theorem POST_noFaults (now : Nat) (req : CreateRequest) (w : World) (c : Nat) (items : List Item)
    (hc : req.customerId = some c) (hc0 : c ≠ 0) (hi : req.items = Items.array items)
    (hne : items ≠ []) : (POST noFaults now req w).1.success = true := by
  have hv : (!truthy req.customerId || req.items.falsy || !req.items.isArray
      || req.items.toList.length == 0) = false := by
    cases items with
    | nil => exact absurd rfl hne
    | cons i rest => simp [hc, hi, truthy, hc0, Items.falsy, Items.isArray, Items.toList]
  unfold POST
  rw [hv]
  simp only [Bool.false_eq_true, if_false]
  obtain ⟨s1, h1⟩ := insertItems_noFaults w.db.nextOrderID req.items.toList
    { work := (insertOrder (req.customerId.getD 0) now (totalAmount req.items.toList)
                (some (statusOrPending req.status)) w.db).1,
      issued := 1,
      log := w.log ++ [Event.getConnection, Event.beginTransaction] ++
        [Event.execute "INSERT INTO Orders (CustomerID, OrderDate, TotalAmount, Status) VALUES (?, NOW(), ?, ?)"] }
  rw [withTransaction_noFaults _ _ _ _ (a := w.db.nextOrderID) (s := s1)]
  · rfl
  · simp only [createBody, executeChecked_noFaults, execute_noFaults]
    simp only [insertOrder, Nat.zero_add] at h1 ⊢
    rw [h1]

/-- C6 as worded fails: a request whose only item has a negative quantity and
a negative price is not rejected; a connection is acquired, statements are
issued, the call commits, and the store has changed (book 5 has gained three
copies and an order with a positive total exists). -/
theorem create_invalid_item_counterexample :
    negativeItemRequest.items = Items.array [{ bookId := 5, quantity := -3, price := -100 }]
      ∧ (POST noFaults 100 negativeItemRequest shop).1.success = true
      ∧ (POST noFaults 100 negativeItemRequest shop).2.log
          = [Event.getConnection, Event.beginTransaction,
             Event.execute "INSERT INTO Orders (CustomerID, OrderDate, TotalAmount, Status) VALUES (?, NOW(), ?, ?)",
             Event.execute "INSERT INTO OrderItems (OrderID, BookID, Quantity, Price) VALUES (?, ?, ?, ?)",
             Event.execute "UPDATE Books SET Stock = Stock - ? WHERE BookID = ?",
             Event.commit, Event.release]
      ∧ (POST noFaults 100 negativeItemRequest shop).2.db.Books
          = [{ BookID := 5, Title := "Dune", Stock := 13 },
             { BookID := 6, Title := "Emma", Stock := 3 }]
      ∧ (POST noFaults 100 negativeItemRequest shop).2.db.Orders
          = [{ OrderID := 7, CustomerID := 1, OrderDate := 100, TotalAmount := 300,
               Status := some "Pending" }]
      ∧ (POST noFaults 100 negativeItemRequest shop).2.db ≠ shop.db := by
  decide

/-- C6, amended: `POST` looks at no item.  A request with a non-zero
`customerId` and a non-empty `items` array is never answered 400, whatever the
quantity and price of its items: the handler asks the pool for a connection,
and when no call fails it commits. -/
theorem create_no_item_check (now : Nat) (req : CreateRequest) (w : World) (c : Nat)
    (items : List Item) (hc : req.customerId = some c) (hc0 : c ≠ 0)
    (hi : req.items = Items.array items) (hne : items ≠ []) :
    (∀ f : Faults, (POST f now req w).1.status ≠ 400
        ∧ ∃ rest, (POST f now req w).2.log = w.log ++ Event.getConnection :: rest)
      ∧ (POST noFaults now req w).1.success = true := by
  refine ⟨fun f => ?_, POST_noFaults now req w c items hc hc0 hi hne⟩
  have hv : (!truthy req.customerId || req.items.falsy || !req.items.isArray
      || req.items.toList.length == 0) = false := by
    cases items with
    | nil => exact absurd rfl hne
    | cons i rest => simp [hc, hi, truthy, hc0, Items.falsy, Items.isArray, Items.toList]
  unfold POST
  rw [hv]
  simp only [Bool.false_eq_true, if_false]
  constructor
  · rcases withTransaction_status f "Failed to create order"
      (createBody f now (req.customerId.getD 0) (totalAmount req.items.toList) req.status
        req.items.toList)
      (fun orderId => okResponse "Order created successfully" (some orderId)) w
      (fun _ => rfl) with h | h <;> rw [h] <;> decide
  · exact withTransaction_log f _ _ _ w (fun s => createBody_executesOnly f _ _ _ _ _ s)

/-- The request with the negative item meets the hypotheses. -/
theorem create_no_item_check_witness :
    (∀ f : Faults, (POST f 100 negativeItemRequest shop).1.status ≠ 400
        ∧ ∃ rest, (POST f 100 negativeItemRequest shop).2.log
            = shop.log ++ Event.getConnection :: rest)
      ∧ (POST noFaults 100 negativeItemRequest shop).1.success = true :=
  create_no_item_check 100 negativeItemRequest shop 1
    [{ bookId := 5, quantity := -3, price := -100 }] rfl (by decide) rfl (by simp)

/-! ## Helper lemmas: `PUT` and `DELETE` on their success path -/

/-- A request that passes the test of `PUT` has a non-zero `orderId`, a
non-zero `customerId` and a non-empty `items` array. -/
theorem update_valid_shape {req : UpdateRequest}
    (h : (!truthy req.orderId || !truthy req.customerId || req.items.falsy || !req.items.isArray
            || req.items.toList.length == 0) = false) :
    ∃ oid c items, req.orderId = some oid ∧ oid ≠ 0 ∧ req.customerId = some c ∧ c ≠ 0
      ∧ req.items = Items.array items ∧ items ≠ [] := by
  obtain ⟨oid, cid, its, st⟩ := req
  cases oid with
  | none => simp [truthy] at h
  | some k =>
    cases cid with
    | none => simp [truthy] at h
    | some c =>
      cases its with
      | absent => simp [Items.falsy] at h
      | notArray => simp [Items.isArray] at h
      | array xs =>
        refine ⟨k, c, xs, rfl, ?_, rfl, ?_, rfl, ?_⟩
        · intro hk; subst hk; simp [truthy] at h
        · intro hc; subst hc; simp [truthy] at h
        · intro hx; subst hx; simp [Items.toList] at h

/-- What the statements of `PUT` do to the working copy when none throws. -/
theorem updateBody_ok {f : Faults} {orderId customerId : Nat} {total : Int}
    {status : Option String} {items : List Item} {s s1 : Session} {a : Nat}
    (h : updateBody f orderId customerId total status items s = Outcome.ok a s1) :
    a = orderId
      ∧ s1.work.Books = s.work.Books.map (fun b =>
          { b with Stock := b.Stock + storedQuantity s.work.OrderItems orderId b.BookID
                              - requestedQuantity items b.BookID })
      ∧ s1.work.Orders = s.work.Orders.map (fun o =>
          if o.OrderID = orderId then
            { o with CustomerID := customerId, TotalAmount := total, Status := status }
          else o)
      ∧ s1.work.OrderItems = (s.work.OrderItems.filter fun r => ¬ r.OrderID = orderId)
          ++ itemRows orderId s.work.nextOrderItemID items
      ∧ s1.work.Customers = s.work.Customers := by
  unfold updateBody at h
  split at h
  · exact absurd h (by simp)
  · rename_i rows t1 h1
    split at h
    · exact absurd h (by simp)
    · rename_i u2 t2 h2
      split at h
      · exact absurd h (by simp)
      · rename_i u3 t3 h3
        split at h
        · exact absurd h (by simp)
        · rename_i u4 t4 h4
          split at h
          · exact absurd h (by simp)
          · rename_i u5 t5 h5
            injection h with ha hs
            subst ha hs
            obtain ⟨r1, w1, -, -⟩ := execute_ok h1
            obtain ⟨b2, i2, o2, c2, -, m2⟩ := restoreStock_ok rows h2
            obtain ⟨-, w3, -, -⟩ := execute_ok h3
            obtain ⟨-, w4, -, -⟩ := execute_ok (executeChecked_ok h4).1
            obtain ⟨b5, i5, o5, c5, -, -⟩ := insertItems_ok items h5
            simp only [selectOrderItems] at r1 w1
            simp only [deleteOrderItems] at w3
            simp only [updateOrder] at w4
            rw [w1] at b2 i2 o2 c2 m2
            rw [w4, w3] at b5 i5 o5 c5
            simp only at b5 i5 o5 c5
            rw [b2] at b5
            rw [i2, m2] at i5
            rw [o2] at o5
            rw [c2] at c5
            refine ⟨rfl, ?_, o5, i5, c5⟩
            rw [b5, List.map_map]
            apply List.map_congr_left
            intro x _
            simp only [Function.comp, r1, selectedQuantity_select]

/-- What a committed `PUT` leaves behind. -/
theorem PUT_success {f : Faults} {req : UpdateRequest} {w : World}
    (h : (PUT f req w).1.success = true) :
    ∃ oid c items, req.orderId = some oid ∧ oid ≠ 0 ∧ req.customerId = some c ∧ c ≠ 0
      ∧ req.items = Items.array items ∧ items ≠ []
      ∧ (PUT f req w).1 = okResponse "Order updated successfully" (some oid)
      ∧ (PUT f req w).2.db.Books = w.db.Books.map (fun b =>
          { b with Stock := b.Stock + storedQuantity w.db.OrderItems oid b.BookID
                              - requestedQuantity items b.BookID })
      ∧ (PUT f req w).2.db.Orders = w.db.Orders.map (fun o =>
          if o.OrderID = oid then
            { o with CustomerID := c, TotalAmount := totalAmount items, Status := req.status }
          else o)
      ∧ (PUT f req w).2.db.OrderItems = (w.db.OrderItems.filter fun r => ¬ r.OrderID = oid)
          ++ itemRows oid w.db.nextOrderItemID items
      ∧ (PUT f req w).2.db.Customers = w.db.Customers := by
  unfold PUT at h ⊢
  split at h
  · simp [badRequest] at h
  · rename_i hv
    have hv2 := Bool.eq_false_iff.mpr hv
    obtain ⟨oid, c, items, ho, ho0, hc, hc0, hi, hne⟩ := update_valid_shape hv2
    refine ⟨oid, c, items, ho, ho0, hc, hc0, hi, hne, ?_⟩
    rw [if_neg hv]
    obtain ⟨a, s, hbody, heq⟩ := withTransaction_success h
    rw [heq]
    simp only [ho, hc, hi, Items.toList, Option.getD_some] at hbody
    obtain ⟨ha, b, o, r, cu⟩ := updateBody_ok hbody
    subst ha
    exact ⟨rfl, b, o, r, cu⟩

/-- What the statements of `DELETE` do to the working copy when none throws. -/
theorem deleteBody_ok {f : Faults} {orderId : Nat} {s s1 : Session} {u : Unit}
    (h : deleteBody f (some orderId) s = Outcome.ok u s1) :
    s1.work.Books = s.work.Books.map (fun b =>
        { b with Stock := b.Stock + storedQuantity s.work.OrderItems orderId b.BookID })
      ∧ s1.work.Orders = (s.work.Orders.filter fun o => ¬ o.OrderID = orderId)
      ∧ s1.work.OrderItems = (s.work.OrderItems.filter fun r => ¬ r.OrderID = orderId)
      ∧ s1.work.Customers = s.work.Customers := by
  unfold deleteBody at h
  split at h
  · exact absurd h (by simp)
  · rename_i rows t1 h1
    split at h
    · exact absurd h (by simp)
    · rename_i u2 t2 h2
      split at h
      · exact absurd h (by simp)
      · rename_i u3 t3 h3
        split at h
        · exact absurd h (by simp)
        · rename_i u4 t4 h4
          injection h with _ hs
          subst hs
          obtain ⟨r1, w1, -, -⟩ := execute_ok h1
          obtain ⟨b2, i2, o2, c2, -, -⟩ := restoreStock_ok rows h2
          obtain ⟨-, w3, -, -⟩ := execute_ok h3
          obtain ⟨-, w4, -, -⟩ := execute_ok (executeChecked_ok h4).1
          simp only [selectOrderItems] at r1 w1
          simp only [deleteOrderItems] at w3
          simp only [deleteOrder] at w4
          rw [w1] at b2 i2 o2 c2
          rw [w4, w3]
          simp only
          refine ⟨?_, by rw [o2], by rw [i2], c2⟩
          rw [b2]
          apply List.map_congr_left
          intro x _
          simp only [r1, selectedQuantity_select]

/-- The statements of `DELETE` leave the rows as they are when the bound text
is equal to no key. -/
theorem deleteBody_none_ok {f : Faults} {s s1 : Session} {u : Unit}
    (h : deleteBody f none s = Outcome.ok u s1) :
    s1.work.Books = s.work.Books ∧ s1.work.Orders = s.work.Orders
      ∧ s1.work.OrderItems = s.work.OrderItems ∧ s1.work.Customers = s.work.Customers := by
  unfold deleteBody at h
  split at h
  · exact absurd h (by simp)
  · rename_i rows t1 h1
    split at h
    · exact absurd h (by simp)
    · rename_i u2 t2 h2
      split at h
      · exact absurd h (by simp)
      · rename_i u3 t3 h3
        split at h
        · exact absurd h (by simp)
        · rename_i u4 t4 h4
          injection h with _ hs
          subst hs
          obtain ⟨r1, w1, -, -⟩ := execute_ok h1
          obtain ⟨b2, i2, o2, c2, -, -⟩ := restoreStock_ok rows h2
          obtain ⟨-, w3, -, -⟩ := execute_ok h3
          obtain ⟨-, w4, -, -⟩ := execute_ok (executeChecked_ok h4).1
          simp only [selectOrderItems] at r1 w1
          simp only [deleteOrderItems] at w3
          simp only [deleteOrder] at w4
          rw [w1] at b2 i2 o2 c2
          rw [w4, w3]
          refine ⟨?_, o2, i2, c2⟩
          rw [b2, r1]
          conv_rhs => rw [← List.map_id s.work.Books]
          apply List.map_congr_left
          intro x _
          simp [selectedQuantity]

/-- What a committed `DELETE` leaves behind: when the store reads the bound text
as the key `k`, the rows of order `k` are gone and their quantities are back
in stock; when it reads it as no key, the rows are as they were. -/
theorem DELETE_success {f : Faults} {id : Option String} {w : World}
    (h : (DELETE f id w).1.success = true) :
    ∃ text, id = some text ∧ text ≠ ""
      ∧ (DELETE f id w).1 = okResponse "Order deleted successfully" none
      ∧ (∀ k, f.keyOf text = some k →
          (DELETE f id w).2.db.Books = w.db.Books.map (fun b =>
              { b with Stock := b.Stock + storedQuantity w.db.OrderItems k b.BookID })
          ∧ (DELETE f id w).2.db.Orders = (w.db.Orders.filter fun o => ¬ o.OrderID = k)
          ∧ (DELETE f id w).2.db.OrderItems
              = (w.db.OrderItems.filter fun r => ¬ r.OrderID = k))
      ∧ (f.keyOf text = none →
          (DELETE f id w).2.db.Books = w.db.Books
          ∧ (DELETE f id w).2.db.Orders = w.db.Orders
          ∧ (DELETE f id w).2.db.OrderItems = w.db.OrderItems)
      ∧ (DELETE f id w).2.db.Customers = w.db.Customers := by
  cases id with
  | none => simp [DELETE, badRequest] at h
  | some text =>
    by_cases ht : text = ""
    · simp [DELETE, ht, badRequest] at h
    · refine ⟨text, rfl, ht, ?_⟩
      simp only [DELETE, if_neg ht] at h ⊢
      obtain ⟨a, s, hbody, heq⟩ := withTransaction_success h
      rw [heq]
      cases hk : f.keyOf text with
      | none =>
        rw [hk] at hbody
        obtain ⟨b, o, r, cu⟩ := deleteBody_none_ok hbody
        exact ⟨rfl, fun k hk2 => Option.noConfusion hk2, fun _ => ⟨b, o, r⟩, cu⟩
      | some k =>
        rw [hk] at hbody
        obtain ⟨b, o, r, cu⟩ := deleteBody_ok hbody
        refine ⟨rfl, ?_, fun hk2 => Option.noConfusion hk2, cu⟩
        intro k2 hk2
        injection hk2 with hk2
        subst hk2
        exact ⟨b, o, r⟩

/-- The two ways a committed `DELETE` ends: the rows of one order are gone, or
no row is touched. -/
theorem DELETE_success_cases {f : Faults} {id : Option String} {w : World}
    (h : (DELETE f id w).1.success = true) :
    (∃ text k, id = some text ∧ f.keyOf text = some k
        ∧ (DELETE f id w).2.db.Books = w.db.Books.map (fun b =>
            { b with Stock := b.Stock + storedQuantity w.db.OrderItems k b.BookID })
        ∧ (DELETE f id w).2.db.Orders = (w.db.Orders.filter fun o => ¬ o.OrderID = k)
        ∧ (DELETE f id w).2.db.OrderItems = (w.db.OrderItems.filter fun r => ¬ r.OrderID = k))
      ∨ (∃ text, id = some text ∧ f.keyOf text = none
        ∧ (DELETE f id w).2.db.Books = w.db.Books
        ∧ (DELETE f id w).2.db.Orders = w.db.Orders
        ∧ (DELETE f id w).2.db.OrderItems = w.db.OrderItems) := by
  obtain ⟨text, hid, -, -, hsome, hnone, -⟩ := DELETE_success h
  cases hk : f.keyOf text with
  | none => exact Or.inr ⟨text, hid, hk, hnone hk⟩
  | some k => exact Or.inl ⟨text, k, hid, hk, hsome k hk⟩

/-! ## Update -/

theorem filter_order_rows (xs : List OrderItem) (orderId first : Nat) (items : List Item) :
    (((xs.filter fun r => ¬ r.OrderID = orderId) ++ itemRows orderId first items).filter
        fun r => r.OrderID = orderId) = itemRows orderId first items := by
  rw [List.filter_append, List.filter_filter]
  have h1 : (xs.filter fun r => (decide (r.OrderID = orderId) && decide (¬ r.OrderID = orderId)))
      = [] := by
    rw [List.filter_eq_nil_iff]
    intro r _
    by_cases h : r.OrderID = orderId <;> simp [h]
  have h2 : ((itemRows orderId first items).filter fun r => r.OrderID = orderId)
      = itemRows orderId first items := by
    rw [List.filter_eq_self]
    intro r hr
    simpa using itemRows_orderID orderId first items r hr
  rw [h1, h2, List.nil_append]

/-- C7: whenever `PUT` commits, every book row keeps its place and its columns
except that its `Stock` has changed by the summed quantity of the order's old
item rows that reference the book minus the summed quantity of the new items
that reference it; this holds for every overlap of old and new items. -/
theorem update_stock (f : Faults) (req : UpdateRequest) (w : World)
    (h : (PUT f req w).1.success = true) :
    ∃ oid, req.orderId = some oid
      ∧ (PUT f req w).2.db.Books = w.db.Books.map (fun b =>
          { b with Stock := b.Stock + (storedQuantity w.db.OrderItems oid b.BookID
                                        - requestedQuantity req.items.toList b.BookID) }) := by
  obtain ⟨oid, c, items, ho, -, -, -, hi, -, -, hb, -, -, -⟩ := PUT_success h
  refine ⟨oid, ho, ?_⟩
  rw [hb]
  apply List.map_congr_left
  intro b _
  simp [hi, Items.toList, add_sub_assoc]

/-- Scenario B commits: book 5 goes from 8 back to 10 and down to 9. -/
theorem update_stock_witness :
    (PUT noFaults scenarioB shopWithOrders).1.success = true
      ∧ (PUT noFaults scenarioB shopWithOrders).2.db.Books
          = [{ BookID := 5, Title := "Dune", Stock := 9 },
             { BookID := 6, Title := "Emma", Stock := 2 }]
      ∧ ∃ oid, scenarioB.orderId = some oid
        ∧ (PUT noFaults scenarioB shopWithOrders).2.db.Books = shopWithOrders.db.Books.map (fun b =>
            { b with Stock := b.Stock + (storedQuantity shopWithOrders.db.OrderItems oid b.BookID
                                  - requestedQuantity scenarioB.items.toList b.BookID) }) :=
  ⟨by decide, by decide, update_stock noFaults scenarioB shopWithOrders (by decide)⟩

/-- C8: whenever `PUT` commits, the item rows of the order are exactly the new
items in input order, none of the old rows remains, and the order row named by
`orderId` keeps its `OrderID` and `OrderDate` and carries the given customer,
the given status and the sum of quantity times price over the new items; the
other order rows are untouched. -/
theorem update_rows (f : Faults) (req : UpdateRequest) (w : World)
    (h : (PUT f req w).1.success = true) :
    ∃ oid c, req.orderId = some oid ∧ req.customerId = some c
      ∧ ((PUT f req w).2.db.OrderItems.filter fun r => r.OrderID = oid)
          = itemRows oid w.db.nextOrderItemID req.items.toList
      ∧ (((PUT f req w).2.db.OrderItems.filter fun r => r.OrderID = oid).map
            fun r => (r.OrderID, r.BookID, r.Quantity, r.Price))
          = req.items.toList.map (fun i => (oid, i.bookId, i.quantity, i.price))
      ∧ (PUT f req w).2.db.Orders = w.db.Orders.map (fun o =>
          if o.OrderID = oid then
            { OrderID := o.OrderID, CustomerID := c, OrderDate := o.OrderDate,
              TotalAmount := (req.items.toList.map fun i => i.quantity * i.price).sum,
              Status := req.status }
          else o) := by
  obtain ⟨oid, c, items, ho, -, hc, -, hi, -, -, -, hord, hrows, -⟩ := PUT_success h
  have hf : ((PUT f req w).2.db.OrderItems.filter fun r => r.OrderID = oid)
      = itemRows oid w.db.nextOrderItemID req.items.toList := by
    rw [hrows, hi]
    exact filter_order_rows _ _ _ _
  refine ⟨oid, c, ho, hc, hf, ?_, ?_⟩
  · rw [hf]; exact itemRows_columns _ _ _
  · rw [hord, hi]
    simp only [Items.toList, totalAmount_eq_sum]

/-- Scenario B commits: order 7 holds the one new item and the total 10.00. -/
theorem update_rows_witness :
    (PUT noFaults scenarioB shopWithOrders).1.success = true
      ∧ ∃ oid c, scenarioB.orderId = some oid ∧ scenarioB.customerId = some c
        ∧ ((PUT noFaults scenarioB shopWithOrders).2.db.OrderItems.filter fun r => r.OrderID = oid)
            = itemRows oid shopWithOrders.db.nextOrderItemID scenarioB.items.toList
        ∧ (((PUT noFaults scenarioB shopWithOrders).2.db.OrderItems.filter
              fun r => r.OrderID = oid).map fun r => (r.OrderID, r.BookID, r.Quantity, r.Price))
            = scenarioB.items.toList.map (fun i => (oid, i.bookId, i.quantity, i.price))
        ∧ (PUT noFaults scenarioB shopWithOrders).2.db.Orders = shopWithOrders.db.Orders.map (fun o =>
            if o.OrderID = oid then
              { OrderID := o.OrderID, CustomerID := c, OrderDate := o.OrderDate,
                TotalAmount := (scenarioB.items.toList.map fun i => i.quantity * i.price).sum,
                Status := scenarioB.status }
            else o) :=
  ⟨by decide, update_rows noFaults scenarioB shopWithOrders (by decide)⟩

/-- C9: a `PUT` whose `orderId` or `customerId` is absent, or whose `items` is
absent, not an array or the empty array, is answered 400 "Invalid order data";
the store and the log of pool and connection calls are exactly as before. -/
theorem update_rejects_invalid (f : Faults) (req : UpdateRequest) (w : World)
    (h : req.orderId = none ∨ req.customerId = none ∨ req.items = Items.absent
          ∨ req.items = Items.notArray ∨ req.items = Items.array []) :
    PUT f req w
      = ({ status := 400, success := false, message := "Invalid order data",
           orderId := none, error := none }, w) := by
  obtain ⟨oid, cid, its, st⟩ := req
  simp only at h
  rcases h with h | h | h | h | h <;> subst h
  · simp [PUT, truthy, badRequest]
  · simp [PUT, truthy, badRequest]
  · simp [PUT, Items.falsy, badRequest]
  · simp [PUT, Items.isArray, badRequest]
  · simp [PUT, Items.toList, badRequest]

/-- An update without `orderId` is rejected whatever the store would do. -/
theorem update_rejects_invalid_witness :
    (noOrderIdRequest.orderId = none ∨ noOrderIdRequest.customerId = none
        ∨ noOrderIdRequest.items = Items.absent ∨ noOrderIdRequest.items = Items.notArray
        ∨ noOrderIdRequest.items = Items.array [])
      ∧ PUT noFaults noOrderIdRequest shopWithOrders
          = ({ status := 400, success := false, message := "Invalid order data",
               orderId := none, error := none }, shopWithOrders) :=
  ⟨Or.inl rfl, update_rejects_invalid noFaults noOrderIdRequest shopWithOrders (Or.inl rfl)⟩

/-! ## Delete -/

/-- C10: whenever `DELETE` commits and the store reads the bound `id` text as
the key `k`, every book row keeps its place and its columns except that its
`Stock` has risen by the summed quantity of the item rows of order `k` that
reference the book, and no order row and no item row with order id `k`
remains (the rows of other orders are kept). -/
theorem delete_effect (f : Faults) (text : String) (k : Nat) (w : World)
    (h : (DELETE f (some text) w).1.success = true) (hk : f.keyOf text = some k) :
    (DELETE f (some text) w).2.db.Books = w.db.Books.map (fun b =>
        { b with Stock := b.Stock + storedQuantity w.db.OrderItems k b.BookID })
      ∧ (∀ o ∈ (DELETE f (some text) w).2.db.Orders, o.OrderID ≠ k)
      ∧ (∀ r ∈ (DELETE f (some text) w).2.db.OrderItems, r.OrderID ≠ k)
      ∧ (DELETE f (some text) w).2.db.Orders = (w.db.Orders.filter fun o => ¬ o.OrderID = k)
      ∧ (DELETE f (some text) w).2.db.OrderItems
          = (w.db.OrderItems.filter fun r => ¬ r.OrderID = k) := by
  obtain ⟨text2, hid, -, -, hsome, -, -⟩ := DELETE_success h
  injection hid with hid
  subst hid
  obtain ⟨hb, ho, hr⟩ := hsome k hk
  refine ⟨hb, ?_, ?_, ho, hr⟩
  · intro o hmem
    rw [ho, List.mem_filter] at hmem
    simpa using hmem.2
  · intro r hmem
    rw [hr, List.mem_filter] at hmem
    simpa using hmem.2

/-- Deleting order 7 commits: book 5 goes from 8 to 10 and order 7 is gone. -/
theorem delete_effect_witness :
    (DELETE noFaults (some "7") shopWithOrders).1.success = true
      ∧ noFaults.keyOf "7" = some 7
      ∧ (DELETE noFaults (some "7") shopWithOrders).2.db.Books
          = [{ BookID := 5, Title := "Dune", Stock := 10 },
             { BookID := 6, Title := "Emma", Stock := 2 }]
      ∧ (DELETE noFaults (some "7") shopWithOrders).2.db.Orders
          = [{ OrderID := 8, CustomerID := 2, OrderDate := 101, TotalAmount := 750,
               Status := some "Pending" }]
      ∧ (DELETE noFaults (some "7") shopWithOrders).2.db.Books
          = shopWithOrders.db.Books.map (fun b =>
              { b with Stock := b.Stock + storedQuantity shopWithOrders.db.OrderItems 7 b.BookID })
      ∧ (∀ o ∈ (DELETE noFaults (some "7") shopWithOrders).2.db.Orders, o.OrderID ≠ 7)
      ∧ (∀ r ∈ (DELETE noFaults (some "7") shopWithOrders).2.db.OrderItems, r.OrderID ≠ 7)
      ∧ (DELETE noFaults (some "7") shopWithOrders).2.db.Orders
          = (shopWithOrders.db.Orders.filter fun o => ¬ o.OrderID = 7)
      ∧ (DELETE noFaults (some "7") shopWithOrders).2.db.OrderItems
          = (shopWithOrders.db.OrderItems.filter fun r => ¬ r.OrderID = 7) :=
  ⟨by decide, by decide, by decide, by decide,
   delete_effect noFaults "7" 7 shopWithOrders (by decide) (by decide)⟩

/-! ## Request test of `DELETE`, release and error detail -/

/-- C11: a `DELETE` without `id` parameter, or with the empty one, is answered
400 "Order ID is required"; the store and the log of pool and connection
calls are exactly as before. -/
theorem delete_rejects_missing_id (f : Faults) (id : Option String) (w : World)
    (h : id = none ∨ id = some "") :
    DELETE f id w
      = ({ status := 400, success := false, message := "Order ID is required",
           orderId := none, error := none }, w) := by
  rcases h with h | h <;> subst h <;> simp [DELETE, badRequest]

/-- A request `DELETE /api/orders?id=` is rejected whatever the store would do. -/
theorem delete_rejects_missing_id_witness :
    ((some "" : Option String) = none ∨ (some "" : Option String) = some "")
      ∧ DELETE noFaults (some "") shopWithOrders
          = ({ status := 400, success := false, message := "Order ID is required",
               orderId := none, error := none }, shopWithOrders) :=
  ⟨Or.inr rfl, delete_rejects_missing_id noFaults (some "") shopWithOrders (Or.inr rfl)⟩

/-- C13 fails on the code: when `beginTransaction` throws, each of the three
handlers has acquired a connection, answers 500 and returns without ever
calling `release`. -/
theorem release_missing_when_begin_fails :
    (POST beginFails 100 scenarioA shop).2.log
        = [Event.getConnection, Event.beginTransaction]
      ∧ (POST beginFails 100 scenarioA shop).2.log.count Event.release = 0
      ∧ (POST beginFails 100 scenarioA shop).1.status = 500
      ∧ (PUT beginFails scenarioB shopWithOrders).2.log
        = [Event.getConnection, Event.beginTransaction]
      ∧ (PUT beginFails scenarioB shopWithOrders).2.log.count Event.release = 0
      ∧ (PUT beginFails scenarioB shopWithOrders).1.status = 500
      ∧ (DELETE beginFails (some "7") shopWithOrders).2.log
        = [Event.getConnection, Event.beginTransaction]
      ∧ (DELETE beginFails (some "7") shopWithOrders).2.log.count Event.release = 0
      ∧ (DELETE beginFails (some "7") shopWithOrders).1.status = 500 := by
  decide

/-- C14 fails on the code: when a statement throws and the rollback that
follows throws too, the `error` of the 500 answer is the message of the
rollback, and the message of the statement that failed first is lost. -/
theorem error_replaced_when_rollback_fails :
    rollbackFails.statement 1 = some "Lock wait timeout exceeded"
      ∧ rollbackFails.rollback = some "Connection lost"
      ∧ (POST rollbackFails 100 scenarioA shop).1
          = { status := 500, success := false, message := "Failed to create order",
              orderId := none, error := some "Connection lost" }
      ∧ (PUT rollbackFails scenarioB shopWithOrders).1
          = { status := 500, success := false, message := "Failed to update order",
              orderId := none, error := some "Connection lost" }
      ∧ (DELETE rollbackFails (some "7") shopWithOrders).1
          = { status := 500, success := false, message := "Failed to delete order",
              orderId := none, error := some "Connection lost" } := by
  decide

/-! ## Helper lemmas: statements that went through -/

theorem ran_zero (f : Faults) (s : Session) : s.ran f 0 s :=
  ⟨rfl, fun n h1 h2 => absurd h2 (by omega)⟩

theorem ran_trans {f : Faults} {j k : Nat} {s s1 s2 : Session} (h1 : s.ran f j s1)
    (h2 : s1.ran f k s2) : s.ran f (j + k) s2 := by
  obtain ⟨a1, b1⟩ := h1
  obtain ⟨a2, b2⟩ := h2
  refine ⟨by omega, fun n hn1 hn2 => ?_⟩
  by_cases hlt : n < s.issued + j
  · exact b1 n hn1 hlt
  · exact b2 n (by omega) (by omega)

theorem execute_ran {α : Type} {f : Faults} {sql : String} {run : Database → Database × α}
    {s s1 : Session} {a : α} (h : execute f sql run s = Outcome.ok a s1) : s.ran f 1 s1 := by
  unfold execute at h
  cases hf : f.statement s.issued with
  | some e => simp [hf] at h
  | none =>
    simp only [hf] at h
    injection h with _ h2
    subst h2
    refine ⟨rfl, fun n h1 h2 => ?_⟩
    have : n = s.issued := by omega
    rw [this, hf]

theorem executeChecked_ran {α : Type} {f : Faults} {sql : String} {violated : Database → Bool}
    {run : Database → Database × α} {s s1 : Session} {a : α}
    (h : executeChecked f sql violated run s = Outcome.ok a s1) : s.ran f 1 s1 :=
  execute_ran (executeChecked_ok h).1

theorem insertItems_ran {f : Faults} {orderId : Nat} (items : List Item) {s s1 : Session}
    {u : Unit} (h : insertItems f orderId items s = Outcome.ok u s1) :
    s.ran f (2 * items.length) s1 := by
  induction items generalizing s with
  | nil =>
    simp only [insertItems] at h
    injection h with _ h2
    subst h2
    exact ran_zero f s
  | cons i rest ih =>
    simp only [insertItems] at h
    split at h
    · exact absurd h (by simp)
    · rename_i u1 s2 h1
      split at h
      · exact absurd h (by simp)
      · rename_i u2 s3 h2
        have r := ran_trans (ran_trans (executeChecked_ran h1) (execute_ran h2)) (ih h)
        have e : 1 + 1 + 2 * rest.length = 2 * (i :: rest).length := by
          simp only [List.length_cons]; omega
        rw [e] at r
        exact r

theorem restoreStock_ran {f : Faults} (rows : List (Nat × Int)) {s s1 : Session} {u : Unit}
    (h : restoreStock f rows s = Outcome.ok u s1) : s.ran f rows.length s1 := by
  induction rows generalizing s with
  | nil =>
    simp only [restoreStock] at h
    injection h with _ h2
    subst h2
    exact ran_zero f s
  | cons r rest ih =>
    simp only [restoreStock] at h
    split at h
    · exact absurd h (by simp)
    · rename_i u1 s2 h1
      have hr := ran_trans (execute_ran h1) (ih h)
      have e : 1 + rest.length = (r :: rest).length := by
        simp only [List.length_cons]; omega
      rw [e] at hr
      exact hr

theorem createBody_ran {f : Faults} {now customerId : Nat} {total : Int}
    {status : Option String} {items : List Item} {s s1 : Session} {a : Nat}
    (h : createBody f now customerId total status items s = Outcome.ok a s1) :
    s.ran f (1 + 2 * items.length) s1 := by
  unfold createBody at h
  split at h
  · exact absurd h (by simp)
  · rename_i oid t1 h1
    split at h
    · exact absurd h (by simp)
    · rename_i u t2 h2
      injection h with _ hs
      subst hs
      exact ran_trans (executeChecked_ran h1) (insertItems_ran items h2)

theorem updateBody_ran {f : Faults} {orderId customerId : Nat} {total : Int}
    {status : Option String} {items : List Item} {s s1 : Session} {a : Nat}
    (h : updateBody f orderId customerId total status items s = Outcome.ok a s1) :
    s.ran f (1 + (s.work.OrderItems.filter fun r => r.OrderID = orderId).length + 2
              + 2 * items.length) s1 := by
  unfold updateBody at h
  split at h
  · exact absurd h (by simp)
  · rename_i rows t1 h1
    split at h
    · exact absurd h (by simp)
    · rename_i u2 t2 h2
      split at h
      · exact absurd h (by simp)
      · rename_i u3 t3 h3
        split at h
        · exact absurd h (by simp)
        · rename_i u4 t4 h4
          split at h
          · exact absurd h (by simp)
          · rename_i u5 t5 h5
            injection h with _ hs
            subst hs
            obtain ⟨r1, -, -, -⟩ := execute_ok h1
            have hlen : rows.length
                = (s.work.OrderItems.filter fun r => r.OrderID = orderId).length := by
              rw [r1]; simp [selectOrderItems]
            have r := ran_trans (ran_trans (ran_trans (ran_trans (execute_ran h1)
              (restoreStock_ran rows h2)) (execute_ran h3)) (executeChecked_ran h4))
              (insertItems_ran items h5)
            rw [hlen] at r
            exact r

theorem deleteBody_ran {f : Faults} {orderId : Option Nat} {s s1 : Session} {u : Unit}
    (h : deleteBody f orderId s = Outcome.ok u s1) :
    s.ran f (1 + (s.work.OrderItems.filter fun r => some r.OrderID = orderId).length + 2) s1 := by
  unfold deleteBody at h
  split at h
  · exact absurd h (by simp)
  · rename_i rows t1 h1
    split at h
    · exact absurd h (by simp)
    · rename_i u2 t2 h2
      split at h
      · exact absurd h (by simp)
      · rename_i u3 t3 h3
        split at h
        · exact absurd h (by simp)
        · rename_i u4 t4 h4
          injection h with _ hs
          subst hs
          obtain ⟨r1, -, -, -⟩ := execute_ok h1
          have hlen : rows.length
              = (s.work.OrderItems.filter fun r => some r.OrderID = orderId).length := by
            rw [r1]
            cases orderId with
            | none => simp [selectOrderItems]
            | some k => simp [selectOrderItems]
          have r := ran_trans (ran_trans (ran_trans (execute_ran h1)
            (restoreStock_ran rows h2)) (execute_ran h3)) (executeChecked_ran h4)
          rw [hlen] at r
          exact r

/-- The transaction frame either commits the working copy of a body that ran
to its end, or answers 500 and leaves every row of the store as it was. -/
theorem withTransaction_cases {α : Type} (f : Faults) (failed : String)
    (body : Session → Outcome α) (respond : α → Response) (w : World) :
    (∃ a s, body { work := w.db, issued := 0,
                   log := w.log ++ [Event.getConnection, Event.beginTransaction] }
              = Outcome.ok a s
        ∧ f.commit = none
        ∧ withTransaction f failed body respond w
            = (respond a, { db := s.work, log := s.log ++ [Event.commit, Event.release] }))
      ∨ (∃ e, (withTransaction f failed body respond w).1 = serverError failed e
        ∧ (withTransaction f failed body respond w).2.db.Books = w.db.Books
        ∧ (withTransaction f failed body respond w).2.db.Customers = w.db.Customers
        ∧ (withTransaction f failed body respond w).2.db.Orders = w.db.Orders
        ∧ (withTransaction f failed body respond w).2.db.OrderItems = w.db.OrderItems) := by
  unfold withTransaction
  cases f.getConnection with
  | some e => exact Or.inr ⟨e, rfl, rfl, rfl, rfl, rfl⟩
  | none =>
    cases f.beginTransaction with
    | some e => exact Or.inr ⟨e, rfl, rfl, rfl, rfl, rfl⟩
    | none =>
      simp only
      cases hbody : body (Session.mk w.db 0
                  (w.log ++ [Event.getConnection, Event.beginTransaction])) with
      | threw e s => exact Or.inr ⟨_, rfl, rfl, rfl, rfl, rfl⟩
      | ok a s =>
        cases hc : f.commit with
        | some e =>
          simp only [thenCommit, hc]
          exact Or.inr ⟨_, rfl, rfl, rfl, rfl, rfl⟩
        | none =>
          refine Or.inl ⟨a, s, rfl, rfl, ?_⟩
          simp [thenCommit, hc]

/-! ## Fault injection -/

/-- When a statement the body issues is made to throw, or the commit is, the
transaction frame answers 500 and leaves every row as it was. -/
theorem withTransaction_fault {α : Type} {f : Faults} {failed : String}
    {body : Session → Outcome α} {respond : α → Response} {w : World} {k : Nat}
    (hran : ∀ a s, body { work := w.db, issued := 0,
                          log := w.log ++ [Event.getConnection, Event.beginTransaction] }
              = Outcome.ok a s →
            Session.ran f k { work := w.db, issued := 0,
                              log := w.log ++ [Event.getConnection, Event.beginTransaction] } s)
    (hfault : (∃ n, n < k ∧ f.statement n ≠ none) ∨ f.commit ≠ none) :
    (withTransaction f failed body respond w).1.success = false
      ∧ (withTransaction f failed body respond w).1.status = 500
      ∧ (withTransaction f failed body respond w).2.db.Orders = w.db.Orders
      ∧ (withTransaction f failed body respond w).2.db.OrderItems = w.db.OrderItems
      ∧ (withTransaction f failed body respond w).2.db.Books = w.db.Books := by
  rcases withTransaction_cases f failed body respond w with ⟨a, s, hb, hc, -⟩ | ⟨e, hr, b, -, o, i⟩
  · exfalso
    rcases hfault with ⟨n, hn, hf⟩ | hf
    · obtain ⟨-, hclean⟩ := hran a s hb
      exact hf (hclean n (Nat.zero_le n) (by simpa using hn))
    · exact hf hc
  · rw [hr]
    exact ⟨rfl, rfl, o, i, b⟩

/-- C12: for each of create, update and delete, from every store: when one of
the statements the transaction issues throws, or the commit throws, the call
answers 500 with `success: false`, and `Orders`, `OrderItems` and `Books`
(hence every stock count) are exactly what they were before the call. -/
theorem fault_rolls_back (f : Faults) (c : Call) (w : World) (hacc : c.accepted = true)
    (hfault : (∃ n, n < c.statements f w ∧ f.statement n ≠ none) ∨ f.commit ≠ none) :
    (c.run f w).1.success = false
      ∧ (c.run f w).1.status = 500
      ∧ (c.run f w).2.db.Orders = w.db.Orders
      ∧ (c.run f w).2.db.OrderItems = w.db.OrderItems
      ∧ (c.run f w).2.db.Books = w.db.Books := by
  cases c with
  | create now req =>
    simp only [Call.accepted, Bool.not_eq_true'] at hacc
    simp only [Call.run, POST, hacc, Bool.false_eq_true, if_false]
    exact withTransaction_fault (fun a s h => createBody_ran h) hfault
  | update req =>
    simp only [Call.accepted, Bool.not_eq_true'] at hacc
    simp only [Call.run, PUT, hacc, Bool.false_eq_true, if_false]
    exact withTransaction_fault (fun a s h => updateBody_ran h) hfault
  | delete id =>
    cases id with
    | none => simp [Call.accepted] at hacc
    | some text =>
      have ht : ¬ text = "" := by simpa [Call.accepted] using hacc
      simp only [Call.run, DELETE, if_neg ht]
      exact withTransaction_fault (fun a s h => deleteBody_ran h) hfault

/-- Scenario B with the second statement (the first stock restore) throwing:
the update answers 500 and the store keeps its rows. -/
theorem fault_rolls_back_witness :
    (Call.update scenarioB).accepted = true
      ∧ ((∃ n, n < (Call.update scenarioB).statements rollbackFails shopWithOrders
            ∧ rollbackFails.statement n ≠ none) ∨ rollbackFails.commit ≠ none)
      ∧ (((Call.update scenarioB).run rollbackFails shopWithOrders).1.success = false
        ∧ ((Call.update scenarioB).run rollbackFails shopWithOrders).1.status = 500
        ∧ ((Call.update scenarioB).run rollbackFails shopWithOrders).2.db.Orders
            = shopWithOrders.db.Orders
        ∧ ((Call.update scenarioB).run rollbackFails shopWithOrders).2.db.OrderItems
            = shopWithOrders.db.OrderItems
        ∧ ((Call.update scenarioB).run rollbackFails shopWithOrders).2.db.Books
            = shopWithOrders.db.Books) :=
  ⟨by decide, Or.inl ⟨1, by decide, by decide⟩,
   fault_rolls_back rollbackFails (Call.update scenarioB) shopWithOrders (by decide)
     (Or.inl ⟨1, by decide, by decide⟩)⟩

/-! ## Helper lemmas: the order counter never goes back -/

theorem execute_counter {α : Type} (f : Faults) (sql : String)
    (run : Database → Database × α) (s : Session) (hrun : ∀ db, db.nextOrderID ≤ (run db).1.nextOrderID) :
    s.work.nextOrderID ≤ (execute f sql run s).session.work.nextOrderID := by
  unfold execute
  cases f.statement s.issued with
  | some e => exact Nat.le_refl _
  | none => exact hrun s.work

theorem executeChecked_counter {α : Type} (f : Faults) (sql : String)
    (violated : Database → Bool) (run : Database → Database × α) (s : Session)
    (hrun : ∀ db, db.nextOrderID ≤ (run db).1.nextOrderID) :
    s.work.nextOrderID ≤ (executeChecked f sql violated run s).session.work.nextOrderID := by
  unfold executeChecked
  split
  · exact Nat.le_refl _
  · exact execute_counter f sql run s hrun

theorem insertItems_counter (f : Faults) (orderId : Nat) (items : List Item) (s : Session) :
    s.work.nextOrderID ≤ (insertItems f orderId items s).session.work.nextOrderID := by
  induction items generalizing s with
  | nil => exact Nat.le_refl _
  | cons i rest ih =>
    simp only [insertItems]
    have c1 := executeChecked_counter f
      "INSERT INTO OrderItems (OrderID, BookID, Quantity, Price) VALUES (?, ?, ?, ?)"
      (insertOrderItemViolates orderId i.bookId)
      (insertOrderItem orderId i.bookId i.quantity i.price) s
      (fun db => Nat.le_refl _)
    split
    · rename_i e s1 h1
      rw [h1] at c1; exact c1
    · rename_i u s1 h1
      rw [h1] at c1
      have c2 := execute_counter f
        "UPDATE Books SET Stock = Stock - ? WHERE BookID = ?"
        (decreaseStock i.quantity i.bookId) s1 (fun db => Nat.le_refl _)
      split
      · rename_i e s2 h2
        rw [h2] at c2; exact Nat.le_trans c1 c2
      · rename_i u2 s2 h2
        rw [h2] at c2
        exact Nat.le_trans c1 (Nat.le_trans c2 (ih s2))

theorem restoreStock_counter (f : Faults) (rows : List (Nat × Int)) (s : Session) :
    s.work.nextOrderID ≤ (restoreStock f rows s).session.work.nextOrderID := by
  induction rows generalizing s with
  | nil => exact Nat.le_refl _
  | cons r rest ih =>
    simp only [restoreStock]
    have c1 := execute_counter f
      "UPDATE Books SET Stock = Stock + ? WHERE BookID = ?"
      (increaseStock r.2 r.1) s (fun db => Nat.le_refl _)
    split
    · rename_i e s1 h1
      rw [h1] at c1; exact c1
    · rename_i u s1 h1
      rw [h1] at c1
      exact Nat.le_trans c1 (ih s1)

theorem createBody_counter (f : Faults) (now customerId : Nat) (total : Int)
    (status : Option String) (items : List Item) (s : Session) :
    s.work.nextOrderID
      ≤ (createBody f now customerId total status items s).session.work.nextOrderID := by
  unfold createBody
  have c1 := executeChecked_counter f
    "INSERT INTO Orders (CustomerID, OrderDate, TotalAmount, Status) VALUES (?, NOW(), ?, ?)"
    (insertOrderViolates customerId)
    (insertOrder customerId now total (some (statusOrPending status))) s
    (fun db => Nat.le_succ _)
  split
  · rename_i e s1 h1
    rw [h1] at c1; exact c1
  · rename_i oid s1 h1
    rw [h1] at c1
    have c2 := insertItems_counter f oid items s1
    split
    · rename_i e s2 h2
      rw [h2] at c2; exact Nat.le_trans c1 c2
    · rename_i u s2 h2
      rw [h2] at c2; exact Nat.le_trans c1 c2

theorem updateBody_counter (f : Faults) (orderId customerId : Nat) (total : Int)
    (status : Option String) (items : List Item) (s : Session) :
    s.work.nextOrderID
      ≤ (updateBody f orderId customerId total status items s).session.work.nextOrderID := by
  unfold updateBody
  have c1 := execute_counter f
    "SELECT BookID, Quantity FROM OrderItems WHERE OrderID = ?"
    (selectOrderItems orderId) s (fun db => Nat.le_refl _)
  split
  · rename_i e s1 h1
    rw [h1] at c1; exact c1
  · rename_i rows s1 h1
    rw [h1] at c1
    have c2 := restoreStock_counter f rows s1
    split
    · rename_i e s2 h2
      rw [h2] at c2; exact Nat.le_trans c1 c2
    · rename_i u2 s2 h2
      rw [h2] at c2
      have c3 := execute_counter f "DELETE FROM OrderItems WHERE OrderID = ?"
        (deleteOrderItems orderId) s2 (fun db => Nat.le_refl _)
      split
      · rename_i e s3 h3
        rw [h3] at c3; exact Nat.le_trans c1 (Nat.le_trans c2 c3)
      · rename_i u3 s3 h3
        rw [h3] at c3
        have c4 := executeChecked_counter f
          "UPDATE Orders SET CustomerID = ?, TotalAmount = ?, Status = ? WHERE OrderID = ?"
          (updateOrderViolates customerId orderId)
          (updateOrder customerId total status orderId) s3
          (fun db => Nat.le_refl _)
        split
        · rename_i e s4 h4
          rw [h4] at c4; exact Nat.le_trans c1 (Nat.le_trans c2 (Nat.le_trans c3 c4))
        · rename_i u4 s4 h4
          rw [h4] at c4
          have c5 := insertItems_counter f orderId items s4
          have c14 := Nat.le_trans c1 (Nat.le_trans c2 (Nat.le_trans c3 c4))
          split
          · rename_i e s5 h5
            rw [h5] at c5; exact Nat.le_trans c14 c5
          · rename_i u5 s5 h5
            rw [h5] at c5; exact Nat.le_trans c14 c5

theorem deleteBody_counter (f : Faults) (orderId : Option Nat) (s : Session) :
    s.work.nextOrderID ≤ (deleteBody f orderId s).session.work.nextOrderID := by
  unfold deleteBody
  have c1 := execute_counter f
    "SELECT BookID, Quantity FROM OrderItems WHERE OrderID = ?"
    (selectOrderItems orderId) s (fun db => by cases orderId <;> exact Nat.le_refl _)
  split
  · rename_i e s1 h1
    rw [h1] at c1; exact c1
  · rename_i rows s1 h1
    rw [h1] at c1
    have c2 := restoreStock_counter f rows s1
    split
    · rename_i e s2 h2
      rw [h2] at c2; exact Nat.le_trans c1 c2
    · rename_i u2 s2 h2
      rw [h2] at c2
      have c3 := execute_counter f "DELETE FROM OrderItems WHERE OrderID = ?"
        (deleteOrderItems orderId) s2 (fun db => by cases orderId <;> exact Nat.le_refl _)
      split
      · rename_i e s3 h3
        rw [h3] at c3; exact Nat.le_trans c1 (Nat.le_trans c2 c3)
      · rename_i u3 s3 h3
        rw [h3] at c3
        have c4 := executeChecked_counter f "DELETE FROM Orders WHERE OrderID = ?"
          (deleteOrderViolates orderId) (deleteOrder orderId) s3
          (fun db => by cases orderId <;> exact Nat.le_refl _)
        split
        · rename_i e s4 h4
          rw [h4] at c4; exact Nat.le_trans c1 (Nat.le_trans c2 (Nat.le_trans c3 c4))
        · rename_i u4 s4 h4
          rw [h4] at c4; exact Nat.le_trans c1 (Nat.le_trans c2 (Nat.le_trans c3 c4))

theorem withTransaction_counter {α : Type} (f : Faults) (failed : String)
    (body : Session → Outcome α) (respond : α → Response) (w : World)
    (hbody : ∀ s : Session, s.work.nextOrderID ≤ (body s).session.work.nextOrderID) :
    w.db.nextOrderID ≤ (withTransaction f failed body respond w).2.db.nextOrderID := by
  unfold withTransaction
  cases f.getConnection with
  | some e => exact Nat.le_refl _
  | none =>
    cases f.beginTransaction with
    | some e => exact Nat.le_refl _
    | none =>
      simp only
      have hb := hbody (Session.mk w.db 0
        (w.log ++ [Event.getConnection, Event.beginTransaction]))
      cases hbody2 : body (Session.mk w.db 0
        (w.log ++ [Event.getConnection, Event.beginTransaction])) with
      | threw e s =>
        rw [hbody2] at hb
        exact hb
      | ok a s =>
        rw [hbody2] at hb
        simp only [thenCommit]
        cases f.commit with
        | some e => exact hb
        | none => exact hb

/-- No call on the engine lowers the `AUTO_INCREMENT` counter of `Orders`. -/
theorem run_counter (f : Faults) (c : Call) (w : World) :
    w.db.nextOrderID ≤ (c.run f w).2.db.nextOrderID := by
  cases c with
  | create now req =>
    simp only [Call.run, POST]
    split
    · exact Nat.le_refl _
    · exact withTransaction_counter f _ _ _ w (fun s => createBody_counter f _ _ _ _ _ s)
  | update req =>
    simp only [Call.run, PUT]
    split
    · exact Nat.le_refl _
    · exact withTransaction_counter f _ _ _ w (fun s => updateBody_counter f _ _ _ _ _ s)
  | delete id =>
    cases id with
    | none => exact Nat.le_refl _
    | some text =>
      simp only [Call.run, DELETE]
      split
      · exact Nat.le_refl _
      · exact withTransaction_counter f _ _ _ w (fun s => deleteBody_counter f _ s)

/-! ## Helper lemmas: foreign keys and failed calls -/

theorem orderExists_iff (k : Nat) (db : Database) :
    orderExists k db = true ↔ ∃ o ∈ db.Orders, o.OrderID = k := by
  simp [orderExists]

theorem insertItems_ok_fk {f : Faults} {orderId : Nat} {items : List Item} {s s1 : Session}
    {u : Unit} (hf : f.foreignKeys = true) (hne : items ≠ [])
    (h : insertItems f orderId items s = Outcome.ok u s1) :
    orderExists orderId s.work = true := by
  cases items with
  | nil => exact absurd rfl hne
  | cons i rest =>
    simp only [insertItems] at h
    split at h
    · exact absurd h (by simp)
    · rename_i u1 s2 h1
      have hv := (executeChecked_ok h1).2 hf
      simp only [insertOrderItemViolates, Bool.or_eq_false_iff, Bool.not_eq_false'] at hv
      exact hv.1

theorem updateBody_ok_fk {f : Faults} {orderId customerId : Nat} {total : Int}
    {status : Option String} {items : List Item} {s s1 : Session} {a : Nat}
    (hf : f.foreignKeys = true) (hne : items ≠ [])
    (h : updateBody f orderId customerId total status items s = Outcome.ok a s1) :
    orderExists orderId s.work = true := by
  unfold updateBody at h
  split at h
  · exact absurd h (by simp)
  · rename_i rows t1 h1
    split at h
    · exact absurd h (by simp)
    · rename_i u2 t2 h2
      split at h
      · exact absurd h (by simp)
      · rename_i u3 t3 h3
        split at h
        · exact absurd h (by simp)
        · rename_i u4 t4 h4
          split at h
          · exact absurd h (by simp)
          · rename_i u5 t5 h5
            have hex := insertItems_ok_fk hf hne h5
            obtain ⟨-, w1, -, -⟩ := execute_ok h1
            obtain ⟨-, -, o2, -, -, -⟩ := restoreStock_ok rows h2
            obtain ⟨-, w3, -, -⟩ := execute_ok h3
            obtain ⟨-, w4, -, -⟩ := execute_ok (executeChecked_ok h4).1
            rw [orderExists_iff] at hex ⊢
            obtain ⟨o, ho, hoid⟩ := hex
            rw [w4] at ho
            simp only [updateOrder, List.mem_map] at ho
            obtain ⟨o0, ho0, hmap⟩ := ho
            rw [w3] at ho0
            simp only [deleteOrderItems] at ho0
            rw [o2, w1] at ho0
            simp only [selectOrderItems] at ho0
            refine ⟨o0, ho0, ?_⟩
            by_cases hc : o0.OrderID = orderId
            · exact hc
            · rw [if_neg hc] at hmap
              rw [hmap]; exact hoid

/-- On a store that enforces the foreign keys, a committed `PUT` was given the
id of an existing order. -/
theorem PUT_success_fk {f : Faults} {req : UpdateRequest} {w : World}
    (hf : f.foreignKeys = true) (h : (PUT f req w).1.success = true) :
    orderExists (req.orderId.getD 0) w.db = true := by
  unfold PUT at h
  split at h
  · simp [badRequest] at h
  · rename_i hv
    have hv2 := Bool.eq_false_iff.mpr hv
    obtain ⟨oid, c, items, ho, -, hc, -, hi, hne⟩ := update_valid_shape hv2
    obtain ⟨a, s, hbody, -⟩ := withTransaction_success h
    simp only [hi, Items.toList] at hbody
    exact updateBody_ok_fk hf hne hbody

/-- A call that does not answer success leaves every row of the store as it was. -/
theorem run_failure_unchanged (f : Faults) (c : Call) (w : World)
    (h : (c.run f w).1.success = false) :
    (c.run f w).2.db.Orders = w.db.Orders
      ∧ (c.run f w).2.db.OrderItems = w.db.OrderItems
      ∧ (c.run f w).2.db.Books = w.db.Books
      ∧ (c.run f w).2.db.Customers = w.db.Customers := by
  cases c with
  | create now req =>
    simp only [Call.run, POST] at h ⊢
    split
    · exact ⟨rfl, rfl, rfl, rfl⟩
    · rename_i hv
      rw [if_neg hv] at h
      rcases withTransaction_cases f "Failed to create order"
        (createBody f now (req.customerId.getD 0) (totalAmount req.items.toList) req.status
          req.items.toList)
        (fun orderId => okResponse "Order created successfully" (some orderId)) w
        with ⟨a, s, -, -, heq⟩ | ⟨e, -, b, cu, o, i⟩
      · rw [heq] at h; simp [okResponse] at h
      · exact ⟨o, i, b, cu⟩
  | update req =>
    simp only [Call.run, PUT] at h ⊢
    split
    · exact ⟨rfl, rfl, rfl, rfl⟩
    · rename_i hv
      rw [if_neg hv] at h
      rcases withTransaction_cases f "Failed to update order"
        (updateBody f (req.orderId.getD 0) (req.customerId.getD 0)
          (totalAmount req.items.toList) req.status req.items.toList)
        (fun orderId => okResponse "Order updated successfully" (some orderId)) w
        with ⟨a, s, -, -, heq⟩ | ⟨e, -, b, cu, o, i⟩
      · rw [heq] at h; simp [okResponse] at h
      · exact ⟨o, i, b, cu⟩
  | delete id =>
    cases id with
    | none => exact ⟨rfl, rfl, rfl, rfl⟩
    | some text =>
      simp only [Call.run, DELETE] at h ⊢
      split
      · exact ⟨rfl, rfl, rfl, rfl⟩
      · rename_i hv
        rw [if_neg hv] at h
        rcases withTransaction_cases f "Failed to delete order"
          (deleteBody f (f.keyOf text))
          (fun _ => okResponse "Order deleted successfully" none) w
          with ⟨a, s, -, -, heq⟩ | ⟨e, -, b, cu, o, i⟩
        · rw [heq] at h; simp [okResponse] at h
        · exact ⟨o, i, b, cu⟩

/-! ## Helper lemmas: order totals -/

theorem orderTotal_append (a b : List OrderItem) (k : Nat) :
    orderTotal (a ++ b) k = orderTotal a k + orderTotal b k := by
  simp [orderTotal, List.filter_append]

theorem orderTotal_of_none (rows : List OrderItem) (k : Nat)
    (h : ∀ r ∈ rows, r.OrderID ≠ k) : orderTotal rows k = 0 := by
  have : (rows.filter fun r => r.OrderID = k) = [] := by
    rw [List.filter_eq_nil_iff]
    intro r hr
    simpa using h r hr
  simp [orderTotal, this]

theorem orderTotal_itemRows_self (orderId first : Nat) (items : List Item) :
    orderTotal (itemRows orderId first items) orderId = totalAmount items := by
  rw [totalAmount_eq_sum]
  induction items generalizing first with
  | nil => simp [orderTotal, itemRows]
  | cons i rest ih =>
    have := ih (first + 1)
    simp only [orderTotal] at this ⊢
    simp [itemRows, List.filter_cons, this]

theorem orderTotal_itemRows_other (orderId first k : Nat) (items : List Item)
    (h : k ≠ orderId) : orderTotal (itemRows orderId first items) k = 0 := by
  apply orderTotal_of_none
  intro r hr
  rw [itemRows_orderID orderId first items r hr]
  exact fun e => h e.symm

theorem orderTotal_filter_self (rows : List OrderItem) (orderId : Nat) :
    orderTotal (rows.filter fun r => ¬ r.OrderID = orderId) orderId = 0 := by
  apply orderTotal_of_none
  intro r hr
  rw [List.mem_filter] at hr
  simpa using hr.2

theorem orderTotal_filter_other (rows : List OrderItem) (orderId k : Nat) (h : k ≠ orderId) :
    orderTotal (rows.filter fun r => ¬ r.OrderID = orderId) k = orderTotal rows k := by
  unfold orderTotal
  rw [List.filter_filter]
  congr 2
  apply List.filter_congr
  intro r _
  by_cases hr : r.OrderID = k
  · have : ¬ r.OrderID = orderId := fun e => h (hr.symm.trans e)
    simp [hr, this, h]
  · simp [hr]

theorem updated_orderIDs (orders : List Order) (customerId : Nat) (total : Int)
    (status : Option String) (orderId : Nat) :
    (orders.map (fun o =>
        if o.OrderID = orderId then
          { o with CustomerID := customerId, TotalAmount := total, Status := status }
        else o)).map (fun o => o.OrderID) = orders.map (fun o => o.OrderID) := by
  rw [List.map_map]
  apply List.map_congr_left
  intro o _
  simp only [Function.comp]
  split <;> rfl

/-! ## Helper lemmas: one call keeps the invariants -/

theorem orderExists_congr {db db1 : Database} (h : db1.Orders = db.Orders) (k : Nat) :
    orderExists k db1 = orderExists k db := by
  simp [orderExists, h]

/-- On a store that enforces the foreign keys, a call keeps the keys of the schema. -/
theorem keysHold_run (f : Faults) (c : Call) (w : World) (hf : f.foreignKeys = true)
    (hk : keysHold w.db) : keysHold (c.run f w).2.db := by
  obtain ⟨hnd, hfresh, hfk⟩ := hk
  have hcount := run_counter f c w
  cases hs : (c.run f w).1.success with
  | false =>
    obtain ⟨o, i, -, -⟩ := run_failure_unchanged f c w hs
    refine ⟨by rw [o]; exact hnd, ?_, ?_⟩
    · intro x hx
      rw [o] at hx
      exact Nat.lt_of_lt_of_le (hfresh x hx) hcount
    · intro r hr
      rw [i] at hr
      rw [orderExists_congr o]
      exact hfk r hr
  | true =>
    cases c with
    | create now req =>
      simp only [Call.run] at hs hcount ⊢
      obtain ⟨cid, items, -, -, -, -, -, -, ho, hi, -, hn⟩ := POST_success hs
      refine ⟨?_, ?_, ?_⟩
      · rw [ho, List.map_append, List.nodup_append]
        refine ⟨hnd, by simp, ?_⟩
        intro a ha hb
        simp only [List.map_cons, List.map_nil, List.mem_singleton] at hb
        rw [List.mem_map] at ha
        obtain ⟨x, hx, hxa⟩ := ha
        have := hfresh x hx
        omega
      · intro x hx
        rw [ho, List.mem_append] at hx
        rw [hn]
        rcases hx with hx | hx
        · exact Nat.lt_succ_of_lt (hfresh x hx)
        · simp only [List.mem_singleton] at hx
          rw [hx]; exact Nat.lt_succ_self _
      · intro r hr
        rw [hi, List.mem_append] at hr
        rw [orderExists_iff, ho]
        rcases hr with hr | hr
        · obtain ⟨x, hx, hxr⟩ := (orderExists_iff _ _).mp (hfk r hr)
          exact ⟨x, List.mem_append_left _ hx, hxr⟩
        · refine ⟨_, List.mem_append_right _ (List.mem_singleton_self _), ?_⟩
          exact (itemRows_orderID _ _ _ r hr).symm
    | update req =>
      simp only [Call.run] at hs hcount ⊢
      have hex := PUT_success_fk hf hs
      obtain ⟨oid, cid, items, hoid, -, -, -, -, -, -, -, ho, hi, -⟩ := PUT_success hs
      rw [hoid] at hex
      simp only [Option.getD_some] at hex
      have hids := updated_orderIDs w.db.Orders cid (totalAmount items) req.status oid
      rw [← ho] at hids
      have hmem : ∀ k, (∃ x ∈ w.db.Orders, x.OrderID = k)
          → ∃ x ∈ (PUT f req w).2.db.Orders, x.OrderID = k := by
        intro k ⟨x, hx, hxk⟩
        have : k ∈ (PUT f req w).2.db.Orders.map (fun o => o.OrderID) := by
          rw [hids]; exact List.mem_map.mpr ⟨x, hx, hxk⟩
        obtain ⟨y, hy, hyk⟩ := List.mem_map.mp this
        exact ⟨y, hy, hyk⟩
      refine ⟨by rw [hids]; exact hnd, ?_, ?_⟩
      · intro x hx
        have : x.OrderID ∈ (PUT f req w).2.db.Orders.map (fun o => o.OrderID) :=
          List.mem_map.mpr ⟨x, hx, rfl⟩
        rw [hids] at this
        obtain ⟨y, hy, hyx⟩ := List.mem_map.mp this
        rw [← hyx]
        exact Nat.lt_of_lt_of_le (hfresh y hy) hcount
      · intro r hr
        rw [hi, List.mem_append] at hr
        rw [orderExists_iff]
        rcases hr with hr | hr
        · exact hmem _ ((orderExists_iff _ _).mp (hfk r (List.mem_filter.mp hr).1))
        · rw [itemRows_orderID _ _ _ r hr]
          exact hmem _ ((orderExists_iff _ _).mp hex)
    | delete id =>
      simp only [Call.run] at hs hcount ⊢
      rcases DELETE_success_cases hs with ⟨text, k, -, -, -, ho, hi⟩ | ⟨text, -, -, -, ho, hi⟩
      · refine ⟨?_, ?_, ?_⟩
        · rw [ho]
          exact hnd.sublist ((List.filter_sublist _).map _)
        · intro x hx
          rw [ho] at hx
          exact Nat.lt_of_lt_of_le (hfresh x (List.mem_filter.mp hx).1) hcount
        · intro r hr
          rw [hi, List.mem_filter] at hr
          obtain ⟨x, hx, hxr⟩ := (orderExists_iff _ _).mp (hfk r hr.1)
          rw [orderExists_iff, ho]
          refine ⟨x, List.mem_filter.mpr ⟨hx, ?_⟩, hxr⟩
          rw [hxr]; exact hr.2
      · refine ⟨?_, ?_, ?_⟩
        · rw [ho]
          exact hnd
        · intro x hx
          rw [ho] at hx
          exact Nat.lt_of_lt_of_le (hfresh x hx) hcount
        · intro r hr
          rw [hi] at hr
          obtain ⟨x, hx, hxr⟩ := (orderExists_iff _ _).mp (hfk r hr)
          rw [orderExists_iff, ho]
          exact ⟨x, hx, hxr⟩

/-- A call keeps the totals of the orders in step with their item rows, as long
as the keys of the schema hold before it. -/
theorem totalsAgree_run (f : Faults) (c : Call) (w : World) (hk : keysHold w.db)
    (ht : totalsAgree w.db) : totalsAgree (c.run f w).2.db := by
  obtain ⟨-, hfresh, hfk⟩ := hk
  cases hs : (c.run f w).1.success with
  | false =>
    obtain ⟨o, i, -, -⟩ := run_failure_unchanged f c w hs
    intro x hx
    rw [o] at hx
    rw [i]
    exact ht x hx
  | true =>
    cases c with
    | create now req =>
      simp only [Call.run] at hs ⊢
      obtain ⟨cid, items, -, -, -, -, -, -, ho, hi, -, -⟩ := POST_success hs
      intro x hx
      rw [ho, List.mem_append] at hx
      rw [hi, orderTotal_append]
      rcases hx with hx | hx
      · have hne : x.OrderID ≠ w.db.nextOrderID := Nat.ne_of_lt (hfresh x hx)
        rw [orderTotal_itemRows_other _ _ _ _ hne, add_zero]
        exact ht x hx
      · simp only [List.mem_singleton] at hx
        subst hx
        simp only
        rw [orderTotal_itemRows_self, orderTotal_of_none, zero_add]
        intro r hr hrid
        obtain ⟨y, hy, hyr⟩ := (orderExists_iff _ _).mp (hfk r hr)
        have := hfresh y hy
        omega
    | update req =>
      simp only [Call.run] at hs ⊢
      obtain ⟨oid, cid, items, -, -, -, -, -, -, -, -, ho, hi, -⟩ := PUT_success hs
      intro x hx
      rw [ho, List.mem_map] at hx
      obtain ⟨y, hy, hyx⟩ := hx
      rw [hi, orderTotal_append]
      by_cases hc : y.OrderID = oid
      · rw [if_pos hc] at hyx
        subst hyx
        simp only
        rw [hc, orderTotal_filter_self, orderTotal_itemRows_self, zero_add]
      · rw [if_neg hc] at hyx
        subst hyx
        rw [orderTotal_filter_other _ _ _ hc, orderTotal_itemRows_other _ _ _ _ hc, add_zero]
        exact ht y hy
    | delete id =>
      simp only [Call.run] at hs ⊢
      rcases DELETE_success_cases hs with ⟨text, k, -, -, -, ho, hi⟩ | ⟨text, -, -, -, ho, hi⟩
      · intro x hx
        rw [ho, List.mem_filter] at hx
        have hne : x.OrderID ≠ k := by simpa using hx.2
        rw [hi, orderTotal_filter_other _ _ _ hne]
        exact ht x hx.1
      · intro x hx
        rw [ho] at hx
        rw [hi]
        exact ht x hx

/-! ## Invariants over sequences of calls -/

theorem keysHold_runCalls (calls : List (Faults × Call)) (w : World)
    (hf : ∀ fc ∈ calls, fc.1.foreignKeys = true) (hk : keysHold w.db) :
    keysHold (runCalls calls w).db := by
  induction calls generalizing w with
  | nil => exact hk
  | cons fc rest ih =>
    simp only [runCalls]
    exact ih _ (fun x hx => hf x (List.mem_cons_of_mem _ hx))
      (keysHold_run fc.1 fc.2 w (hf fc (List.mem_cons_self _ _)) hk)

theorem busyDay_enforces : ∀ fc ∈ busyDay, fc.1.foreignKeys = true := by
  intro fc h
  simp only [busyDay, List.mem_cons, List.mem_singleton, List.not_mem_nil, or_false] at h
  rcases h with rfl | rfl | rfl | rfl | rfl <;> rfl

theorem shopWithOrders_keysHold : keysHold shopWithOrders.db := by
  unfold keysHold
  decide

/-- C15: on a store that enforces the foreign keys of `scripts/init-db.js` and
whose keys hold at the start, if every order's `TotalAmount` equals the sum of
quantity times price over its item rows, then it still does after any sequence
of create, update and delete calls, each committed or rolled back under any
plan of failures. -/
theorem totals_invariant (calls : List (Faults × Call)) (w : World)
    (hf : ∀ fc ∈ calls, fc.1.foreignKeys = true) (hk : keysHold w.db)
    (ht : totalsAgree w.db) : totalsAgree (runCalls calls w).db := by
  induction calls generalizing w with
  | nil => exact ht
  | cons fc rest ih =>
    simp only [runCalls]
    exact ih _ (fun x hx => hf x (List.mem_cons_of_mem _ hx))
      (keysHold_run fc.1 fc.2 w (hf fc (List.mem_cons_self _ _)) hk)
      (totalsAgree_run fc.1 fc.2 w hk ht)

/-- The totals agree in the store with orders 7 and 8 and still do after a busy day. -/
theorem totals_invariant_witness :
    totalsAgree shopWithOrders.db ∧ totalsAgree (runCalls busyDay shopWithOrders).db :=
  ⟨by unfold totalsAgree; decide,
   totals_invariant busyDay shopWithOrders busyDay_enforces shopWithOrders_keysHold
     (by unfold totalsAgree; decide)⟩

/-- C16: on a store that enforces the foreign keys of `scripts/init-db.js` and
whose keys hold at the start (every item row names an existing order, order
ids are unique and below the counter), after any sequence of create, update
and delete calls with arbitrary arguments every item row names exactly one
existing order row. -/
theorem items_have_one_order (calls : List (Faults × Call)) (w : World)
    (hf : ∀ fc ∈ calls, fc.1.foreignKeys = true) (hk : keysHold w.db) :
    ∀ r ∈ (runCalls calls w).db.OrderItems,
      ((runCalls calls w).db.Orders.map fun o => o.OrderID).count r.OrderID = 1 := by
  obtain ⟨hnd, -, hfk⟩ := keysHold_runCalls calls w hf hk
  intro r hr
  apply List.count_eq_one_of_mem hnd
  obtain ⟨o, ho, hor⟩ := (orderExists_iff _ _).mp (hfk r hr)
  exact List.mem_map.mpr ⟨o, ho, hor⟩

/-- After a busy day every item row of the shop names exactly one order row. -/
theorem items_have_one_order_witness :
    keysHold shopWithOrders.db
      ∧ ∀ r ∈ (runCalls busyDay shopWithOrders).db.OrderItems,
        ((runCalls busyDay shopWithOrders).db.Orders.map fun o => o.OrderID).count r.OrderID
          = 1 :=
  ⟨shopWithOrders_keysHold,
   items_have_one_order busyDay shopWithOrders busyDay_enforces shopWithOrders_keysHold⟩

/-! ## Helper lemmas: runs under a quiet plan -/

theorem execute_quiet {α : Type} {f : Faults} (hq : ∀ n, f.statement n = none) (sql : String)
    (run : Database → Database × α) (s : Session) :
    execute f sql run s
      = Outcome.ok (run s.work).2
          { work := (run s.work).1, issued := s.issued + 1,
            log := s.log ++ [Event.execute sql] } := by
  unfold execute
  rw [hq]

theorem executeChecked_quiet {α : Type} {f : Faults} (hq : ∀ n, f.statement n = none)
    (sql : String) (violated : Database → Bool) (run : Database → Database × α) (s : Session)
    (hv : f.foreignKeys = true → violated s.work = false) :
    executeChecked f sql violated run s
      = Outcome.ok (run s.work).2
          { work := (run s.work).1, issued := s.issued + 1,
            log := s.log ++ [Event.execute sql] } := by
  unfold executeChecked
  rw [if_neg]
  · exact execute_quiet hq sql run s
  · rintro ⟨h1, h2⟩
    rw [hv h1] at h2
    exact absurd h2 (by simp)

theorem insertItems_quiet {f : Faults} (hq : ∀ n, f.statement n = none) (orderId : Nat)
    (items : List Item) (s : Session)
    (hord : f.foreignKeys = true → orderExists orderId s.work = true)
    (hbooks : f.foreignKeys = true → ∀ i ∈ items, bookExists i.bookId s.work = true) :
    ∃ s1, insertItems f orderId items s = Outcome.ok () s1 := by
  induction items generalizing s with
  | nil => exact ⟨s, rfl⟩
  | cons i rest ih =>
    simp only [insertItems]
    rw [executeChecked_quiet hq _ _ _ s (fun hf => by
      simp [insertOrderItemViolates, hord hf, hbooks hf i (List.mem_cons_self _ _)])]
    simp only [execute_quiet hq]
    apply ih
    · intro hf
      simpa [orderExists, decreaseStock, insertOrderItem] using hord hf
    · intro hf j hj
      have := hbooks hf j (List.mem_cons_of_mem _ hj)
      simp only [bookExists, decreaseStock, insertOrderItem, List.any_map] at this ⊢
      rw [List.any_eq_true] at this ⊢
      obtain ⟨b, hb, hbj⟩ := this
      refine ⟨b, hb, ?_⟩
      simp only [Function.comp]
      split <;> exact hbj

theorem restoreStock_quiet {f : Faults} (hq : ∀ n, f.statement n = none)
    (rows : List (Nat × Int)) (s : Session) :
    ∃ s1, restoreStock f rows s = Outcome.ok () s1 := by
  induction rows generalizing s with
  | nil => exact ⟨s, rfl⟩
  | cons r rest ih =>
    simp only [restoreStock, execute_quiet hq]
    exact ih _

theorem withTransaction_quiet {α : Type} {f : Faults} (hq : f.quiet) (failed : String)
    (body : Session → Outcome α) (respond : α → Response) (w : World) {a : α} {s : Session}
    (h : body { work := w.db, issued := 0,
                log := w.log ++ [Event.getConnection, Event.beginTransaction] } = Outcome.ok a s) :
    withTransaction f failed body respond w
      = (respond a, { db := s.work, log := s.log ++ [Event.commit, Event.release] }) := by
  obtain ⟨h1, h2, -, h4⟩ := hq
  simp [withTransaction, h1, h2, h, thenCommit, h4]

theorem deleteBody_quiet {f : Faults} (hs : ∀ n, f.statement n = none) (key : Option Nat)
    (s : Session) : ∃ s4, deleteBody f key s = Outcome.ok () s4 := by
  obtain ⟨s2, h2⟩ := restoreStock_quiet hs (selectOrderItems key s.work).2
    { work := s.work, issued := s.issued + 1,
      log := s.log ++
        [Event.execute "SELECT BookID, Quantity FROM OrderItems WHERE OrderID = ?"] }
  simp only [deleteBody, execute_quiet hs]
  have h1 : (selectOrderItems key s.work).1 = s.work := by
    cases key <;> rfl
  simp only [h1]
  rw [h2]
  simp only [execute_quiet hs]
  rw [executeChecked_quiet hs]
  · exact ⟨_, rfl⟩
  · intro _
    cases key with
    | none => rfl
    | some k => simp [deleteOrderViolates, deleteOrderItems]

/-- Under a quiet plan a `DELETE` with a non-empty id commits, whether or not
the store enforces foreign keys and whether or not the order exists. -/
theorem DELETE_quiet {f : Faults} (hq : f.quiet) (text : String) (ht : text ≠ "") (w : World) :
    (DELETE f (some text) w).1 = okResponse "Order deleted successfully" none := by
  have hs := hq.2.2.1
  simp only [DELETE, if_neg ht]
  obtain ⟨s4, h4⟩ := deleteBody_quiet hs (f.keyOf text)
    { work := w.db, issued := 0,
      log := w.log ++ [Event.getConnection, Event.beginTransaction] }
  rw [withTransaction_quiet hq _ _ _ w h4]

theorem bookExists_iff (k : Nat) (db : Database) :
    bookExists k db = true ↔ ∃ b ∈ db.Books, b.BookID = k := by
  simp [bookExists]

theorem bookExists_of_map {db db1 : Database} {g : Book → Book}
    (hg : ∀ b, (g b).BookID = b.BookID) (h : db1.Books = db.Books.map g) {k : Nat}
    (hk : bookExists k db = true) : bookExists k db1 = true := by
  rw [bookExists_iff] at hk ⊢
  obtain ⟨b, hb, hbk⟩ := hk
  exact ⟨g b, by rw [h]; exact List.mem_map_of_mem g hb, by rw [hg, hbk]⟩

/-- Under a quiet plan a `POST` that passes the request test commits, provided
that, where the store enforces foreign keys, the customer and the books exist. -/
theorem POST_quiet {f : Faults} (hq : f.quiet) (now : Nat) (req : CreateRequest) (w : World)
    (c : Nat) (items : List Item) (hc : req.customerId = some c) (hc0 : c ≠ 0)
    (hi : req.items = Items.array items) (hne : items ≠ [])
    (hcust : f.foreignKeys = true → customerExists c w.db = true)
    (hbooks : f.foreignKeys = true → ∀ i ∈ items, bookExists i.bookId w.db = true) :
    (POST f now req w).1.success = true := by
  have hs := hq.2.2.1
  have hv : (!truthy req.customerId || req.items.falsy || !req.items.isArray
      || req.items.toList.length == 0) = false := by
    cases items with
    | nil => exact absurd rfl hne
    | cons i rest => simp [hc, hi, truthy, hc0, Items.falsy, Items.isArray, Items.toList]
  unfold POST
  rw [hv]
  simp only [Bool.false_eq_true, if_false, hc, hi, Items.toList, Option.getD_some]
  have h1 := executeChecked_quiet hs
    "INSERT INTO Orders (CustomerID, OrderDate, TotalAmount, Status) VALUES (?, NOW(), ?, ?)"
    (insertOrderViolates c)
    (insertOrder c now (totalAmount items) (some (statusOrPending req.status)))
    { work := w.db, issued := 0,
      log := w.log ++ [Event.getConnection, Event.beginTransaction] }
    (fun hf => by simp [insertOrderViolates, hcust hf])
  obtain ⟨s2, h2⟩ := insertItems_quiet hs w.db.nextOrderID items
    { work := (insertOrder c now (totalAmount items) (some (statusOrPending req.status))
                w.db).1,
      issued := 0 + 1,
      log := w.log ++ [Event.getConnection, Event.beginTransaction] ++
        [Event.execute "INSERT INTO Orders (CustomerID, OrderDate, TotalAmount, Status) VALUES (?, NOW(), ?, ?)"] }
    (fun _ => by simp [orderExists, insertOrder])
    (fun hf i hi2 => by simpa [bookExists, insertOrder] using hbooks hf i hi2)
  rw [withTransaction_quiet hq _ _ _ w (a := w.db.nextOrderID) (s := s2)]
  · rfl
  · simp only [createBody, h1]
    simp only [insertOrder] at h2 ⊢
    rw [h2]

/-- Under a quiet plan a `PUT` that passes the request test commits, provided
that, where the store enforces foreign keys, the order, the customer and the
books exist. -/
theorem PUT_quiet {f : Faults} (hq : f.quiet) (req : UpdateRequest) (w : World)
    (oid c : Nat) (items : List Item) (ho : req.orderId = some oid) (ho0 : oid ≠ 0)
    (hc : req.customerId = some c) (hc0 : c ≠ 0)
    (hi : req.items = Items.array items) (hne : items ≠ [])
    (hord : f.foreignKeys = true → orderExists oid w.db = true)
    (hcust : f.foreignKeys = true → customerExists c w.db = true)
    (hbooks : f.foreignKeys = true → ∀ i ∈ items, bookExists i.bookId w.db = true) :
    (PUT f req w).1.success = true := by
  have hs := hq.2.2.1
  have hv : (!truthy req.orderId || !truthy req.customerId || req.items.falsy
      || !req.items.isArray || req.items.toList.length == 0) = false := by
    cases items with
    | nil => exact absurd rfl hne
    | cons i rest =>
      simp [ho, hc, hi, truthy, ho0, hc0, Items.falsy, Items.isArray, Items.toList]
  unfold PUT
  rw [hv]
  simp only [Bool.false_eq_true, if_false, ho, hc, hi, Items.toList, Option.getD_some]
  obtain ⟨s2, h2⟩ := restoreStock_quiet hs
    ((w.db.OrderItems.filter fun r => r.OrderID = oid).map fun r => (r.BookID, r.Quantity))
    { work := w.db, issued := 0 + 1,
      log := w.log ++ [Event.getConnection, Event.beginTransaction] ++
        [Event.execute "SELECT BookID, Quantity FROM OrderItems WHERE OrderID = ?"] }
  obtain ⟨b2, -, o2, c2, -, -⟩ := restoreStock_ok _ h2
  simp only at b2 o2 c2
  have h4 := executeChecked_quiet hs
    "UPDATE Orders SET CustomerID = ?, TotalAmount = ?, Status = ? WHERE OrderID = ?"
    (updateOrderViolates c oid) (updateOrder c (totalAmount items) req.status oid)
    { work := (deleteOrderItems oid s2.work).1, issued := s2.issued + 1,
      log := s2.log ++ [Event.execute "DELETE FROM OrderItems WHERE OrderID = ?"] }
    (fun hf => by
      have := hcust hf
      simp only [customerExists] at this
      simp [updateOrderViolates, customerExists, deleteOrderItems, c2, this])
  obtain ⟨s5, h5⟩ := insertItems_quiet hs oid items
    { work := (updateOrder c (totalAmount items) req.status oid
                (deleteOrderItems oid s2.work).1).1,
      issued := s2.issued + 1 + 1,
      log := s2.log ++ [Event.execute "DELETE FROM OrderItems WHERE OrderID = ?"] ++
        [Event.execute "UPDATE Orders SET CustomerID = ?, TotalAmount = ?, Status = ? WHERE OrderID = ?"] }
    (fun hf => by
      obtain ⟨x, hx, hxo⟩ := (orderExists_iff _ _).mp (hord hf)
      rw [orderExists_iff]
      simp only [updateOrder, deleteOrderItems, o2, List.mem_map]
      refine ⟨_, ⟨x, hx, rfl⟩, ?_⟩
      split <;> exact hxo)
    (fun hf i hi2 => by
      have hb : (updateOrder c (totalAmount items) req.status oid
          (deleteOrderItems oid s2.work).1).1.Books = s2.work.Books := rfl
      refine bookExists_of_map ?_ (hb.trans b2) (hbooks hf i hi2)
      intro b; rfl)
  rw [withTransaction_quiet hq _ _ _ w (a := oid) (s := s5)]
  · rfl
  · simp only [updateBody, execute_quiet hs, selectOrderItems]
    simp only [selectOrderItems] at h2
    rw [h2]
    simp only [execute_quiet hs, h4, h5]

/-- A call that passed the request test and does not answer success answers 500. -/
theorem run_failure_status (f : Faults) (c : Call) (w : World) (hacc : c.accepted = true)
    (h : (c.run f w).1.success = false) : (c.run f w).1.status = 500 := by
  cases c with
  | create now req =>
    simp only [Call.accepted, Bool.not_eq_true'] at hacc
    simp only [Call.run, POST, hacc, Bool.false_eq_true, if_false] at h ⊢
    rcases withTransaction_cases f "Failed to create order"
      (createBody f now (req.customerId.getD 0) (totalAmount req.items.toList) req.status
        req.items.toList)
      (fun orderId => okResponse "Order created successfully" (some orderId)) w
      with ⟨a, s, -, -, heq⟩ | ⟨e, hr, -⟩
    · rw [heq] at h; simp [okResponse] at h
    · rw [hr]; rfl
  | update req =>
    simp only [Call.accepted, Bool.not_eq_true'] at hacc
    simp only [Call.run, PUT, hacc, Bool.false_eq_true, if_false] at h ⊢
    rcases withTransaction_cases f "Failed to update order"
      (updateBody f (req.orderId.getD 0) (req.customerId.getD 0)
        (totalAmount req.items.toList) req.status req.items.toList)
      (fun orderId => okResponse "Order updated successfully" (some orderId)) w
      with ⟨a, s, -, -, heq⟩ | ⟨e, hr, -⟩
    · rw [heq] at h; simp [okResponse] at h
    · rw [hr]; rfl
  | delete id =>
    cases id with
    | none => simp [Call.accepted] at hacc
    | some text =>
      have ht : ¬ text = "" := by simpa [Call.accepted] using hacc
      simp only [Call.run, DELETE, if_neg ht] at h ⊢
      rcases withTransaction_cases f "Failed to delete order"
        (deleteBody f (f.keyOf text))
        (fun _ => okResponse "Order deleted successfully" none) w
        with ⟨a, s, -, -, heq⟩ | ⟨e, hr, -⟩
      · rw [heq] at h; simp [okResponse] at h
      · rw [hr]; rfl

/-! ## Orders that do not exist -/

theorem enforcing_quiet : enforcing.quiet :=
  ⟨rfl, rfl, fun _ => rfl, rfl⟩

theorem storedQuantity_of_none (rows : List OrderItem) (k b : Nat)
    (h : ∀ r ∈ rows, r.OrderID ≠ k) : storedQuantity rows k b = 0 := by
  have : (rows.filter fun r => r.OrderID = k ∧ r.BookID = b) = [] := by
    rw [List.filter_eq_nil_iff]
    intro r hr
    have := h r hr
    simp [this]
  unfold storedQuantity
  rw [this]
  rfl

theorem filter_ne_of_none (rows : List OrderItem) (k : Nat) (h : ∀ r ∈ rows, r.OrderID ≠ k) :
    (rows.filter fun r => ¬ r.OrderID = k) = rows := by
  rw [List.filter_eq_self]
  intro r hr
  simpa using h r hr

/-- C17 as worded fails for update: order 99 does not exist, yet on a store
that does not enforce foreign keys the update commits with an item row
inserted for order 99 and the stock of book 5 lowered, and on a store that
enforces them the update is answered 500. -/
theorem update_absent_order_counterexample :
    orderExists 99 shopWithOrders.db = false
      ∧ absentOrderRequest.orderId = some 99
      ∧ (PUT noFaults absentOrderRequest shopWithOrders).1.success = true
      ∧ (PUT noFaults absentOrderRequest shopWithOrders).2.db.OrderItems
          = shopWithOrders.db.OrderItems
              ++ [{ OrderItemID := 3, OrderID := 99, BookID := 5, Quantity := 1, Price := 1000 }]
      ∧ (PUT noFaults absentOrderRequest shopWithOrders).2.db.Books
          = [{ BookID := 5, Title := "Dune", Stock := 7 },
             { BookID := 6, Title := "Emma", Stock := 2 }]
      ∧ (PUT enforcing absentOrderRequest shopWithOrders).1
          = { status := 500, success := false, message := "Failed to update order",
              orderId := none, error := some "a foreign key constraint fails" } := by
  decide

/-- C17, amended: let no order row and hence no item row carry the id `k`.
A `DELETE` whose `id` text the store reads as `k`, or as no key at all, leaves
`Orders`, `OrderItems` and `Books` unchanged and, when nothing throws, answers
the plain success "Order deleted successfully".
A `PUT` of `k` does not: where the store enforces foreign keys it does not
succeed (it answers 500 and the rows are unchanged), and wherever it does
succeed it has added the new item rows under the id `k` and lowered the stock
of their books. -/
theorem absent_order (w : World) (k : Nat) (hno : orderExists k w.db = false)
    (hfk : ∀ r ∈ w.db.OrderItems, orderExists r.OrderID w.db = true) :
    (∀ (f : Faults) (text : String), text ≠ "" →
        (f.keyOf text = some k ∨ f.keyOf text = none) →
        (DELETE f (some text) w).2.db.Orders = w.db.Orders
        ∧ (DELETE f (some text) w).2.db.OrderItems = w.db.OrderItems
        ∧ (DELETE f (some text) w).2.db.Books = w.db.Books
        ∧ (f.quiet → (DELETE f (some text) w).1
            = { status := 200, success := true, message := "Order deleted successfully",
                orderId := none, error := none }))
      ∧ (∀ (f : Faults) (req : UpdateRequest), req.orderId = some k →
        (f.foreignKeys = true →
          (PUT f req w).1.success = false
          ∧ ((Call.update req).accepted = true → (PUT f req w).1.status = 500)
          ∧ (PUT f req w).2.db.Orders = w.db.Orders
          ∧ (PUT f req w).2.db.OrderItems = w.db.OrderItems
          ∧ (PUT f req w).2.db.Books = w.db.Books)
        ∧ ((PUT f req w).1.success = true →
          req.items.toList ≠ []
          ∧ (PUT f req w).2.db.OrderItems
              = w.db.OrderItems ++ itemRows k w.db.nextOrderItemID req.items.toList
          ∧ (PUT f req w).2.db.Books = w.db.Books.map (fun b =>
              { b with Stock := b.Stock - requestedQuantity req.items.toList b.BookID }))) := by
  have hrows : ∀ r ∈ w.db.OrderItems, r.OrderID ≠ k := by
    intro r hr hrk
    have := hfk r hr
    rw [hrk, hno] at this
    exact absurd this (by simp)
  have hords : ∀ o ∈ w.db.Orders, o.OrderID ≠ k := by
    intro o ho hok
    have : orderExists k w.db = true := (orderExists_iff _ _).mpr ⟨o, ho, hok⟩
    rw [hno] at this
    exact absurd this (by simp)
  constructor
  · intro f text ht hk
    refine ⟨?_, ?_, ?_, fun hq => DELETE_quiet hq text ht w⟩
    all_goals
      cases hs : (DELETE f (some text) w).1.success with
      | false =>
        obtain ⟨o, i, b, -⟩ := run_failure_unchanged f (Call.delete (some text)) w hs
        first | exact o | exact i | exact b
      | true =>
        obtain ⟨t, hid, -, -, hsome, hnone, -⟩ := DELETE_success hs
        injection hid with hid
        subst hid
        rcases hk with hk | hk
        · obtain ⟨hb, ho, hi⟩ := hsome k hk
          first
          | rw [ho, List.filter_eq_self]
            intro o hmem
            simpa using hords o hmem
          | rw [hi]; exact filter_ne_of_none _ _ hrows
          | rw [hb]
            conv_rhs => rw [← List.map_id w.db.Books]
            apply List.map_congr_left
            intro b _
            simp [storedQuantity_of_none _ _ _ hrows]
        · obtain ⟨hb, ho, hi⟩ := hnone hk
          first | exact ho | exact hi | exact hb
  · intro f req hreq
    constructor
    · intro hf
      have hs : (PUT f req w).1.success = false := by
        cases hs : (PUT f req w).1.success with
        | false => rfl
        | true =>
          have := PUT_success_fk hf hs
          rw [hreq, Option.getD_some, hno] at this
          exact absurd this (by simp)
      obtain ⟨o, i, b, -⟩ := run_failure_unchanged f (Call.update req) w hs
      exact ⟨hs, fun hacc => run_failure_status f (Call.update req) w hacc hs, o, i, b⟩
    · intro hs
      obtain ⟨oid, c, items, ho, -, -, -, hi, hne, -, hb, -, hr, -⟩ := PUT_success hs
      rw [hreq] at ho
      injection ho with ho
      subst ho
      rw [hi]
      simp only [Items.toList]
      refine ⟨hne, ?_, ?_⟩
      · rw [hr, filter_ne_of_none _ _ hrows]
      · rw [hb]
        apply List.map_congr_left
        intro b _
        simp [storedQuantity_of_none _ _ _ hrows]

/-- Order 99 is absent from the shop with orders 7 and 8. -/
theorem absent_order_witness :
    orderExists 99 shopWithOrders.db = false
      ∧ (∀ r ∈ shopWithOrders.db.OrderItems, orderExists r.OrderID shopWithOrders.db = true)
      ∧ (DELETE noFaults (some "99") shopWithOrders).1.success = true
      ∧ noFaults.keyOf "99" = some 99
      ∧ ((∀ (f : Faults) (text : String), text ≠ "" →
          (f.keyOf text = some 99 ∨ f.keyOf text = none) →
          (DELETE f (some text) shopWithOrders).2.db.Orders = shopWithOrders.db.Orders
          ∧ (DELETE f (some text) shopWithOrders).2.db.OrderItems = shopWithOrders.db.OrderItems
          ∧ (DELETE f (some text) shopWithOrders).2.db.Books = shopWithOrders.db.Books
          ∧ (f.quiet → (DELETE f (some text) shopWithOrders).1
              = { status := 200, success := true, message := "Order deleted successfully",
                  orderId := none, error := none }))
        ∧ (∀ (f : Faults) (req : UpdateRequest), req.orderId = some 99 →
          (f.foreignKeys = true →
            (PUT f req shopWithOrders).1.success = false
            ∧ ((Call.update req).accepted = true → (PUT f req shopWithOrders).1.status = 500)
            ∧ (PUT f req shopWithOrders).2.db.Orders = shopWithOrders.db.Orders
            ∧ (PUT f req shopWithOrders).2.db.OrderItems = shopWithOrders.db.OrderItems
            ∧ (PUT f req shopWithOrders).2.db.Books = shopWithOrders.db.Books)
          ∧ ((PUT f req shopWithOrders).1.success = true →
            req.items.toList ≠ []
            ∧ (PUT f req shopWithOrders).2.db.OrderItems
                = shopWithOrders.db.OrderItems
                    ++ itemRows 99 shopWithOrders.db.nextOrderItemID req.items.toList
            ∧ (PUT f req shopWithOrders).2.db.Books = shopWithOrders.db.Books.map (fun b =>
                { b with Stock := b.Stock - requestedQuantity req.items.toList b.BookID })))) :=
  ⟨by decide, by decide, by decide, by decide,
   absent_order shopWithOrders 99 (by decide) (by decide)⟩

/-! ## No floor under the stock -/

/-- C18 as worded fails for update: book 5 is at stock 8 and order 7 is updated
to nine copies of it, more than the stock; the update commits, but order 7
held two copies before, so the stock ends at 8 + 2 - 9 = 1, which is neither
negative nor 8 - 9. -/
theorem update_stock_floor_counterexample :
    shopWithOrders.db.Books.map (fun b => (b.BookID, b.Stock)) = [(5, 8), (6, 2)]
      ∧ requestedQuantity nineCopiesRequest.items.toList 5 = 9
      ∧ storedQuantity shopWithOrders.db.OrderItems 7 5 = 2
      ∧ (PUT enforcing nineCopiesRequest shopWithOrders).1.success = true
      ∧ (PUT enforcing nineCopiesRequest shopWithOrders).2.db.Books.map
            (fun b => (b.BookID, b.Stock)) = [(5, 1), (6, 2)] := by
  decide

/-- C18, amended: the handlers put no floor under the stock.  When nothing
throws (and, where the store enforces foreign keys, the rows referenced
exist), a create commits and leaves every book at its stock `s` minus the
requested quantity `q`, and an update commits and leaves it at `s + o - q`
where `o` is the quantity the order held of the book before; the result is
stored as it is, below zero whenever `q > s`, respectively `q > s + o`. -/
theorem no_stock_floor (f : Faults) (w : World) (hq : f.quiet) :
    (∀ (now : Nat) (req : CreateRequest) (c : Nat) (items : List Item),
        req.customerId = some c → c ≠ 0 → req.items = Items.array items → items ≠ [] →
        (f.foreignKeys = true → customerExists c w.db = true
          ∧ ∀ i ∈ items, bookExists i.bookId w.db = true) →
        (POST f now req w).1.success = true
        ∧ (POST f now req w).2.db.Books = w.db.Books.map (fun b =>
            { b with Stock := b.Stock - requestedQuantity items b.BookID })
        ∧ ∀ b ∈ w.db.Books, b.Stock < requestedQuantity items b.BookID →
            ∃ b1 ∈ (POST f now req w).2.db.Books, b1.BookID = b.BookID
              ∧ b1.Stock = b.Stock - requestedQuantity items b.BookID ∧ b1.Stock < 0)
      ∧ (∀ (req : UpdateRequest) (oid c : Nat) (items : List Item),
        req.orderId = some oid → oid ≠ 0 → req.customerId = some c → c ≠ 0 →
        req.items = Items.array items → items ≠ [] →
        (f.foreignKeys = true → orderExists oid w.db = true ∧ customerExists c w.db = true
          ∧ ∀ i ∈ items, bookExists i.bookId w.db = true) →
        (PUT f req w).1.success = true
        ∧ (PUT f req w).2.db.Books = w.db.Books.map (fun b =>
            { b with Stock := b.Stock + storedQuantity w.db.OrderItems oid b.BookID
                                - requestedQuantity items b.BookID })
        ∧ ∀ b ∈ w.db.Books,
            b.Stock + storedQuantity w.db.OrderItems oid b.BookID
              < requestedQuantity items b.BookID →
            ∃ b1 ∈ (PUT f req w).2.db.Books, b1.BookID = b.BookID
              ∧ b1.Stock = b.Stock + storedQuantity w.db.OrderItems oid b.BookID
                            - requestedQuantity items b.BookID
              ∧ b1.Stock < 0) := by
  constructor
  · intro now req c items hc hc0 hi hne hfk
    have hs := POST_quiet hq now req w c items hc hc0 hi hne (fun hf => (hfk hf).1)
      (fun hf => (hfk hf).2)
    obtain ⟨c2, items2, -, -, hi2, -, -, hb, -⟩ := POST_success hs
    rw [hi] at hi2
    injection hi2 with hi2
    subst hi2
    refine ⟨hs, hb, ?_⟩
    intro b hmem hlt
    refine ⟨{ b with Stock := b.Stock - requestedQuantity items b.BookID }, ?_, rfl, rfl, ?_⟩
    · rw [hb]
      exact List.mem_map.mpr ⟨b, hmem, rfl⟩
    · show b.Stock - requestedQuantity items b.BookID < 0
      omega
  · intro req oid c items ho ho0 hc hc0 hi hne hfk
    have hs := PUT_quiet hq req w oid c items ho ho0 hc hc0 hi hne (fun hf => (hfk hf).1)
      (fun hf => (hfk hf).2.1) (fun hf => (hfk hf).2.2)
    obtain ⟨oid2, c2, items2, ho2, -, -, -, hi2, -, -, hb, -⟩ := PUT_success hs
    rw [hi] at hi2
    injection hi2 with hi2
    subst hi2
    rw [ho] at ho2
    injection ho2 with ho2
    subst ho2
    refine ⟨hs, hb, ?_⟩
    intro b hmem hlt
    refine ⟨{ b with Stock := b.Stock + storedQuantity w.db.OrderItems oid b.BookID
                                - requestedQuantity items b.BookID }, ?_, rfl, rfl, ?_⟩
    · rw [hb]
      exact List.mem_map.mpr ⟨b, hmem, rfl⟩
    · show b.Stock + storedQuantity w.db.OrderItems oid b.BookID
          - requestedQuantity items b.BookID < 0
      omega

/-- On the enforcing store nothing is scheduled to throw; there a create of
eleven copies of book 5, which is at stock 8, commits and leaves it at -3. -/
theorem no_stock_floor_witness :
    enforcing.quiet
      ∧ (POST enforcing 103 elevenCopiesRequest shopWithOrders).2.db.Books.map
            (fun b => (b.BookID, b.Stock)) = [(5, -3), (6, 2)]
      ∧ ((∀ (now : Nat) (req : CreateRequest) (c : Nat) (items : List Item),
          req.customerId = some c → c ≠ 0 → req.items = Items.array items → items ≠ [] →
          (enforcing.foreignKeys = true → customerExists c shopWithOrders.db = true
            ∧ ∀ i ∈ items, bookExists i.bookId shopWithOrders.db = true) →
          (POST enforcing now req shopWithOrders).1.success = true
          ∧ (POST enforcing now req shopWithOrders).2.db.Books
              = shopWithOrders.db.Books.map (fun b =>
                  { b with Stock := b.Stock - requestedQuantity items b.BookID })
          ∧ ∀ b ∈ shopWithOrders.db.Books, b.Stock < requestedQuantity items b.BookID →
              ∃ b1 ∈ (POST enforcing now req shopWithOrders).2.db.Books, b1.BookID = b.BookID
                ∧ b1.Stock = b.Stock - requestedQuantity items b.BookID ∧ b1.Stock < 0)
        ∧ (∀ (req : UpdateRequest) (oid c : Nat) (items : List Item),
          req.orderId = some oid → oid ≠ 0 → req.customerId = some c → c ≠ 0 →
          req.items = Items.array items → items ≠ [] →
          (enforcing.foreignKeys = true → orderExists oid shopWithOrders.db = true
            ∧ customerExists c shopWithOrders.db = true
            ∧ ∀ i ∈ items, bookExists i.bookId shopWithOrders.db = true) →
          (PUT enforcing req shopWithOrders).1.success = true
          ∧ (PUT enforcing req shopWithOrders).2.db.Books = shopWithOrders.db.Books.map (fun b =>
              { b with Stock := b.Stock + storedQuantity shopWithOrders.db.OrderItems oid b.BookID
                                  - requestedQuantity items b.BookID })
          ∧ ∀ b ∈ shopWithOrders.db.Books,
              b.Stock + storedQuantity shopWithOrders.db.OrderItems oid b.BookID
                < requestedQuantity items b.BookID →
              ∃ b1 ∈ (PUT enforcing req shopWithOrders).2.db.Books, b1.BookID = b.BookID
                ∧ b1.Stock = b.Stock + storedQuantity shopWithOrders.db.OrderItems oid b.BookID
                              - requestedQuantity items b.BookID
                ∧ b1.Stock < 0)) :=
  ⟨enforcing_quiet, by decide, no_stock_floor enforcing shopWithOrders enforcing_quiet⟩

/-! ## Helper lemmas: the listing query -/

theorem mem_distinct {κ : Type} [DecidableEq κ] (l : List κ) (x : κ) :
    x ∈ distinct l ↔ x ∈ l := by
  induction l with
  | nil => simp [distinct]
  | cons k ks ih =>
    simp only [distinct, List.mem_cons, List.mem_filter, ih]
    by_cases h : x = k
    · simp [h]
    · simp [h]

theorem distinct_replicate_append {κ : Type} [DecidableEq κ] (m : Nat) (k : κ) (rest : List κ) :
    (distinct (List.replicate m k ++ rest)).filter (fun x => ¬ x = k)
      = (distinct rest).filter (fun x => ¬ x = k) := by
  induction m with
  | zero => simp
  | succ m ih =>
    rw [List.replicate_succ, List.cons_append]
    simp only [distinct, List.filter_cons, List.filter_filter]
    simp only [not_true_eq_false, decide_False, Bool.false_eq_true, if_false, Bool.and_self]
    exact ih

theorem distinct_blocks {α κ : Type} [DecidableEq κ] (l : List α) (g : α → κ) (n : α → Nat)
    (hn : ∀ a ∈ l, 0 < n a) (hnd : (l.map g).Nodup) :
    distinct (l.flatMap fun a => List.replicate (n a) (g a)) = l.map g := by
  induction l with
  | nil => rfl
  | cons a t ih =>
    rw [List.map_cons, List.nodup_cons] at hnd
    have iht := ih (fun x hx => hn x (List.mem_cons_of_mem _ hx)) hnd.2
    obtain ⟨m, hm⟩ : ∃ m, n a = m + 1 :=
      ⟨n a - 1, by have := hn a (List.mem_cons_self _ _); omega⟩
    rw [List.flatMap_cons, hm, List.replicate_succ, List.cons_append]
    simp only [distinct]
    rw [distinct_replicate_append, iht, List.map_cons]
    congr 1
    rw [List.filter_eq_self]
    intro x hx
    have : x ≠ g a := fun e => hnd.1 (e ▸ hx)
    simpa using this

theorem filter_key_length_le_one {β : Type} (l : List β) (key : β → Nat) (k : Nat)
    (hnd : (l.map key).Nodup) : (l.filter fun x => k = key x).length ≤ 1 := by
  induction l with
  | nil => simp
  | cons a t ih =>
    rw [List.map_cons, List.nodup_cons] at hnd
    by_cases h : k = key a
    · have hnone : (t.filter fun x => k = key x) = [] := by
        rw [List.filter_eq_nil_iff]
        intro x hx
        have : key x ≠ key a := fun e => hnd.1 (e ▸ List.mem_map_of_mem key hx)
        simpa [h] using fun e : key a = key x => this e.symm
      rw [List.filter_cons, if_pos (by simpa using h), List.length_cons, hnone]
      simp
    · simp only [List.filter_cons, h, decide_False, Bool.false_eq_true, if_false]
      exact ih hnd.2

theorem leftJoin_customers (db : Database) (o : Order)
    (hck : (db.Customers.map fun c => c.CustomerID).Nodup) :
    leftJoin (db.Customers.filter fun c => o.CustomerID = c.CustomerID) = [customerOf db o] := by
  have hlen := filter_key_length_le_one db.Customers (fun c => c.CustomerID) o.CustomerID hck
  unfold customerOf
  cases hf : (db.Customers.filter fun c => o.CustomerID = c.CustomerID) with
  | nil => rfl
  | cons c rest =>
    rw [hf] at hlen
    cases rest with
    | nil => rfl
    | cons c2 rest2 => simp at hlen

theorem leftJoin_ne_nil {β : Type} (l : List β) : leftJoin l ≠ [] := by
  cases l <;> simp [leftJoin]

theorem booksOf_ne_nil (db : Database) (oi : Option OrderItem) : booksOf db oi ≠ [] := by
  cases oi with
  | none => simp [booksOf]
  | some r => exact leftJoin_ne_nil _

theorem rowsOf_key (db : Database) (o : Order)
    (hck : (db.Customers.map fun c => c.CustomerID).Nodup) :
    ∀ row ∈ rowsOf db o, groupKey row = orderKey db o := by
  intro row hrow
  simp only [rowsOf, leftJoin_customers db o hck, List.mem_flatMap, List.mem_singleton,
    List.mem_map] at hrow
  obtain ⟨c, hc, oi, -, b, -, hr⟩ := hrow
  subst hr hc
  rfl

theorem rowsOf_ne_nil (db : Database) (o : Order) : rowsOf db o ≠ [] := by
  obtain ⟨c, hc⟩ := List.exists_mem_of_ne_nil _
    (leftJoin_ne_nil (db.Customers.filter fun c => o.CustomerID = c.CustomerID))
  obtain ⟨oi, hoi⟩ := List.exists_mem_of_ne_nil _
    (leftJoin_ne_nil (db.OrderItems.filter fun oi => o.OrderID = oi.OrderID))
  obtain ⟨b, hb⟩ := List.exists_mem_of_ne_nil _ (booksOf_ne_nil db oi)
  apply List.ne_nil_of_mem
  simp only [rowsOf, List.mem_flatMap, List.mem_map]
  exact ⟨c, hc, oi, hoi, b, hb, rfl⟩

theorem joinedRows_keys (db : Database)
    (hck : (db.Customers.map fun c => c.CustomerID).Nodup) :
    (joinedRows db).map groupKey
      = db.Orders.flatMap fun o => List.replicate (rowsOf db o).length (orderKey db o) := by
  unfold joinedRows
  rw [List.map_flatMap]
  congr 1
  funext o
  rw [List.eq_replicate_iff]
  refine ⟨by simp, ?_⟩
  intro k hk
  obtain ⟨row, hrow, hrk⟩ := List.mem_map.mp hk
  rw [← hrk]
  exact rowsOf_key db o hck row hrow

theorem orderKeys_nodup (db : Database) (hpk : (db.Orders.map fun o => o.OrderID).Nodup) :
    (db.Orders.map (orderKey db)).Nodup := by
  apply List.Nodup.of_map (fun k => k.1)
  rw [List.map_map]
  exact hpk

/-- With primary keys on `Orders` and `Customers`, the groups of the listing
query are the order rows, one group per row, in table order. -/
theorem listing_groups (db : Database) (hpk : (db.Orders.map fun o => o.OrderID).Nodup)
    (hck : (db.Customers.map fun c => c.CustomerID).Nodup) :
    distinct ((joinedRows db).map groupKey) = db.Orders.map (orderKey db) := by
  rw [joinedRows_keys db hck]
  apply distinct_blocks
  · intro o _
    exact List.length_pos.mpr (rowsOf_ne_nil db o)
  · exact orderKeys_nodup db hpk

theorem rowsOf_mem (db : Database) (o : Order) (row : JoinedRow) (h : row ∈ rowsOf db o) :
    row.o = o
      ∧ row.c ∈ leftJoin (db.Customers.filter fun c => o.CustomerID = c.CustomerID)
      ∧ row.oi ∈ leftJoin (db.OrderItems.filter fun oi => o.OrderID = oi.OrderID)
      ∧ row.b ∈ booksOf db row.oi := by
  simp only [rowsOf, List.mem_flatMap, List.mem_map] at h
  obtain ⟨c, hc, oi, hoi, b, hb, hr⟩ := h
  subst hr
  exact ⟨rfl, hc, hoi, hb⟩

theorem listOrders_perm (f : Faults) (db : Database)
    (hpk : (db.Orders.map fun o => o.OrderID).Nodup)
    (hck : (db.Customers.map fun c => c.CustomerID).Nodup) :
    (listOrders f db).Perm
      (db.Orders.map fun o => viewOf f (joinedRows db) (orderKey db o)) := by
  unfold listOrders
  rw [listing_groups db hpk hck, List.map_map]
  exact List.perm_insertionSort _ _

theorem listOrders_sorted (f : Faults) (db : Database) :
    (listOrders f db).Sorted (fun a b => b.OrderDate ≤ a.OrderDate) := by
  haveI : IsTotal OrderView (fun a b => b.OrderDate ≤ a.OrderDate) :=
    ⟨fun a b => Nat.le_total b.OrderDate a.OrderDate⟩
  haveI : IsTrans OrderView (fun a b => b.OrderDate ≤ a.OrderDate) :=
    ⟨fun a b c hab hbc => Nat.le_trans hbc hab⟩
  exact List.sorted_insertionSort _ _

/-! ## Listing -/

/-- C19: `GET` writes nothing, and when the query goes through, on a store
where `OrderID` and `CustomerID` are primary keys, it returns exactly one view
per order row, carrying that row's `OrderID`, `OrderDate`, `TotalAmount` and
`Status` beside `CustomerName` and `Items`, with the views in non-increasing
order of `OrderDate`. -/
theorem listing_shape (f : Faults) (w : World)
    (hpk : (w.db.Orders.map fun o => o.OrderID).Nodup)
    (hck : (w.db.Customers.map fun c => c.CustomerID).Nodup) :
    (GET f w).2.db = w.db
      ∧ (f.statement 0 = none → (GET f w).1.success = true ∧ (GET f w).1.data.isSome = true)
      ∧ ∀ views, (GET f w).1.data = some views →
          (views.map fun v => (v.OrderID, v.OrderDate, v.TotalAmount, v.Status)).Perm
              (w.db.Orders.map fun o => (o.OrderID, o.OrderDate, o.TotalAmount, o.Status))
          ∧ views.length = w.db.Orders.length
          ∧ views.Sorted (fun a b => b.OrderDate ≤ a.OrderDate) := by
  refine ⟨?_, ?_, ?_⟩
  · unfold GET
    cases f.statement 0 <;> rfl
  · intro h0
    simp [GET, h0]
  · intro views hv
    have hviews : views = listOrders f w.db := by
      unfold GET at hv
      cases h0 : f.statement 0 with
      | some e => simp [h0] at hv
      | none =>
        simp only [h0] at hv
        injection hv with hv
        exact hv.symm
    subst hviews
    have hperm := listOrders_perm f w.db hpk hck
    refine ⟨?_, ?_, listOrders_sorted f w.db⟩
    · have := hperm.map (fun v => (v.OrderID, v.OrderDate, v.TotalAmount, v.Status))
      rw [List.map_map] at this
      exact this
    · rw [hperm.length_eq, List.length_map]

/-- The store with orders 9 and 10 is listed newest first, one view per order. -/
theorem listing_shape_witness :
    (shopWithEmptyOrder.db.Orders.map fun o => o.OrderID).Nodup
      ∧ (shopWithEmptyOrder.db.Customers.map fun c => c.CustomerID).Nodup
      ∧ (GET noFaults shopWithEmptyOrder).1.data.map (fun vs => vs.map fun v => v.OrderID)
          = some [10, 9]
      ∧ ((GET noFaults shopWithEmptyOrder).2.db = shopWithEmptyOrder.db
        ∧ (noFaults.statement 0 = none → (GET noFaults shopWithEmptyOrder).1.success = true
            ∧ (GET noFaults shopWithEmptyOrder).1.data.isSome = true)
        ∧ ∀ views, (GET noFaults shopWithEmptyOrder).1.data = some views →
            (views.map fun v => (v.OrderID, v.OrderDate, v.TotalAmount, v.Status)).Perm
                (shopWithEmptyOrder.db.Orders.map
                  fun o => (o.OrderID, o.OrderDate, o.TotalAmount, o.Status))
            ∧ views.length = shopWithEmptyOrder.db.Orders.length
            ∧ views.Sorted (fun a b => b.OrderDate ≤ a.OrderDate)) :=
  ⟨by decide, by decide, by decide,
   listing_shape noFaults shopWithEmptyOrder (by decide) (by decide)⟩

/-- C20 as worded fails: order 10 has no item row, and its view carries
`Items = NULL`, not the empty string. -/
theorem listing_empty_order_counterexample :
    (shopWithEmptyOrder.db.OrderItems.filter fun r => r.OrderID = 10) = []
      ∧ (GET noFaults shopWithEmptyOrder).1.data
          = some [{ OrderID := 10, OrderDate := 105, TotalAmount := 0, Status := some "Pending",
                    CustomerName := some "Bob", Items := none },
                  { OrderID := 9, OrderDate := 102, TotalAmount := 6750,
                    Status := some "Shipped", CustomerName := some "Ann",
                    Items := some "Dune (2 x $10.00), Emma (1 x $7.50), Dune (4 x $10.00)" }]
      ∧ ∀ v ∈ listOrders noFaults shopWithEmptyOrder.db, v.OrderID = 10 → v.Items ≠ some "" := by
  decide

/-- C20, amended: for every order row without item rows, the listing contains
a view for it whose `Items` is `NULL` (not a string) and whose `CustomerName`
is the name of the order's customer, `CustomerID` being a primary key. -/
theorem listing_empty_order (f : Faults) (w : World) (o : Order)
    (hck : (w.db.Customers.map fun c => c.CustomerID).Nodup) (ho : o ∈ w.db.Orders)
    (hnone : ∀ r ∈ w.db.OrderItems, r.OrderID ≠ o.OrderID) :
    ∀ views, (GET f w).1.data = some views →
      ∃ v ∈ views, v.OrderID = o.OrderID ∧ v.Items = none
        ∧ ∀ c ∈ w.db.Customers, c.CustomerID = o.CustomerID → v.CustomerName = some c.Name := by
  intro views hv
  have hviews : views = listOrders f w.db := by
    unfold GET at hv
    cases h0 : f.statement 0 with
    | some e => simp [h0] at hv
    | none =>
      simp only [h0] at hv
      injection hv with hv
      exact hv.symm
  subst hviews
  refine ⟨viewOf f (joinedRows w.db) (orderKey w.db o), ?_, rfl, ?_, ?_⟩
  · unfold listOrders
    rw [(List.perm_insertionSort _ _).mem_iff]
    apply List.mem_map_of_mem
    rw [mem_distinct]
    obtain ⟨row, hrow⟩ := List.exists_mem_of_ne_nil _ (rowsOf_ne_nil w.db o)
    rw [← rowsOf_key w.db o hck row hrow]
    apply List.mem_map_of_mem
    unfold joinedRows
    exact List.mem_flatMap.mpr ⟨o, ho, hrow⟩
  · have hall : ∀ x ∈ (arrange f ((joinedRows w.db).filter
        fun row => groupKey row = orderKey w.db o)).map itemText, id x = none := by
      intro x hx
      obtain ⟨row, hrow, hrx⟩ := List.mem_map.mp hx
      unfold arrange at hrow
      rw [(List.perm_insertionSort _ _).mem_iff, List.mem_filter] at hrow
      obtain ⟨hmem, hkey⟩ := hrow
      unfold joinedRows at hmem
      obtain ⟨o1, -, hrow1⟩ := List.mem_flatMap.mp hmem
      obtain ⟨hro, -, hoi, -⟩ := rowsOf_mem w.db o1 row hrow1
      have hid : o1.OrderID = o.OrderID := by
        have := of_decide_eq_true hkey
        simp only [groupKey, orderKey, Prod.mk.injEq] at this
        rw [← hro]; exact this.1
      have hfil : (w.db.OrderItems.filter fun oi => o1.OrderID = oi.OrderID) = [] := by
        rw [List.filter_eq_nil_iff]
        intro r hr
        have := hnone r hr
        rw [hid]
        simpa using fun e : o.OrderID = r.OrderID => this e.symm
      rw [hfil] at hoi
      simp only [leftJoin, List.mem_singleton] at hoi
      rw [← hrx]
      simp [itemText, hoi]
    show groupConcat _ _ = none
    unfold groupConcat
    rw [List.filterMap_eq_nil_iff.mpr hall]
  · intro c hc hcid
    show (customerOf w.db o).map (fun c => c.Name) = some c.Name
    have hlen := filter_key_length_le_one w.db.Customers (fun c => c.CustomerID) o.CustomerID hck
    have hmem : c ∈ w.db.Customers.filter fun c => o.CustomerID = c.CustomerID :=
      List.mem_filter.mpr ⟨hc, by simpa using hcid.symm⟩
    unfold customerOf
    cases hf : (w.db.Customers.filter fun c => o.CustomerID = c.CustomerID) with
    | nil => rw [hf] at hmem; exact absurd hmem (List.not_mem_nil _)
    | cons c1 rest =>
      rw [hf] at hlen hmem
      cases rest with
      | cons c2 rest2 => simp at hlen
      | nil =>
        simp only [List.mem_singleton] at hmem
        subst hmem
        rfl

/-- Order 10 of the store has no item row and is listed with `Items = NULL`
and the name of customer 2. -/
theorem listing_empty_order_witness :
    (shopWithEmptyOrder.db.Customers.map fun c => c.CustomerID).Nodup
      ∧ ({ OrderID := 10, CustomerID := 2, OrderDate := 105, TotalAmount := 0,
           Status := some "Pending" } : Order) ∈ shopWithEmptyOrder.db.Orders
      ∧ (∀ r ∈ shopWithEmptyOrder.db.OrderItems, r.OrderID ≠ 10)
      ∧ ∀ views, (GET noFaults shopWithEmptyOrder).1.data = some views →
          ∃ v ∈ views, v.OrderID = 10 ∧ v.Items = none
            ∧ ∀ c ∈ shopWithEmptyOrder.db.Customers, c.CustomerID = 2 →
                v.CustomerName = some c.Name :=
  ⟨by decide, by decide, by decide,
   listing_empty_order noFaults shopWithEmptyOrder
     { OrderID := 10, CustomerID := 2, OrderDate := 105, TotalAmount := 0,
       Status := some "Pending" } (by decide) (by decide) (by decide)⟩

/-! ## Stock conservation -/

theorem referencedQuantity_append (a b : List OrderItem) (k : Nat) :
    referencedQuantity (a ++ b) k = referencedQuantity a k + referencedQuantity b k := by
  simp [referencedQuantity, List.filter_append]

theorem referencedQuantity_itemRows (orderId first : Nat) (items : List Item) (k : Nat) :
    referencedQuantity (itemRows orderId first items) k = requestedQuantity items k := by
  induction items generalizing first with
  | nil => rfl
  | cons i rest ih =>
    have := ih (first + 1)
    unfold referencedQuantity requestedQuantity at this ⊢
    by_cases h : i.bookId = k <;> simp [itemRows, List.filter_cons, h, this]

theorem referencedQuantity_split (rows : List OrderItem) (orderId k : Nat) :
    referencedQuantity rows k
      = storedQuantity rows orderId k
        + referencedQuantity (rows.filter fun r => ¬ r.OrderID = orderId) k := by
  induction rows with
  | nil => rfl
  | cons r rest ih =>
    unfold referencedQuantity storedQuantity at ih ⊢
    by_cases h1 : r.OrderID = orderId <;> by_cases h2 : r.BookID = k <;>
      simp [List.filter_cons, h1, h2, ih] <;> omega

/-- C25: for every call and every plan of failures, committed or rolled back,
every book row keeps its `BookID` and the value of its `Stock` plus the summed
`Quantity` of all item rows that reference it. -/
theorem stock_conservation (f : Faults) (c : Call) (w : World) :
    (c.run f w).2.db.Books.map (fun b =>
        (b.BookID, b.Stock + referencedQuantity (c.run f w).2.db.OrderItems b.BookID))
      = w.db.Books.map (fun b =>
        (b.BookID, b.Stock + referencedQuantity w.db.OrderItems b.BookID)) := by
  cases hs : (c.run f w).1.success with
  | false =>
    obtain ⟨-, i, b, -⟩ := run_failure_unchanged f c w hs
    rw [i, b]
  | true =>
    cases c with
    | create now req =>
      simp only [Call.run] at hs ⊢
      obtain ⟨cid, items, -, -, -, -, -, hb, -, hi, -⟩ := POST_success hs
      rw [hb, hi, List.map_map]
      apply List.map_congr_left
      intro b _
      simp only [Function.comp, referencedQuantity_append, referencedQuantity_itemRows,
        Prod.mk.injEq, true_and]
      omega
    | update req =>
      simp only [Call.run] at hs ⊢
      obtain ⟨oid, cid, items, -, -, -, -, -, -, -, hb, -, hi, -⟩ := PUT_success hs
      rw [hb, hi, List.map_map]
      apply List.map_congr_left
      intro b _
      simp only [Function.comp, referencedQuantity_append, referencedQuantity_itemRows,
        Prod.mk.injEq, true_and]
      rw [referencedQuantity_split w.db.OrderItems oid b.BookID]
      omega
    | delete id =>
      simp only [Call.run] at hs ⊢
      rcases DELETE_success_cases hs with ⟨text, k, -, -, hb, -, hi⟩ | ⟨text, -, -, hb, -, hi⟩
      · rw [hb, hi, List.map_map]
        apply List.map_congr_left
        intro b _
        simp only [Function.comp, Prod.mk.injEq, true_and]
        rw [referencedQuantity_split w.db.OrderItems k b.BookID]
        omega
      · rw [hb, hi]

/-! ## Frame, round trip and last write -/

theorem book_stock_self (b : Book) (d : Int) (hd : d = 0) :
    ({ b with Stock := b.Stock + d } : Book) = b := by
  subst hd
  cases b
  simp

theorem requestedQuantity_of_none (items : List Item) (k : Nat)
    (h : ∀ i ∈ items, i.bookId ≠ k) : requestedQuantity items k = 0 := by
  have : (items.filter fun i => i.bookId = k) = [] := by
    rw [List.filter_eq_nil_iff]
    intro i hi
    simpa using h i hi
  unfold requestedQuantity
  rw [this]
  rfl

theorem storedQuantity_of_no_book (rows : List OrderItem) (orderId k : Nat)
    (h : ∀ r ∈ rows, r.OrderID = orderId → r.BookID ≠ k) : storedQuantity rows orderId k = 0 := by
  have : (rows.filter fun r => r.OrderID = orderId ∧ r.BookID = k) = [] := by
    rw [List.filter_eq_nil_iff]
    intro r hr
    have := h r hr
    simp only [decide_eq_true_eq, not_and]
    exact this
  unfold storedQuantity
  rw [this]
  rfl

theorem filter_ne_itemRows (orderId first : Nat) (items : List Item) :
    ((itemRows orderId first items).filter fun r => ¬ r.OrderID = orderId) = [] := by
  rw [List.filter_eq_nil_iff]
  intro r hr
  simp [itemRows_orderID orderId first items r hr]

theorem filter_ne_idem (rows : List OrderItem) (orderId : Nat) :
    ((rows.filter fun r => ¬ r.OrderID = orderId).filter fun r => ¬ r.OrderID = orderId)
      = rows.filter fun r => ¬ r.OrderID = orderId := by
  rw [List.filter_filter]
  apply List.filter_congr
  intro r _
  simp

/-- C28: a committed create, update or delete leaves unchanged every order row
other than the one created or named, every item row of any other order, and
every book row that is referenced neither by the input items nor by the stored
item rows of the named order.  The order a delete names is the one the store
reads the `id` text as; when it reads it as no key, no row is named. -/
theorem frame (f : Faults) (c : Call) (w : World) (hs : (c.run f w).1.success = true) :
    ((c.run f w).2.db.Orders.filter fun o => ¬ some o.OrderID = c.target f w)
        = (w.db.Orders.filter fun o => ¬ some o.OrderID = c.target f w)
      ∧ ((c.run f w).2.db.OrderItems.filter fun r => ¬ some r.OrderID = c.target f w)
        = (w.db.OrderItems.filter fun r => ¬ some r.OrderID = c.target f w)
      ∧ ∃ g : Book → Book, (c.run f w).2.db.Books = w.db.Books.map g
        ∧ ∀ b : Book, (∀ i ∈ c.items, i.bookId ≠ b.BookID) →
            (∀ r ∈ w.db.OrderItems, some r.OrderID = c.target f w → r.BookID ≠ b.BookID) →
            g b = b := by
  cases c with
  | create now req =>
    simp only [Call.run, Call.target, Call.items, Option.some.injEq] at hs ⊢
    obtain ⟨cid, items, -, -, hit, -, -, hb, ho, hi, -⟩ := POST_success hs
    have hitems : req.items.toList = items := by rw [hit]; rfl
    rw [hitems]
    refine ⟨?_, ?_, _, hb, ?_⟩
    · rw [ho, List.filter_append]
      simp
    · rw [hi, List.filter_append, filter_ne_itemRows, List.append_nil]
    · intro b h1 _
      have := book_stock_self b (-requestedQuantity items b.BookID)
        (by rw [requestedQuantity_of_none items b.BookID h1]; rfl)
      simpa [sub_eq_add_neg] using this
  | update req =>
    simp only [Call.run, Call.target, Call.items, Option.some.injEq] at hs ⊢
    obtain ⟨oid, cid, items, hoid, -, -, -, hit, -, -, hb, ho, hi, -⟩ := PUT_success hs
    have hitems : req.items.toList = items := by rw [hit]; rfl
    have hkey : req.orderId.getD 0 = oid := by rw [hoid]; rfl
    rw [hitems]
    simp only [hkey]
    refine ⟨?_, ?_, _, hb, ?_⟩
    · rw [ho, List.filter_map]
      rw [List.map_congr_left (g := id)]
      · simp only [List.map_id]
        apply List.filter_congr
        intro o _
        simp only [Function.comp]
        split <;> rfl
      · intro o hmem
        rw [List.mem_filter] at hmem
        simp only [Function.comp] at hmem
        by_cases hc : o.OrderID = oid
        · have h2 := hmem.2
          simp [hc] at h2
        · rw [if_neg hc]; rfl
    · rw [hi, List.filter_append, filter_ne_itemRows, List.append_nil, filter_ne_idem]
    · intro b h1 h2
      have := book_stock_self b (storedQuantity w.db.OrderItems oid b.BookID
          - requestedQuantity items b.BookID)
        (by rw [requestedQuantity_of_none items b.BookID h1,
              storedQuantity_of_no_book _ _ _ h2]; rfl)
      simpa [add_sub_assoc] using this
  | delete id =>
    simp only [Call.run, Call.target, Call.items] at hs ⊢
    rcases DELETE_success_cases hs with ⟨text, k, hid, hk, hb, ho, hi⟩ | ⟨text, hid, hk, hb, ho, hi⟩
    · subst hid
      simp only [Option.getD_some, hk, Option.some.injEq]
      refine ⟨?_, ?_, _, hb, ?_⟩
      · rw [ho, List.filter_filter]
        apply List.filter_congr
        intro o _
        simp
      · rw [hi, filter_ne_idem]
      · intro b _ h2
        exact book_stock_self b _ (storedQuantity_of_no_book _ _ _ h2)
    · subst hid
      simp only [Option.getD_some, hk]
      refine ⟨by rw [ho], by rw [hi], id, by rw [hb, List.map_id], fun b _ _ => rfl⟩

/-- Scenario B commits: order 8, its item row and book 6 are untouched. -/
theorem frame_witness :
    ((Call.update scenarioB).run enforcing shopWithOrders).1.success = true
      ∧ ((((Call.update scenarioB).run enforcing shopWithOrders).2.db.Orders.filter
            fun o => ¬ some o.OrderID = (Call.update scenarioB).target enforcing shopWithOrders)
          = (shopWithOrders.db.Orders.filter
            fun o => ¬ some o.OrderID = (Call.update scenarioB).target enforcing shopWithOrders)
        ∧ (((Call.update scenarioB).run enforcing shopWithOrders).2.db.OrderItems.filter
            fun r => ¬ some r.OrderID = (Call.update scenarioB).target enforcing shopWithOrders)
          = (shopWithOrders.db.OrderItems.filter
            fun r => ¬ some r.OrderID = (Call.update scenarioB).target enforcing shopWithOrders)
        ∧ ∃ g : Book → Book,
          ((Call.update scenarioB).run enforcing shopWithOrders).2.db.Books
            = shopWithOrders.db.Books.map g
          ∧ ∀ b : Book, (∀ i ∈ (Call.update scenarioB).items, i.bookId ≠ b.BookID) →
              (∀ r ∈ shopWithOrders.db.OrderItems,
                some r.OrderID = (Call.update scenarioB).target enforcing shopWithOrders →
                r.BookID ≠ b.BookID) →
              g b = b) :=
  ⟨by decide, frame enforcing (Call.update scenarioB) shopWithOrders (by decide)⟩

theorem storedQuantity_append (a b : List OrderItem) (orderId k : Nat) :
    storedQuantity (a ++ b) orderId k = storedQuantity a orderId k + storedQuantity b orderId k := by
  simp [storedQuantity, List.filter_append]

theorem storedQuantity_itemRows (orderId first : Nat) (items : List Item) (k : Nat) :
    storedQuantity (itemRows orderId first items) orderId k = requestedQuantity items k := by
  induction items generalizing first with
  | nil => rfl
  | cons i rest ih =>
    have := ih (first + 1)
    unfold storedQuantity requestedQuantity at this ⊢
    simp only [Bool.decide_and] at this ⊢
    by_cases h : i.bookId = k <;> simp [itemRows, List.filter_cons, h, this]

theorem storedQuantity_filter_ne (rows : List OrderItem) (orderId k : Nat) :
    storedQuantity (rows.filter fun r => ¬ r.OrderID = orderId) orderId k = 0 := by
  apply storedQuantity_of_none
  intro r hr
  rw [List.mem_filter] at hr
  simpa using hr.2

/-- C26: on a store whose keys hold, a committed create followed by a committed
delete of the order it returned (a delete whose `id` text the store reads as
the returned order id) leaves `Books` (hence every stock), `Orders` and
`OrderItems` exactly as they were before the create. -/
theorem create_delete_round_trip (f1 f2 : Faults) (now : Nat) (req : CreateRequest)
    (text : String) (w : World) (hk : keysHold w.db)
    (h1 : (POST f1 now req w).1.success = true)
    (hid : f2.keyOf text = (POST f1 now req w).1.orderId)
    (h2 : (DELETE f2 (some text) (POST f1 now req w).2).1.success = true) :
    (DELETE f2 (some text) (POST f1 now req w).2).2.db.Books = w.db.Books
      ∧ (DELETE f2 (some text) (POST f1 now req w).2).2.db.Orders = w.db.Orders
      ∧ (DELETE f2 (some text) (POST f1 now req w).2).2.db.OrderItems = w.db.OrderItems := by
  obtain ⟨-, hfresh, hfk⟩ := hk
  obtain ⟨cid, items, -, -, -, -, hr, hb, ho, hi, -⟩ := POST_success h1
  obtain ⟨t, ht, -, -, hsome, -, -⟩ := DELETE_success h2
  injection ht with ht
  subst ht
  have hnum : f2.keyOf text = some w.db.nextOrderID := by
    rw [hr] at hid
    exact hid
  obtain ⟨hb2, ho2, hi2⟩ := hsome _ hnum
  have hrows : ∀ r ∈ w.db.OrderItems, r.OrderID ≠ w.db.nextOrderID := by
    intro r hr2 hrid
    obtain ⟨y, hy, hyr⟩ := (orderExists_iff _ _).mp (hfk r hr2)
    have := hfresh y hy
    omega
  refine ⟨?_, ?_, ?_⟩
  · rw [hb2, hb, hi, List.map_map]
    conv_rhs => rw [← List.map_id w.db.Books]
    apply List.map_congr_left
    intro b _
    simp only [Function.comp, id, storedQuantity_append, storedQuantity_itemRows,
      storedQuantity_of_none _ _ _ hrows]
    cases b
    simp
  · rw [ho2, ho, List.filter_append, List.filter_eq_self.mpr, List.filter_eq_nil_iff.mpr,
      List.append_nil]
    · intro o hmem
      simp only [List.mem_singleton] at hmem
      subst hmem
      simp
    · intro o hmem
      have := hfresh o hmem
      simp only [decide_not, Bool.not_eq_true', decide_eq_false_iff_not]
      omega
  · rw [hi2, hi, List.filter_append, filter_ne_itemRows, List.append_nil,
      filter_ne_of_none _ _ hrows]

/-- A three-item create on the shop returns order 9; deleting order 9 gives the
shop back. -/
theorem create_delete_round_trip_witness :
    keysHold shopWithOrders.db
      ∧ (POST enforcing 102 twoBooksRequest shopWithOrders).1.success = true
      ∧ enforcing.keyOf "9" = (POST enforcing 102 twoBooksRequest shopWithOrders).1.orderId
      ∧ (DELETE enforcing (some "9")
          (POST enforcing 102 twoBooksRequest shopWithOrders).2).1.success = true
      ∧ ((DELETE enforcing (some "9")
            (POST enforcing 102 twoBooksRequest shopWithOrders).2).2.db.Books
          = shopWithOrders.db.Books
        ∧ (DELETE enforcing (some "9")
            (POST enforcing 102 twoBooksRequest shopWithOrders).2).2.db.Orders
          = shopWithOrders.db.Orders
        ∧ (DELETE enforcing (some "9")
            (POST enforcing 102 twoBooksRequest shopWithOrders).2).2.db.OrderItems
          = shopWithOrders.db.OrderItems) :=
  ⟨shopWithOrders_keysHold, by decide, by decide, by decide,
   create_delete_round_trip enforcing enforcing 102 twoBooksRequest "9" shopWithOrders
     shopWithOrders_keysHold (by decide) (by decide) (by decide)⟩

theorem requestedQuantity_selected (items : List Item) (k : Nat) :
    requestedQuantity items k
      = selectedQuantity (items.map fun i => (i.bookId, i.quantity)) k := by
  induction items with
  | nil => rfl
  | cons i rest ih =>
    unfold requestedQuantity selectedQuantity at ih ⊢
    by_cases h : i.bookId = k <;> simp [List.filter_cons, h, ih]

/-- C27: when an update A of an order commits and an update B of the same
order commits after it, the books (hence every stock) and the order rows are
those that B alone leaves, and so are the item rows of every other order and
the contents of the order's own item rows in order; and an update whose items
repeat the book and quantity of the order's stored items leaves `Books` as it
was. -/
theorem update_last_write_wins (fA fB fB1 : Faults) (reqA reqB : UpdateRequest) (w : World)
    (hsame : reqA.orderId = reqB.orderId)
    (hA : (PUT fA reqA w).1.success = true)
    (hAB : (PUT fB reqB (PUT fA reqA w).2).1.success = true)
    (hB : (PUT fB1 reqB w).1.success = true) :
    (PUT fB reqB (PUT fA reqA w).2).2.db.Books = (PUT fB1 reqB w).2.db.Books
      ∧ (PUT fB reqB (PUT fA reqA w).2).2.db.Orders = (PUT fB1 reqB w).2.db.Orders
      ∧ (∃ oid, reqB.orderId = some oid
        ∧ (((PUT fB reqB (PUT fA reqA w).2).2.db.OrderItems.filter
              fun r => r.OrderID = oid).map fun r => (r.OrderID, r.BookID, r.Quantity, r.Price))
            = (((PUT fB1 reqB w).2.db.OrderItems.filter
              fun r => r.OrderID = oid).map fun r => (r.OrderID, r.BookID, r.Quantity, r.Price))
        ∧ ((PUT fB reqB (PUT fA reqA w).2).2.db.OrderItems.filter fun r => ¬ r.OrderID = oid)
            = ((PUT fB1 reqB w).2.db.OrderItems.filter fun r => ¬ r.OrderID = oid)
        ∧ (((w.db.OrderItems.filter fun r => r.OrderID = oid).map
              fun r => (r.BookID, r.Quantity))
            = reqB.items.toList.map (fun i => (i.bookId, i.quantity)) →
          (PUT fB1 reqB w).2.db.Books = w.db.Books)) := by
  obtain ⟨oidA, cA, itemsA, hoA, -, -, -, -, -, -, hbA, hordA, hiA, -⟩ := PUT_success hA
  obtain ⟨oid, cB, itemsB, hoB, -, hcB, -, hitB, -, -, hbAB, hordAB, hiAB, -⟩ :=
    PUT_success hAB
  obtain ⟨oid1, cB1, itemsB1, hoB1, -, hcB1, -, hitB1, -, -, hbB, hordB, hiB, -⟩ :=
    PUT_success hB
  rw [hoB] at hoB1 hsame
  rw [hsame] at hoA
  injection hoB1 with e1
  injection hoA with e2
  subst e1 e2
  rw [hcB] at hcB1
  rw [hitB] at hitB1
  injection hcB1 with e3
  injection hitB1 with e4
  subst e3 e4
  refine ⟨?_, ?_, oid, hoB, ?_, ?_, ?_⟩
  · rw [hbAB, hbB, hbA, hiA, List.map_map]
    apply List.map_congr_left
    intro b _
    simp only [Function.comp, storedQuantity_append, storedQuantity_itemRows,
      storedQuantity_filter_ne]
    congr 1
    omega
  · rw [hordAB, hordB, hordA, List.map_map]
    apply List.map_congr_left
    intro o _
    simp only [Function.comp]
    by_cases hc : o.OrderID = oid
    · simp [hc]
    · simp [hc]
  · rw [hiAB, hiB, filter_order_rows, filter_order_rows, itemRows_columns, itemRows_columns]
  · rw [hiAB, hiB, hiA]
    simp only [List.filter_append, filter_ne_itemRows, List.append_nil, filter_ne_idem]
  · intro hsameItems
    rw [hbB]
    conv_rhs => rw [← List.map_id w.db.Books]
    apply List.map_congr_left
    intro b _
    have hq : storedQuantity w.db.OrderItems oid b.BookID
        = requestedQuantity itemsB b.BookID := by
      rw [requestedQuantity_selected, ← selectedQuantity_select]
      rw [hitB] at hsameItems
      simp only [Items.toList] at hsameItems
      rw [hsameItems]
    rw [hq]
    cases b
    simp

/-- Order 7 is updated to other items and then to Scenario B; the result is
that of Scenario B alone. -/
theorem update_last_write_wins_witness :
    otherItemsRequest.orderId = scenarioB.orderId
      ∧ (PUT enforcing otherItemsRequest shopWithOrders).1.success = true
      ∧ (PUT enforcing scenarioB (PUT enforcing otherItemsRequest shopWithOrders).2).1.success
          = true
      ∧ (PUT enforcing scenarioB shopWithOrders).1.success = true
      ∧ ((PUT enforcing scenarioB (PUT enforcing otherItemsRequest shopWithOrders).2).2.db.Books
          = (PUT enforcing scenarioB shopWithOrders).2.db.Books
        ∧ (PUT enforcing scenarioB (PUT enforcing otherItemsRequest shopWithOrders).2).2.db.Orders
          = (PUT enforcing scenarioB shopWithOrders).2.db.Orders
        ∧ (∃ oid, scenarioB.orderId = some oid
          ∧ (((PUT enforcing scenarioB
                  (PUT enforcing otherItemsRequest shopWithOrders).2).2.db.OrderItems.filter
                fun r => r.OrderID = oid).map
                fun r => (r.OrderID, r.BookID, r.Quantity, r.Price))
              = (((PUT enforcing scenarioB shopWithOrders).2.db.OrderItems.filter
                fun r => r.OrderID = oid).map
                fun r => (r.OrderID, r.BookID, r.Quantity, r.Price))
          ∧ ((PUT enforcing scenarioB
                  (PUT enforcing otherItemsRequest shopWithOrders).2).2.db.OrderItems.filter
                fun r => ¬ r.OrderID = oid)
              = ((PUT enforcing scenarioB shopWithOrders).2.db.OrderItems.filter
                fun r => ¬ r.OrderID = oid)
          ∧ (((shopWithOrders.db.OrderItems.filter fun r => r.OrderID = oid).map
                fun r => (r.BookID, r.Quantity))
              = scenarioB.items.toList.map (fun i => (i.bookId, i.quantity)) →
            (PUT enforcing scenarioB shopWithOrders).2.db.Books = shopWithOrders.db.Books))) :=
  ⟨rfl, by decide, by decide, by decide,
   update_last_write_wins enforcing enforcing enforcing otherItemsRequest scenarioB
     shopWithOrders rfl (by decide) (by decide) (by decide)⟩

/-! ## The items text of the listing -/

theorem leftJoin_books (db : Database) (r : OrderItem)
    (hbk : (db.Books.map fun b => b.BookID).Nodup) :
    leftJoin (db.Books.filter fun b => r.BookID = b.BookID) = [bookOf db r] := by
  have hlen := filter_key_length_le_one db.Books (fun b => b.BookID) r.BookID hbk
  unfold bookOf
  cases hf : (db.Books.filter fun b => r.BookID = b.BookID) with
  | nil => rfl
  | cons c rest =>
    rw [hf] at hlen
    cases rest with
    | nil => rfl
    | cons c2 rest2 => simp at hlen

theorem bookOf_of_exists (db : Database) (r : OrderItem)
    (h : bookExists r.BookID db = true) :
    ∃ b, bookOf db r = some b ∧ b ∈ db.Books ∧ b.BookID = r.BookID := by
  obtain ⟨b, hb, hbr⟩ := (bookExists_iff _ _).mp h
  have hmem : b ∈ db.Books.filter fun b => r.BookID = b.BookID :=
    List.mem_filter.mpr ⟨hb, by simpa using hbr.symm⟩
  unfold bookOf
  cases hf : (db.Books.filter fun b => r.BookID = b.BookID) with
  | nil => rw [hf] at hmem; exact absurd hmem (List.not_mem_nil _)
  | cons c rest =>
    have hc : c ∈ db.Books.filter fun b => r.BookID = b.BookID := by
      rw [hf]; exact List.mem_cons_self _ _
    rw [List.mem_filter] at hc
    exact ⟨c, rfl, hc.1, (of_decide_eq_true hc.2).symm⟩

theorem filter_rows_none (db : Database) (o : Order) (l : List Order)
    (hck : (db.Customers.map fun c => c.CustomerID).Nodup)
    (h : ∀ x ∈ l, x.OrderID ≠ o.OrderID) :
    ((l.flatMap (rowsOf db)).filter fun row => groupKey row = orderKey db o) = [] := by
  rw [List.filter_eq_nil_iff]
  intro row hrow
  obtain ⟨x, hx, hrx⟩ := List.mem_flatMap.mp hrow
  have hkey := rowsOf_key db x hck row hrx
  simp only [decide_eq_true_eq]
  intro hk
  rw [hkey] at hk
  simp only [orderKey, Prod.mk.injEq] at hk
  exact h x hx hk.1

theorem filter_rows_self (db : Database) (o : Order)
    (hck : (db.Customers.map fun c => c.CustomerID).Nodup) :
    ((rowsOf db o).filter fun row => groupKey row = orderKey db o) = rowsOf db o := by
  rw [List.filter_eq_self]
  intro row hrow
  simpa using rowsOf_key db o hck row hrow

/-- With primary keys, the joined rows of the group of an order are the rows
that stem from that order. -/
theorem group_rows (db : Database) (o : Order) (l : List Order)
    (hck : (db.Customers.map fun c => c.CustomerID).Nodup)
    (hnd : (l.map fun x => x.OrderID).Nodup) (ho : o ∈ l) :
    ((l.flatMap (rowsOf db)).filter fun row => groupKey row = orderKey db o) = rowsOf db o := by
  induction l with
  | nil => exact absurd ho (List.not_mem_nil _)
  | cons x t ih =>
    rw [List.map_cons, List.nodup_cons] at hnd
    rw [List.flatMap_cons, List.filter_append]
    rcases List.mem_cons.mp ho with hox | hot
    · subst hox
      rw [filter_rows_self db o hck, filter_rows_none db o t hck, List.append_nil]
      intro y hy hyo
      exact hnd.1 (List.mem_map.mpr ⟨y, hy, hyo⟩)
    · have hx : x.OrderID ≠ o.OrderID := by
        intro e
        exact hnd.1 (List.mem_map.mpr ⟨o, hot, e.symm⟩)
      have hnone := filter_rows_none db o [x] hck (by
        intro y hy
        simp only [List.mem_singleton] at hy
        rw [hy]; exact hx)
      simp only [List.flatMap_cons, List.flatMap_nil, List.append_nil] at hnone
      rw [hnone, List.nil_append]
      exact ih hnd.2 hot

/-- With primary keys, an order with item rows yields one joined row per item row. -/
theorem rowsOf_items (db : Database) (o : Order)
    (hck : (db.Customers.map fun c => c.CustomerID).Nodup)
    (hbk : (db.Books.map fun b => b.BookID).Nodup)
    (hne : (db.OrderItems.filter fun oi => o.OrderID = oi.OrderID) ≠ []) :
    rowsOf db o = (db.OrderItems.filter fun oi => o.OrderID = oi.OrderID).map fun r =>
      { o := o, c := customerOf db o, oi := some r, b := bookOf db r } := by
  unfold rowsOf
  rw [leftJoin_customers db o hck]
  simp only [List.flatMap_cons, List.flatMap_nil, List.append_nil]
  have hl : leftJoin (db.OrderItems.filter fun oi => o.OrderID = oi.OrderID)
      = (db.OrderItems.filter fun oi => o.OrderID = oi.OrderID).map some := by
    cases hf : (db.OrderItems.filter fun oi => o.OrderID = oi.OrderID) with
    | nil => exact absurd hf hne
    | cons r rest => rfl
  rw [hl]
  generalize (db.OrderItems.filter fun oi => o.OrderID = oi.OrderID) = its
  induction its with
  | nil => rfl
  | cons r rest ih =>
    simp only [List.map_cons, List.flatMap_cons, ih]
    simp [booksOf, leftJoin_books db r hbk]

theorem groupConcat_somes (maxLen : Nat) (texts : List String) (hne : texts ≠ []) :
    groupConcat maxLen (texts.map some)
      = some (String.mk (cutToBytes maxLen (", ".intercalate texts).data)) := by
  unfold groupConcat
  have : (texts.map some).filterMap id = texts := by
    induction texts with
    | nil => rfl
    | cons t rest ih =>
      cases rest with
      | nil => rfl
      | cons t2 rest2 =>
        simp only [List.map_cons, List.filterMap_cons, id] at ih ⊢
        rw [ih (by simp)]
  rw [this]
  cases texts with
  | nil => exact absurd rfl hne
  | cons t rest => rfl

/-- A text that fits is not cut. -/
theorem cutToBytes_of_le (cs : List Char) : ∀ room, byteLength cs ≤ room →
    cutToBytes room cs = cs := by
  induction cs with
  | nil => intro room _; rfl
  | cons c rest ih =>
    intro room h
    have hsum : byteLength (c :: rest) = c.utf8Size + byteLength rest := by
      simp [byteLength]
    rw [hsum] at h
    have hc : c.utf8Size ≤ room := by omega
    simp only [cutToBytes, if_pos hc]
    rw [ih (room - c.utf8Size) (by omega)]

/-- The store aggregates the joined rows of an order in the order of the ranks
of its item rows. -/
theorem arrange_rows (f : Faults) (db : Database) (o : Order) (rows : List OrderItem) :
    arrange f (rows.map fun r => { o := o, c := customerOf db o, oi := some r, b := bookOf db r })
      = (List.insertionSort (fun a b => f.itemRank a.OrderItemID ≤ f.itemRank b.OrderItemID)
          rows).map fun r => { o := o, c := customerOf db o, oi := some r, b := bookOf db r } := by
  unfold arrange
  exact (List.map_insertionSort
    (fun a b : OrderItem => f.itemRank a.OrderItemID ≤ f.itemRank b.OrderItemID)
    (fun a b : JoinedRow => rowRank f a ≤ rowRank f b)
    (fun r => JoinedRow.mk o (customerOf db o) (some r) (bookOf db r)) rows
    (fun a _ b _ => Iff.rfl)).symm

/-- C21 as worded fails: the query writes the letter "x" between quantity and
price, not the sign "×"; and a store whose `group_concat_max_len` is 20 cuts
the text of order 9 after 20 bytes, in the middle of the second entry. -/
theorem listing_items_counterexample :
    (GET noFaults shopWithEmptyOrder).1.data.map
          (fun vs => (vs.filter fun v => v.OrderID = 9).map fun v => v.Items)
        = some [some "Dune (2 x $10.00), Emma (1 x $7.50), Dune (4 x $10.00)"]
      ∧ (GET noFaults shopWithEmptyOrder).1.data.map
          (fun vs => (vs.filter fun v => v.OrderID = 9).map fun v => v.Items)
        ≠ some [some "Dune (2 × $10.00), Emma (1 × $7.50), Dune (4 × $10.00)"]
      ∧ (GET shortAggregate shopWithEmptyOrder).1.data.map
          (fun vs => (vs.filter fun v => v.OrderID = 9).map fun v => v.Items)
        = some [some "Dune (2 x $10.00), E"] := by
  decide

/-- C21, amended: on a store with primary keys on `Orders`, `Customers` and
`Books`, for every order that has item rows, each naming an existing book, the
listing has a view of the order whose `Items` is made of the texts of exactly
the order's item rows, one per row and none of another order, in the order the
store aggregates them, joined by ", " and cut at `group_concat_max_len` bytes;
each text is the book's title, " (", the quantity, " x $", the price and ")".
When the joined text fits into `group_concat_max_len` bytes, `Items` is the
whole of it. -/
theorem listing_items (f : Faults) (w : World) (o : Order)
    (hpk : (w.db.Orders.map fun x => x.OrderID).Nodup)
    (hck : (w.db.Customers.map fun c => c.CustomerID).Nodup)
    (hbk : (w.db.Books.map fun b => b.BookID).Nodup)
    (ho : o ∈ w.db.Orders)
    (hne : (w.db.OrderItems.filter fun r => r.OrderID = o.OrderID) ≠ [])
    (hfk : ∀ r ∈ w.db.OrderItems, r.OrderID = o.OrderID → bookExists r.BookID w.db = true) :
    ∀ views, (GET f w).1.data = some views →
      ∃ v ∈ views, v.OrderID = o.OrderID ∧ ∃ (rows : List OrderItem) (texts : List String),
        rows.Perm (w.db.OrderItems.filter fun r => r.OrderID = o.OrderID)
        ∧ List.Forall₂ (fun r t => ∃ b ∈ w.db.Books, b.BookID = r.BookID
            ∧ t = b.Title ++ " (" ++ showInt r.Quantity ++ " x $" ++ showMoney r.Price ++ ")")
          rows texts
        ∧ v.Items = some (String.mk
            (cutToBytes f.groupConcatMaxLen (", ".intercalate texts).data))
        ∧ (byteLength (", ".intercalate texts).data ≤ f.groupConcatMaxLen →
            v.Items = some (", ".intercalate texts)) := by
  intro views hv
  have hviews : views = listOrders f w.db := by
    unfold GET at hv
    cases h0 : f.statement 0 with
    | some e => simp [h0] at hv
    | none =>
      simp only [h0] at hv
      injection hv with hv
      exact hv.symm
  subst hviews
  have hfil : (w.db.OrderItems.filter fun oi => o.OrderID = oi.OrderID)
      = (w.db.OrderItems.filter fun r => r.OrderID = o.OrderID) := by
    apply List.filter_congr
    intro r _
    by_cases h : r.OrderID = o.OrderID
    · simp [h]
    · have h2 : ¬ o.OrderID = r.OrderID := fun e => h e.symm
      simp [h, h2]
  have hperm : (List.insertionSort
      (fun a b => f.itemRank a.OrderItemID ≤ f.itemRank b.OrderItemID)
      (w.db.OrderItems.filter fun r => r.OrderID = o.OrderID)).Perm
      (w.db.OrderItems.filter fun r => r.OrderID = o.OrderID) := List.perm_insertionSort _ _
  have hbook : ∀ r ∈ List.insertionSort
      (fun a b => f.itemRank a.OrderItemID ≤ f.itemRank b.OrderItemID)
      (w.db.OrderItems.filter fun r => r.OrderID = o.OrderID),
      ∃ b, bookOf w.db r = some b ∧ b ∈ w.db.Books ∧ b.BookID = r.BookID := by
    intro r hr
    rw [hperm.mem_iff, List.mem_filter] at hr
    exact bookOf_of_exists w.db r (hfk r hr.1 (of_decide_eq_true hr.2))
  have hitems : (viewOf f (joinedRows w.db) (orderKey w.db o)).Items
      = some (String.mk (cutToBytes f.groupConcatMaxLen (", ".intercalate
          ((List.insertionSort (fun a b => f.itemRank a.OrderItemID ≤ f.itemRank b.OrderItemID)
            (w.db.OrderItems.filter fun r => r.OrderID = o.OrderID)).map (fun r =>
              match bookOf w.db r with
              | some b => entryText b r
              | none => ""))).data)) := by
    show groupConcat _ _ = _
    have hrows : (joinedRows w.db).filter (fun row => groupKey row = orderKey w.db o)
        = rowsOf w.db o := group_rows w.db o w.db.Orders hck hpk ho
    rw [hrows, rowsOf_items w.db o hck hbk (by rw [hfil]; exact hne), hfil, arrange_rows,
      List.map_map]
    rw [← groupConcat_somes _ _ (by
      intro h
      have := hperm.length_eq
      rw [List.map_eq_nil_iff.mp h] at this
      exact hne (List.length_eq_zero.mp this.symm)), List.map_map]
    congr 1
    apply List.map_congr_left
    intro r hr
    obtain ⟨b, hb, -, -⟩ := hbook r hr
    simp [Function.comp, itemText, hb, entryText]
  refine ⟨viewOf f (joinedRows w.db) (orderKey w.db o), ?_, rfl, _, _, hperm, ?_, hitems, ?_⟩
  · rw [(listOrders_perm f w.db hpk hck).mem_iff]
    exact List.mem_map_of_mem _ ho
  · rw [List.forall₂_map_right_iff, List.forall₂_same]
    intro r hr
    obtain ⟨b, hb, hmem, hid⟩ := hbook r hr
    exact ⟨b, hmem, hid, by rw [hb]; rfl⟩
  · intro hfit
    rw [hitems, cutToBytes_of_le _ _ hfit]

/-- Order 9 of the store has three item rows and is listed with their three
texts, which fit into 1024 bytes. -/
theorem listing_items_witness :
    (shopWithEmptyOrder.db.Orders.map fun x => x.OrderID).Nodup
      ∧ (shopWithEmptyOrder.db.Customers.map fun c => c.CustomerID).Nodup
      ∧ (shopWithEmptyOrder.db.Books.map fun b => b.BookID).Nodup
      ∧ (shopWithEmptyOrder.db.OrderItems.filter fun r => r.OrderID = 9) ≠ []
      ∧ (GET noFaults shopWithEmptyOrder).1.data.map
            (fun vs => (vs.filter fun v => v.OrderID = 9).map fun v => v.Items)
          = some [some "Dune (2 x $10.00), Emma (1 x $7.50), Dune (4 x $10.00)"]
      ∧ byteLength "Dune (2 x $10.00), Emma (1 x $7.50), Dune (4 x $10.00)".data
          ≤ noFaults.groupConcatMaxLen
      ∧ ∀ views, (GET noFaults shopWithEmptyOrder).1.data = some views →
          ∃ v ∈ views, v.OrderID = 9 ∧ ∃ (rows : List OrderItem) (texts : List String),
            rows.Perm (shopWithEmptyOrder.db.OrderItems.filter fun r => r.OrderID = 9)
            ∧ List.Forall₂ (fun r t => ∃ b ∈ shopWithEmptyOrder.db.Books, b.BookID = r.BookID
                ∧ t = b.Title ++ " (" ++ showInt r.Quantity ++ " x $" ++ showMoney r.Price
                        ++ ")")
              rows texts
            ∧ v.Items = some (String.mk
                (cutToBytes noFaults.groupConcatMaxLen (", ".intercalate texts).data))
            ∧ (byteLength (", ".intercalate texts).data ≤ noFaults.groupConcatMaxLen →
                v.Items = some (", ".intercalate texts)) :=
  ⟨by decide, by decide, by decide, by decide, by decide, by decide,
   listing_items noFaults shopWithEmptyOrder
     { OrderID := 9, CustomerID := 1, OrderDate := 102, TotalAmount := 6750,
       Status := some "Shipped" }
     (by decide) (by decide) (by decide) (by decide) (by decide) (by decide)⟩

/-! ## Who writes the stock -/

theorem executeQuery_db {α : Type} (f : Faults) (sql : String) (violated : Database → Bool)
    (run : Database → Database × α) (w : World) :
    (∃ a, (executeQuery f sql violated run w).1 = Except.ok a
        ∧ (executeQuery f sql violated run w).2.db = (run w.db).1)
      ∨ (∃ e, (executeQuery f sql violated run w).1 = Except.error e
        ∧ (executeQuery f sql violated run w).2.db = w.db) := by
  unfold executeQuery
  cases f.statement 0 with
  | some e => exact Or.inr ⟨e, rfl, rfl⟩
  | none =>
    simp only
    split
    · exact Or.inr ⟨_, rfl, rfl⟩
    · exact Or.inl ⟨_, rfl, rfl⟩

/-- C22 as worded fails: the book update handler, which is no order operation,
sets the stock of book 5 from 8 to 50. -/
theorem book_update_sets_stock_counterexample :
    shopWithOrders.db.Books.map (fun b => (b.BookID, b.Stock)) = [(5, 8), (6, 2)]
      ∧ (booksPUT noFaults restockRequest shopWithOrders).1.success = true
      ∧ (booksPUT noFaults restockRequest shopWithOrders).2.db.Books.map
            (fun b => (b.BookID, b.Stock)) = [(5, 50), (6, 2)] := by
  decide

/-- C22, amended: beside the order operations, the book update handler writes
the stock: a `PUT /api/books` that succeeds sets the stock of the book it names
to the request's `Stock`, or to 0 when that is absent.  The other handlers of
the book route and the order listing change the stock of no book: a book
`POST` keeps every book row as it is, a book `DELETE` leaves only rows that
were there, and the two `GET` handlers leave the store as it is. -/
theorem stock_writers (f : Faults) (w : World) :
    (∀ body : BookBody, (booksPUT f body w).1.success = true →
        (booksPUT f body w).2.db.Books = w.db.Books.map (fun b =>
          if b.BookID = body.BookID.getD 0 then
            { b with Title := body.Title.getD "", Stock := stockOrZero body.Stock }
          else b))
      ∧ (∀ (insertId : Nat) (body : BookBody),
          (booksPOST f insertId body w).2.db.Books = w.db.Books
          ∨ ∃ b, (booksPOST f insertId body w).2.db.Books = w.db.Books ++ [b])
      ∧ (∀ (id : Option String), ∀ b ∈ (booksDELETE f id w).2.db.Books, b ∈ w.db.Books)
      ∧ (∀ (id : Option String), (booksGET f id w).2.db = w.db)
      ∧ (GET f w).2.db = w.db := by
  refine ⟨?_, ?_, ?_, ?_, ?_⟩
  · intro body hs
    unfold booksPUT at hs ⊢
    split at hs
    · simp [badRequest] at hs
    · rename_i hv
      rw [if_neg hv]
      rcases executeQuery_db f
          "UPDATE Books SET Title = ?, AuthorID = ?, CategoryID = ?, Price = ?, Stock = ? WHERE BookID = ?"
          (fun _ => false)
          (updateBook (body.Title.getD "") (stockOrZero body.Stock) (body.BookID.getD 0)) w
        with ⟨a, h1, h2⟩ | ⟨e, h1, h2⟩
      · split
        · rename_i u w1 heq
          rw [heq] at h2
          simp only at h2 ⊢
          rw [h2]
          rfl
        · rename_i e w1 heq
          rw [heq] at h1
          simp at h1
      · split at hs
        · rename_i u w1 heq
          rw [heq] at h1
          simp at h1
        · simp [serverError] at hs
  · intro insertId body
    unfold booksPOST
    split
    · exact Or.inl rfl
    · rcases executeQuery_db f
          "INSERT INTO Books (Title, AuthorID, CategoryID, Price, Stock) VALUES (?, ?, ?, ?, ?)"
          (fun _ => false) (insertBook insertId (body.Title.getD "") (stockOrZero body.Stock)) w
        with ⟨a, h1, h2⟩ | ⟨e, h1, h2⟩
      · split
        · rename_i u w1 heq
          rw [heq] at h2
          exact Or.inr ⟨_, by rw [h2]; rfl⟩
        · rename_i e w1 heq
          rw [heq] at h1
          simp at h1
      · split
        · rename_i u w1 heq
          rw [heq] at h1
          simp at h1
        · rename_i e2 w1 heq
          rw [heq] at h2
          exact Or.inl (by rw [h2])
  · intro id b hb
    cases id with
    | none => exact hb
    | some text =>
      unfold booksDELETE at hb
      simp only at hb
      split at hb
      · exact hb
      · rcases executeQuery_db f "DELETE FROM Books WHERE BookID = ?"
            (deleteBookViolates (f.keyOf text)) (deleteBook (f.keyOf text)) w
          with ⟨a, h1, h2⟩ | ⟨e, h1, h2⟩
        · split at hb
          · rename_i u w1 heq
            rw [heq] at h2
            rw [h2] at hb
            exact (List.mem_filter.mp hb).1
          · rename_i e w1 heq
            rw [heq] at h1
            simp at h1
        · split at hb
          · rename_i u w1 heq
            rw [heq] at h1
            simp at h1
          · rename_i e2 w1 heq
            rw [heq] at h2
            rw [h2] at hb
            exact hb
  · intro id
    unfold booksGET
    rcases executeQuery_db f
        "SELECT b.*, a.Name as AuthorName, c.CategoryName FROM Books b LEFT JOIN Authors a LEFT JOIN Categories c"
        (fun _ => false)
        (fun db => (db, match id with
          | some text => if text = "" then db.Books
                         else db.Books.filter fun b => some b.BookID = f.keyOf text
          | none => db.Books)) w
      with ⟨a, h1, h2⟩ | ⟨e, h1, h2⟩
    · split
      · rename_i u w1 heq
        rw [heq] at h2
        exact h2
      · rename_i e w1 heq
        rw [heq] at h1
        simp at h1
    · split
      · rename_i u w1 heq
        rw [heq] at h1
        simp at h1
      · rename_i e2 w1 heq
        rw [heq] at h2
        exact h2
  · unfold GET
    cases f.statement 0 <;> rfl


/-- The statement at the shop with orders 7 and 8 on a store where nothing throws. -/
theorem stock_writers_witness :
    (∀ body : BookBody, (booksPUT noFaults body shopWithOrders).1.success = true →
        (booksPUT noFaults body shopWithOrders).2.db.Books = shopWithOrders.db.Books.map (fun b =>
          if b.BookID = body.BookID.getD 0 then
            { b with Title := body.Title.getD "", Stock := stockOrZero body.Stock }
          else b))
      ∧ (∀ (insertId : Nat) (body : BookBody),
          (booksPOST noFaults insertId body shopWithOrders).2.db.Books = shopWithOrders.db.Books
          ∨ ∃ b, (booksPOST noFaults insertId body shopWithOrders).2.db.Books
              = shopWithOrders.db.Books ++ [b])
      ∧ (∀ (id : Option String), ∀ b ∈ (booksDELETE noFaults id shopWithOrders).2.db.Books,
          b ∈ shopWithOrders.db.Books)
      ∧ (∀ (id : Option String), (booksGET noFaults id shopWithOrders).2.db = shopWithOrders.db)
      ∧ (GET noFaults shopWithOrders).2.db = shopWithOrders.db :=
  stock_writers noFaults shopWithOrders

/-! ## Bootstrap schemas -/

/-- C24 fails on the code: the schema of `scripts/init-db.js` has the persisted
shape and every column the order engine names, but the schemas created by
`lib/db.js` and by the route `/api/initialize` have neither: their `Orders`
table lacks `TotalAmount` and `Status`, and they create no `OrderItems` table. -/
theorem bootstrap_schemas_differ :
    supports schemaOfInitDbScript persistedShape = true
      ∧ supports schemaOfInitDbScript engineColumns = true
      ∧ supports schemaOfLibDb persistedShape = false
      ∧ supports schemaOfLibDb engineColumns = false
      ∧ hasColumns schemaOfLibDb "Orders" ["TotalAmount"] = false
      ∧ hasColumns schemaOfLibDb "Orders" ["Status"] = false
      ∧ hasColumns schemaOfLibDb "OrderItems" [] = false
      ∧ supports schemaOfInitializeRoute persistedShape = false
      ∧ supports schemaOfInitializeRoute engineColumns = false
      ∧ hasColumns schemaOfInitializeRoute "Orders" ["TotalAmount"] = false
      ∧ hasColumns schemaOfInitializeRoute "Orders" ["Status"] = false
      ∧ hasColumns schemaOfInitializeRoute "OrderItems" [] = false := by
  decide

/-! ## The order form: submitting -/

theorem zeroOrNaN_false {α : Type} [Zero α] [DecidableEq α] (x : Option α) :
    zeroOrNaN x = false ↔ ∃ n, x = some n ∧ n ≠ 0 := by
  cases x with
  | none => simp [zeroOrNaN]
  | some n => simp [zeroOrNaN]

theorem checkItems_none (items : List FormattedItem) :
    checkItems items = none ↔
      ∀ item ∈ items, (∃ b, item.bookId = some b ∧ b ≠ 0)
        ∧ (∃ q, item.quantity = some q ∧ 1 ≤ q)
        ∧ (∃ p, item.price = some p ∧ 0 < p) := by
  induction items with
  | nil => simp [checkItems]
  | cons item rest ih =>
    obtain ⟨b, q, p⟩ := item
    simp only [checkItems, List.mem_cons, forall_eq_or_imp, ← ih]
    cases b with
    | none => simp [zeroOrNaN]
    | some b =>
      by_cases hb : b = 0
      · simp [zeroOrNaN, hb]
      · cases q with
        | none => simp [zeroOrNaN, hb]
        | some q =>
          by_cases hq : q < 1
          · have : ¬ 1 ≤ q := by omega
            simp [zeroOrNaN, hb, hq, this]
          · have h1 : 1 ≤ q := by omega
            have h0 : q ≠ 0 := by omega
            cases p with
            | none => simp [zeroOrNaN, hb, hq, h1, h0]
            | some p =>
              by_cases hp : p ≤ 0
              · have : ¬ 0 < p := not_lt.mpr hp
                simp [zeroOrNaN, hb, hq, h1, h0, hp, this]
              · have hpos : 0 < p := not_le.mp hp
                have hne : p ≠ 0 := ne_of_gt hpos
                simp [zeroOrNaN, hb, hq, h1, h0, hp, hpos, hne]

theorem checkItems_isSome (items : List FormattedItem) :
    checkItems items = none ∨ ∃ message, checkItems items = some message := by
  cases h : checkItems items with
  | none => exact Or.inl rfl
  | some m => exact Or.inr ⟨m, rfl⟩

/-- C30: `handleSubmit` calls `onSubmit` if and only if the customer text parses
to a non-zero integer, there is at least one item, and every item's book text
parses to a non-zero integer, its quantity to an integer of at least 1 and its
price to a number above 0.  When it calls `onSubmit`, the argument holds exactly
the parsed numbers (and the form's status); when it does not, an error message
is set.  In particular a form with an item whose price parses to 0 is never
submitted. -/
theorem handleSubmit_calls_onSubmit_iff (parseInt : String → Option Int)
    (parseFloat : String → Option ℚ) (onSubmit : FormattedData → Option String)
    (data : FormData) :
    ((handleSubmit parseInt parseFloat onSubmit data).submitted.isSome = true ↔
        (∃ c, parseInt data.customerId = some c ∧ c ≠ 0)
          ∧ data.items ≠ []
          ∧ ∀ item ∈ data.items,
              (∃ b, parseInt item.bookId = some b ∧ b ≠ 0)
                ∧ (∃ q, parseInt item.quantity = some q ∧ 1 ≤ q)
                ∧ (∃ p, parseFloat item.price = some p ∧ 0 < p))
      ∧ (∀ sent, (handleSubmit parseInt parseFloat onSubmit data).submitted = some sent →
          sent.customerId = parseInt data.customerId
            ∧ sent.items = data.items.map (fun item =>
                FormattedItem.mk (parseInt item.bookId) (parseInt item.quantity)
                  (parseFloat item.price))
            ∧ sent.status = data.status
            ∧ (handleSubmit parseInt parseFloat onSubmit data).error = onSubmit sent)
      ∧ ((handleSubmit parseInt parseFloat onSubmit data).submitted = none →
          ∃ message, (handleSubmit parseInt parseFloat onSubmit data).error = some message)
      ∧ ((∃ item ∈ data.items, parseFloat item.price = some 0) →
          (handleSubmit parseInt parseFloat onSubmit data).submitted = none) := by
  have key : ((handleSubmit parseInt parseFloat onSubmit data).submitted.isSome = true ↔
        (∃ c, parseInt data.customerId = some c ∧ c ≠ 0)
          ∧ data.items ≠ []
          ∧ ∀ item ∈ data.items,
              (∃ b, parseInt item.bookId = some b ∧ b ≠ 0)
                ∧ (∃ q, parseInt item.quantity = some q ∧ 1 ≤ q)
                ∧ (∃ p, parseFloat item.price = some p ∧ 0 < p)) := by
    unfold handleSubmit
    simp only []
    by_cases hc : zeroOrNaN (parseInt data.customerId) = true
    · have : ¬ ∃ c, parseInt data.customerId = some c ∧ c ≠ 0 := by
        intro h
        have := (zeroOrNaN_false _).mpr h
        rw [hc] at this
        exact Bool.noConfusion this
      simp [hc, this]
    · have hc2 : zeroOrNaN (parseInt data.customerId) = false := by
        simpa using hc
      have hex := (zeroOrNaN_false _).mp hc2
      rw [if_neg hc]
      by_cases hl : data.items = []
      · simp [hl]
      · have hlen : ¬ (List.map (fun item => FormattedItem.mk (parseInt item.bookId)
            (parseInt item.quantity) (parseFloat item.price)) data.items).length = 0 := by
          simpa using hl
        rw [if_neg hlen]
        rcases checkItems_isSome (List.map (fun item => FormattedItem.mk (parseInt item.bookId)
            (parseInt item.quantity) (parseFloat item.price)) data.items) with h | ⟨m, h⟩
        · have hall := (checkItems_none _).mp h
          simp only [h, Option.isSome_some, true_iff]
          refine ⟨hex, hl, ?_⟩
          intro item hi
          exact hall _ (List.mem_map.mpr ⟨item, hi, rfl⟩)
        · simp only [h, Option.isSome_none, Bool.false_eq_true, false_iff]
          rintro ⟨_, _, hall⟩
          have : checkItems (List.map (fun item => FormattedItem.mk (parseInt item.bookId)
              (parseInt item.quantity) (parseFloat item.price)) data.items) = none := by
            rw [checkItems_none]
            intro fi hfi
            obtain ⟨item, hi, rfl⟩ := List.mem_map.mp hfi
            exact hall item hi
          rw [h] at this
          exact Option.noConfusion this
  have cases : ((handleSubmit parseInt parseFloat onSubmit data).submitted = none
        ∧ ∃ message, (handleSubmit parseInt parseFloat onSubmit data).error = some message)
      ∨ ((handleSubmit parseInt parseFloat onSubmit data).submitted
            = some (FormattedData.mk (parseInt data.customerId)
                (data.items.map (fun item => FormattedItem.mk (parseInt item.bookId)
                  (parseInt item.quantity) (parseFloat item.price))) data.status)
          ∧ (handleSubmit parseInt parseFloat onSubmit data).error
            = onSubmit (FormattedData.mk (parseInt data.customerId)
                (data.items.map (fun item => FormattedItem.mk (parseInt item.bookId)
                  (parseInt item.quantity) (parseFloat item.price))) data.status)) := by
    unfold handleSubmit
    simp only []
    by_cases h1 : zeroOrNaN (parseInt data.customerId) = true
    · rw [if_pos h1]
      exact Or.inl ⟨rfl, _, rfl⟩
    · rw [if_neg h1]
      by_cases h2 : (List.map (fun item => FormattedItem.mk (parseInt item.bookId)
            (parseInt item.quantity) (parseFloat item.price)) data.items).length = 0
      · rw [if_pos h2]
        exact Or.inl ⟨rfl, _, rfl⟩
      · rw [if_neg h2]
        rcases checkItems_isSome (List.map (fun item => FormattedItem.mk (parseInt item.bookId)
            (parseInt item.quantity) (parseFloat item.price)) data.items) with h | ⟨m, h⟩
        · rw [h]
          exact Or.inr ⟨rfl, rfl⟩
        · rw [h]
          exact Or.inl ⟨rfl, _, rfl⟩
  refine ⟨key, ?_, ?_, ?_⟩
  · intro sent hs
    rcases cases with ⟨hn, _⟩ | ⟨hsome, herr⟩
    · rw [hn] at hs
      exact Option.noConfusion hs
    · rw [hsome] at hs
      simp only [Option.some.injEq] at hs
      subst hs
      exact ⟨rfl, rfl, rfl, herr⟩
  · intro hs
    rcases cases with ⟨_, hm⟩ | ⟨hsome, _⟩
    · exact hm
    · rw [hsome] at hs
      exact Option.noConfusion hs
  · rintro ⟨item, hi, hp⟩
    cases hsub : (handleSubmit parseInt parseFloat onSubmit data).submitted with
    | none => rfl
    | some sent =>
      have hsome : (handleSubmit parseInt parseFloat onSubmit data).submitted.isSome = true := by
        rw [hsub]; rfl
      obtain ⟨_, _, hall⟩ := key.mp hsome
      obtain ⟨_, _, p, hp2, hpos⟩ := hall item hi
      rw [hp] at hp2
      simp only [Option.some.injEq] at hp2
      subst hp2
      exact absurd hpos (lt_irrefl _)

theorem handleSubmit_calls_onSubmit_iff_witness :
    (handleSubmit (fun text => if text = "1" then some 1 else none)
        (fun text => if text = "0" then some 0 else none) (fun _ => none)
        (FormData.mk "1" [FormItem.mk "1" "1" "0"] "Pending")).submitted = none :=
  (handleSubmit_calls_onSubmit_iff _ _ _ _).2.2.2
    ⟨FormItem.mk "1" "1" "0", List.mem_singleton.mpr rfl, by simp⟩

/-! ## The order form: pre-populating -/

theorem digitChar_isDigit : ∀ d, d < 10 → (Nat.digitChar d).isDigit = true := by
  decide

theorem toDigitsCore_digits (fuel : Nat) : ∀ (n : Nat) (ds : List Char),
    (∀ c ∈ ds, c.isDigit = true) → ∀ c ∈ Nat.toDigitsCore 10 fuel n ds, c.isDigit = true := by
  induction fuel with
  | zero => intro n ds h; simpa [Nat.toDigitsCore] using h
  | succ fuel ih =>
    intro n ds h
    have hd : ∀ c ∈ Nat.digitChar (n % 10) :: ds, c.isDigit = true := by
      intro c hc
      rcases List.mem_cons.mp hc with rfl | hc
      · exact digitChar_isDigit _ (Nat.mod_lt _ (by decide))
      · exact h c hc
    unfold Nat.toDigitsCore
    simp only []
    split_ifs
    · exact hd
    · exact ih _ _ hd

theorem toDigitsCore_ne_nil (fuel : Nat) : ∀ (n : Nat) (ds : List Char),
    ds ≠ [] → Nat.toDigitsCore 10 fuel n ds ≠ [] := by
  induction fuel with
  | zero => intro n ds h; simpa [Nat.toDigitsCore] using h
  | succ fuel ih =>
    intro n ds _
    unfold Nat.toDigitsCore
    simp only []
    split_ifs
    · exact List.cons_ne_nil _ _
    · exact ih _ _ (List.cons_ne_nil _ _)

/-- The decimal text of a natural number is a non-empty run of digits. -/
theorem toString_nat_digits (n : Nat) :
    (toString n).data ≠ [] ∧ ∀ c ∈ (toString n).data, c.isDigit = true := by
  have h : (toString n).data = Nat.toDigits 10 n := rfl
  rw [h]
  constructor
  · unfold Nat.toDigits Nat.toDigitsCore
    simp only []
    split_ifs
    · exact List.cons_ne_nil _ _
    · exact toDigitsCore_ne_nil _ _ _ (List.cons_ne_nil _ _)
  · exact toDigitsCore_digits _ _ _ (by simp)

theorem takeWhile_append_stop {α : Type} (p : α → Bool) (xs : List α) (y : α) (ys : List α)
    (hxs : ∀ x ∈ xs, p x = true) (hy : p y = false) :
    (xs ++ y :: ys).takeWhile p = xs ∧ (xs ++ y :: ys).dropWhile p = y :: ys := by
  induction xs with
  | nil => simp [List.takeWhile, List.dropWhile, hy]
  | cons x xs ih =>
    have hx : p x = true := hxs x (List.mem_cons_self _ _)
    have := ih (fun z hz => hxs z (List.mem_cons_of_mem _ hz))
    simp [List.takeWhile, List.dropWhile, hx, this.1, this.2]

theorem digitRun_run (ds : List Char) (y : Char) (ys : List Char) (hne : ds ≠ [])
    (hds : ∀ c ∈ ds, c.isDigit = true) (hy : y.isDigit = false) :
    digitRun (ds ++ y :: ys) = some (ds, y :: ys) := by
  obtain ⟨h1, h2⟩ := takeWhile_append_stop Char.isDigit ds y ys hds hy
  unfold digitRun
  rw [h1, h2, if_neg hne]

/-- The rest of the pattern matches a rendered quantity and price. -/
theorem itemTail_rendered (q whole frac rest : List Char)
    (hq : q ≠ []) (hqd : ∀ c ∈ q, c.isDigit = true)
    (hw : whole ≠ []) (hwd : ∀ c ∈ whole, c.isDigit = true)
    (hfd : ∀ c ∈ frac, c.isDigit = true) :
    itemTail (' ' :: '(' :: (q ++ ' ' :: 'x' :: ' ' :: '$' :: (whole ++ '.' :: (frac ++ ')' :: rest))))
      = some (q, whole ++ '.' :: frac) := by
  have h1 := digitRun_run q ' ' ('x' :: ' ' :: '$' :: (whole ++ '.' :: (frac ++ ')' :: rest)))
    hq hqd (by decide)
  have h2 := digitRun_run whole '.' (frac ++ ')' :: rest) hw hwd (by decide)
  obtain ⟨h3, h4⟩ := takeWhile_append_stop Char.isDigit frac ')' rest hfd (by decide)
  have h5 : priceRun (whole ++ '.' :: (frac ++ ')' :: rest))
      = some (whole ++ '.' :: frac, ')' :: rest) := by
    unfold priceRun
    rw [h2]
    simp only [h3, h4]
  unfold itemTail
  simp only [h1, h5]

/-- A match of the rest of the pattern spells out its literals. -/
theorem itemTail_shape (cs q p : List Char) (h : itemTail cs = some (q, p)) :
    (∀ c ∈ q, c.isDigit = true)
      ∧ ∃ rest, cs = ' ' :: '(' :: (q ++ ' ' :: 'x' :: ' ' :: '$' :: rest) := by
  unfold itemTail at h
  split at h
  · rename_i r1
    split at h
    · rename_i quantity r2 hrun
      split at h
      · simp only [Option.some.injEq, Prod.mk.injEq] at h
        obtain ⟨rfl, _⟩ := h
        unfold digitRun at hrun
        split_ifs at hrun
        simp only [Option.some.injEq, Prod.mk.injEq] at hrun
        obtain ⟨ht, hd⟩ := hrun
        refine ⟨?_, r2, ?_⟩
        · intro c hc
          rw [← ht] at hc
          exact (List.mem_takeWhile_imp hc)
        · rw [← ht, ← hd, List.takeWhile_append_dropWhile]
      · exact Option.noConfusion h
    · exact Option.noConfusion h
  · exact Option.noConfusion h

theorem isDigit_ne_dollar (c : Char) (h : c.isDigit = true) : c ≠ '$' := by
  rintro rfl
  exact absurd h (by decide)

/-- The rest of the pattern matches nowhere inside a title without "$" that is
followed by a rendered quantity. -/
theorem itemTail_inside_title (c : Char) (title q rest : List Char)
    (hc : c ≠ '$') (ht : ∀ x ∈ title, x ≠ '$') (hqd : ∀ x ∈ q, x.isDigit = true) :
    itemTail (c :: title ++ ' ' :: '(' :: (q ++ ' ' :: 'x' :: ' ' :: '$' :: rest)) = none := by
  cases h : itemTail (c :: title ++ ' ' :: '(' :: (q ++ ' ' :: 'x' :: ' ' :: '$' :: rest)) with
  | none => rfl
  | some groups =>
    exfalso
    obtain ⟨q2, p2⟩ := groups
    obtain ⟨hq2, rest2, hshape⟩ := itemTail_shape _ _ _ h
    have hp : ∀ x : Char, (decide (x ≠ '$')) = false ↔ x = '$' := by
      intro x; simp
    have e1 := (takeWhile_append_stop (fun x : Char => decide (x ≠ '$'))
      (c :: title ++ ' ' :: '(' :: (q ++ [' ', 'x', ' '])) '$' rest (by
        intro x hx
        simp only [List.cons_append, List.mem_cons, List.mem_append] at hx
        have : x ≠ '$' := by
          rcases hx with rfl | hx | rfl | rfl | hx | hx
          · exact hc
          · exact ht x hx
          · decide
          · decide
          · exact isDigit_ne_dollar x (hqd x hx)
          · simp only [List.mem_cons, List.mem_singleton, List.not_mem_nil, or_false] at hx
            rcases hx with rfl | rfl | rfl <;> decide
        simpa using this) (by simp)).1
    have e2 := (takeWhile_append_stop (fun x : Char => decide (x ≠ '$'))
      (' ' :: '(' :: (q2 ++ [' ', 'x', ' '])) '$' rest2 (by
        intro x hx
        simp only [List.mem_cons, List.mem_append] at hx
        have : x ≠ '$' := by
          rcases hx with rfl | rfl | hx | hx
          · decide
          · decide
          · exact isDigit_ne_dollar x (hq2 x hx)
          · simp only [List.mem_cons, List.mem_singleton, List.not_mem_nil, or_false] at hx
            rcases hx with rfl | rfl | rfl <;> decide
        simpa using this) (by simp)).1
    have hsame : (c :: title ++ ' ' :: '(' :: (q ++ [' ', 'x', ' '])) ++ '$' :: rest
        = (' ' :: '(' :: (q2 ++ [' ', 'x', ' '])) ++ '$' :: rest2 := by
      simpa using hshape
    rw [hsame, e2] at e1
    have e3 : (' ' :: '(' :: q2) ++ [' ', 'x', ' ']
        = (c :: title ++ ' ' :: '(' :: q) ++ [' ', 'x', ' '] := by
      simpa using e1
    have e4 := List.append_cancel_right e3
    cases title with
    | nil =>
      simp only [List.cons_append, List.nil_append, List.cons.injEq] at e4
      exact absurd e4.2.1 (by decide)
    | cons c2 title =>
      simp only [List.cons_append, List.cons.injEq] at e4
      have hmem : ' ' ∈ q2 := by
        rw [e4.2.2]
        simp
      exact absurd (hq2 _ hmem) (by decide)

/-- With the match starting at the title of a rendered item, the groups are
that item's title, quantity and price. -/
theorem matchFrom_rendered (title q p rest : List Char)
    (ht : ∀ x ∈ title, x ≠ '$') (hl : ∀ x ∈ title, lineTerminator x = false)
    (hqd : ∀ x ∈ q, x.isDigit = true)
    (htail : itemTail (' ' :: '(' :: (q ++ ' ' :: 'x' :: ' ' :: '$' :: rest)) = some (q, p)) :
    matchFrom (title ++ ' ' :: '(' :: (q ++ ' ' :: 'x' :: ' ' :: '$' :: rest))
      = some (title, q, p) := by
  induction title with
  | nil =>
    simp only [List.nil_append]
    unfold matchFrom
    rw [htail]
  | cons c title ih =>
    have hnone := itemTail_inside_title c title q rest (ht c (List.mem_cons_self _ _))
      (fun x hx => ht x (List.mem_cons_of_mem _ hx)) hqd
    have ih2 := ih (fun x hx => ht x (List.mem_cons_of_mem _ hx))
      (fun x hx => hl x (List.mem_cons_of_mem _ hx))
    have hlc := hl c (List.mem_cons_self _ _)
    simp only [List.cons_append] at hnone ⊢
    unfold matchFrom
    rw [hnone]
    simp only [hlc, ih2, Bool.false_eq_true, if_false]

theorem itemPattern_of_matchFrom (cs : List Char) (groups : List Char × List Char × List Char)
    (h : matchFrom cs = some groups) : itemPattern cs = some groups := by
  cases cs with
  | nil => simp [matchFrom] at h
  | cons c rest =>
    unfold itemPattern
    rw [h]

theorem intercalate_go_prefix (sep : String) (others : List String) :
    ∀ acc : String, ∃ rest : String, String.intercalate.go acc sep others = acc ++ rest := by
  induction others with
  | nil => intro acc; exact ⟨"", by simp [String.intercalate.go]⟩
  | cons a others ih =>
    intro acc
    obtain ⟨rest, h⟩ := ih (acc ++ sep ++ a)
    refine ⟨sep ++ a ++ rest, ?_⟩
    show String.intercalate.go (acc ++ sep ++ a) sep others = acc ++ (sep ++ a ++ rest)
    rw [h]
    simp only [String.append_assoc]

theorem showInt_digits (n : Int) (h : 0 ≤ n) :
    (showInt n).data ≠ [] ∧ ∀ c ∈ (showInt n).data, c.isDigit = true := by
  unfold showInt
  rw [if_neg (not_lt.mpr h)]
  exact toString_nat_digits _

/-- The pattern applied to a text that starts with a rendered item. -/
theorem itemPattern_rendered (b : Book) (r : OrderItem) (rest : String)
    (ht : ∀ x ∈ b.Title.data, x ≠ '$') (hl : ∀ x ∈ b.Title.data, lineTerminator x = false)
    (hq : 0 ≤ r.Quantity) (hp : 0 ≤ r.Price) :
    itemPattern (entryText b r ++ rest).data
      = some (b.Title.data, (showInt r.Quantity).data, (showMoney r.Price).data) := by
  obtain ⟨hq1, hq2⟩ := showInt_digits r.Quantity hq
  obtain ⟨hw1, hw2⟩ := toString_nat_digits (r.Price.natAbs / 100)
  obtain ⟨_, hf1⟩ := toString_nat_digits (r.Price.natAbs % 100 / 10)
  obtain ⟨_, hf2⟩ := toString_nat_digits (r.Price.natAbs % 10)
  have hmoney : (showMoney r.Price).data = (toString (r.Price.natAbs / 100)).data
      ++ '.' :: ((toString (r.Price.natAbs % 100 / 10)).data
          ++ (toString (r.Price.natAbs % 10)).data) := by
    unfold showMoney
    rw [if_neg (not_lt.mpr hp)]
    simp only [String.data_append]
    simp [List.append_assoc]
  have htext : (entryText b r ++ rest).data
      = b.Title.data ++ ' ' :: '(' :: ((showInt r.Quantity).data ++ ' ' :: 'x' :: ' ' :: '$'
          :: ((toString (r.Price.natAbs / 100)).data
            ++ '.' :: (((toString (r.Price.natAbs % 100 / 10)).data
              ++ (toString (r.Price.natAbs % 10)).data) ++ ')' :: rest.data))) := by
    unfold entryText
    simp only [String.data_append, hmoney]
    simp [List.append_assoc]
  have htail := itemTail_rendered (showInt r.Quantity).data (toString (r.Price.natAbs / 100)).data
    ((toString (r.Price.natAbs % 100 / 10)).data ++ (toString (r.Price.natAbs % 10)).data)
    rest.data hq1 hq2 hw1 hw2 (by
      intro c hc
      rcases List.mem_append.mp hc with hc | hc
      · exact hf1 c hc
      · exact hf2 c hc)
  rw [htext, hmoney]
  exact itemPattern_of_matchFrom _ _ (matchFrom_rendered _ _ _ _ ht hl hq2 htail)

theorem itemsArray_some (books : List Book) (text : String) (h : text ≠ "") :
    itemsArray books (some text) = (parseItem books text).toList := by
  unfold itemsArray
  simp only [if_neg h]
  cases hp : parseItem books text <;> simp [List.filterMap, hp]

theorem parseItem_none (books : List Book) (text : String)
    (h : itemPattern text.data = none) : parseItem books text = none := by
  unfold parseItem
  rw [h]

theorem parseItem_no_book (books : List Book) (text : String) (t q p : List Char)
    (h : itemPattern text.data = some (t, q, p)) (hb : ∀ b ∈ books, b.Title ≠ String.mk t) :
    parseItem books text = none := by
  have hf : books.find? (fun b => decide (b.Title = String.mk t)) = none := by
    rw [List.find?_eq_none]
    intro b hmem
    simpa using hb b hmem
  unfold parseItem
  rw [h]
  simp only [hf]

theorem parseItem_book (books : List Book) (text : String) (t q p : List Char) (book : Book)
    (h : itemPattern text.data = some (t, q, p))
    (hb : books.find? (fun b => decide (b.Title = String.mk t)) = some book) :
    parseItem books text
      = some { bookId := toString book.BookID, quantity := String.mk q, price := String.mk p } := by
  unfold parseItem
  rw [h]
  simp only [hb]

theorem entry_ne_empty (b : Book) (r : OrderItem) (rest : String) :
    entryText b r ++ rest ≠ "" := by
  intro h
  have := congrArg String.length h
  unfold entryText at this
  simp only [String.length_append] at this
  have h2 : " (".length = 2 := by decide
  have h0 : "".length = 0 := by decide
  rw [h2, h0] at this
  omega

/-- C29: the form is to be filled with the first rendered item's book, quantity
and price, and the code does not do so for every listing.  The only book of
order 1 is book 2, "Sale (2 x $5)", of which it holds one copy at 9.99, so the
listing renders "Sale (2 x $5) (1 x $9.99)"; the match stops inside the title
and the form is filled with book 1, "Sale", quantity "2" and price "5", not
with the rendered item's book 2, quantity "1" and price "9.99". -/
theorem prefill_stops_inside_title :
    (GET noFaults shopWithOddTitle).1.data.map (fun views => views.map fun v => v.Items)
        = some [some "Sale (2 x $5) (1 x $9.99)"]
      ∧ shopWithOddTitle.db.OrderItems.map
            (fun r => (toString r.BookID, showInt r.Quantity, showMoney r.Price))
          = [("2", "1", "9.99")]
      ∧ formItems shopWithOddTitle.db.Books (some "Sale (2 x $5) (1 x $9.99)")
          = [{ bookId := "1", quantity := "2", price := "5" }]
      ∧ formItems shopWithOddTitle.db.Books (some "Sale (2 x $5) (1 x $9.99)")
          ≠ [{ bookId := "2", quantity := "1", price := "9.99" }] := by
  decide

/-- What the pre-population does for every `Items` text: the form gets at most
one item, and one blank item when there is none.  The text is matched once
against the pattern: without a match, or when no book has the captured title,
there is no item; otherwise the item has the captured quantity and price and
the `BookID` of the first book whose `Title` is the captured title.  When the
text is a listing of rendered items whose first item has a title without "$"
and without a line break and a quantity and a price that are not negative,
the captured title, quantity and price are that first item's. -/
theorem form_prefill (books : List Book) (items : Option String) :
    (itemsArray books items).length ≤ 1
      ∧ formItems books items
          = (if itemsArray books items = [] then [FormItem.mk "" "" ""]
             else itemsArray books items)
      ∧ (items = none ∨ items = some "" → itemsArray books items = [])
      ∧ (∀ text, items = some text → text ≠ "" →
          (itemPattern text.data = none → itemsArray books items = [])
          ∧ ∀ t q p, itemPattern text.data = some (t, q, p) →
              ((∀ b ∈ books, b.Title ≠ String.mk t) → itemsArray books items = [])
              ∧ ∀ book, books.find? (fun b => decide (b.Title = String.mk t)) = some book →
                  itemsArray books items
                    = [FormItem.mk (toString book.BookID) (String.mk q) (String.mk p)])
      ∧ (∀ (b : Book) (r : OrderItem) (others : List String),
          items = some (", ".intercalate (entryText b r :: others)) →
          (∀ x ∈ b.Title.data, x ≠ '$') → (∀ x ∈ b.Title.data, lineTerminator x = false) →
          0 ≤ r.Quantity → 0 ≤ r.Price →
          ((∀ x ∈ books, x.Title ≠ b.Title) → itemsArray books items = [])
          ∧ ∀ book, books.find? (fun x => decide (x.Title = b.Title)) = some book →
              itemsArray books items
                = [FormItem.mk (toString book.BookID) (showInt r.Quantity)
                    (showMoney r.Price)]) := by
  have hlen : (itemsArray books items).length ≤ 1 := by
    unfold itemsArray
    cases items with
    | none => simp
    | some text =>
      simp only []
      split_ifs
      · simp
      · cases hp : parseItem books text <;> simp [List.filterMap, hp]
  have hcases : ∀ text, items = some text → text ≠ "" →
      (itemPattern text.data = none → itemsArray books items = [])
      ∧ ∀ t q p, itemPattern text.data = some (t, q, p) →
          ((∀ b ∈ books, b.Title ≠ String.mk t) → itemsArray books items = [])
          ∧ ∀ book, books.find? (fun b => decide (b.Title = String.mk t)) = some book →
              itemsArray books items
                = [FormItem.mk (toString book.BookID) (String.mk q) (String.mk p)] := by
    intro text hi hne
    subst hi
    rw [itemsArray_some books text hne]
    refine ⟨fun h => by rw [parseItem_none books text h]; rfl, ?_⟩
    intro t q p h
    refine ⟨fun hb => by rw [parseItem_no_book books text t q p h hb]; rfl, ?_⟩
    intro book hb
    rw [parseItem_book books text t q p book h hb]
    rfl
  refine ⟨hlen, ?_, ?_, hcases, ?_⟩
  · unfold formItems
    cases h : itemsArray books items with
    | nil => simp
    | cons a rest => simp
  · rintro (rfl | rfl)
    · rfl
    · unfold itemsArray
      simp
  · intro b r others hi ht hl hq hp
    obtain ⟨rest, hrest⟩ := intercalate_go_prefix ", " others (entryText b r)
    have htext : ", ".intercalate (entryText b r :: others) = entryText b r ++ rest := hrest
    rw [htext] at hi
    have hpat := itemPattern_rendered b r rest ht hl hq hp
    obtain ⟨_, hgroups⟩ := hcases _ hi (entry_ne_empty b r rest)
    obtain ⟨hno, hyes⟩ := hgroups _ _ _ hpat
    exact ⟨hno, hyes⟩

/-- Order 9 of the store lists three items; the form is filled with the first
one only. -/
theorem form_prefill_witness :
    (GET noFaults shopWithEmptyOrder).1.data.map
          (fun vs => (vs.filter fun v => v.OrderID = 9).map fun v => v.Items)
        = some [some "Dune (2 x $10.00), Emma (1 x $7.50), Dune (4 x $10.00)"]
      ∧ formItems shopWithEmptyOrder.db.Books
          (some "Dune (2 x $10.00), Emma (1 x $7.50), Dune (4 x $10.00)")
        = [FormItem.mk "5" "2" "10.00"]
      ∧ itemsArray shopWithEmptyOrder.db.Books
          (some (", ".intercalate (entryText (Book.mk 5 "Dune" 3) (OrderItem.mk 3 9 5 2 1000)
            :: ["Emma (1 x $7.50)", "Dune (4 x $10.00)"])))
        = [FormItem.mk (toString 5) (showInt 2) (showMoney 1000)] :=
  ⟨by decide, by decide,
   ((form_prefill shopWithEmptyOrder.db.Books _).2.2.2.2 (Book.mk 5 "Dune" 3)
      (OrderItem.mk 3 9 5 2 1000) ["Emma (1 x $7.50)", "Dune (4 x $10.00)"] rfl
      (by decide) (by decide) (by decide) (by decide)).2 (Book.mk 5 "Dune" 3) (by decide)⟩

end Bookstore
